import Mathlib

/-!
# Bug tracker client: normalisation layer, resolvers and role filters

A shallow embedding of the data layer of the bug tracker single-page client:

* `src/services/api.js`: the per-record normalisers of `getProjects`, `getTasks`,
  `getBugs` and `getModules`;
* `src/controllers/DashboardController.jsx`: the role-based filtering of
  `fetchDashboardData` and the statistics it recomputes;
* `src/controllers/TasksController.jsx` and `src/controllers/BugsController.jsx`:
  the displayed collections and the resolver lookups;
* `src/controllers/ProjectDetailsController.jsx`: the modules, tasks and bugs
  of the project page;
* `src/context/DataContext.jsx`: the entity store, its create, update and delete
  commands, the notification log and the bulk load `loadData`.  A command is
  a function of the state and of the outcome of the backend calls it awaits;
* `src/context/AuthContext.jsx`: the session, `login` and the restore on page
  load.

JavaScript values are embedded as the inductive type `JSValue`.  Everything the
client receives is parsed JSON, so numbers are JSON integers (`Int`), strings are
sequences of Unicode scalar values, and two object (or array) values never share
a reference: they always come from different documents or different positions of
one document.  Exceptions are explicit: a function that can throw returns
`Except JSError _`.
-/

namespace BugTracker

/-- JavaScript values as they reach the client.  `builtin name` is the value of
the property `name` that every plain object inherits from `Object.prototype`
(a native function, or the prototype object itself for `__proto__`); it never
occurs in parsed JSON and arises only from a lookup with a computed key. -/
inductive JSValue where
  | undefined
  | null
  | bool (b : Bool)
  | num (n : Int)
  | str (s : String)
  | builtin (name : String)
  | arr (items : List JSValue)
  | obj (fields : List (String × JSValue))

/-- The own properties of an object, first binding of a key wins. -/
abbrev Fields := List (String × JSValue)

/-- The exceptions the embedded code can raise or receive: the TypeError and
RangeError of the language, the SyntaxError of `JSON.parse`, and the rejection
of an HTTP request by the transport or the backend. -/
inductive JSError where
  | typeError
  | rangeError
  | syntaxError
  | requestError
  deriving DecidableEq, Repr

deriving instance DecidableEq for Except

namespace JSValue

mutual
/-- Decision procedure for equality of values (structural, not `===`). -/
def decEqValue : (a b : JSValue) → Decidable (a = b)
  | undefined, undefined => isTrue rfl
  | null, null => isTrue rfl
  | bool a, bool b =>
    if h : a = b then isTrue (by rw [h]) else isFalse (by intro e; cases e; exact h rfl)
  | num a, num b =>
    if h : a = b then isTrue (by rw [h]) else isFalse (by intro e; cases e; exact h rfl)
  | str a, str b =>
    if h : a = b then isTrue (by rw [h]) else isFalse (by intro e; cases e; exact h rfl)
  | builtin a, builtin b =>
    if h : a = b then isTrue (by rw [h]) else isFalse (by intro e; cases e; exact h rfl)
  | arr a, arr b =>
    match decEqItems a b with
    | isTrue h => isTrue (by rw [h])
    | isFalse h => isFalse (by intro e; cases e; exact h rfl)
  | obj a, obj b =>
    match decEqFields a b with
    | isTrue h => isTrue (by rw [h])
    | isFalse h => isFalse (by intro e; cases e; exact h rfl)
  | undefined, null | undefined, bool _ | undefined, num _ | undefined, str _
  | undefined, builtin _ | undefined, arr _ | undefined, obj _
  | null, undefined | null, bool _ | null, num _ | null, str _
  | null, builtin _ | null, arr _ | null, obj _
  | bool _, undefined | bool _, null | bool _, num _ | bool _, str _
  | bool _, builtin _ | bool _, arr _ | bool _, obj _
  | num _, undefined | num _, null | num _, bool _ | num _, str _
  | num _, builtin _ | num _, arr _ | num _, obj _
  | str _, undefined | str _, null | str _, bool _ | str _, num _
  | str _, builtin _ | str _, arr _ | str _, obj _
  | builtin _, undefined | builtin _, null | builtin _, bool _ | builtin _, num _
  | builtin _, str _ | builtin _, arr _ | builtin _, obj _
  | arr _, undefined | arr _, null | arr _, bool _ | arr _, num _
  | arr _, str _ | arr _, builtin _ | arr _, obj _
  | obj _, undefined | obj _, null | obj _, bool _ | obj _, num _
  | obj _, str _ | obj _, builtin _ | obj _, arr _ => isFalse (by intro e; cases e)
termination_by structural a => a
/-- Decision procedure for equality of array contents. -/
def decEqItems : (a b : List JSValue) → Decidable (a = b)
  | [], [] => isTrue rfl
  | [], _ :: _ => isFalse (by intro e; cases e)
  | _ :: _, [] => isFalse (by intro e; cases e)
  | x :: xs, y :: ys =>
    match decEqValue x y with
    | isFalse h => isFalse (by intro e; cases e; exact h rfl)
    | isTrue h =>
      match decEqItems xs ys with
      | isTrue h2 => isTrue (by rw [h, h2])
      | isFalse h2 => isFalse (by intro e; cases e; exact h2 rfl)
termination_by structural a => a
/-- Decision procedure for equality of property lists. -/
def decEqFields : (a b : List (String × JSValue)) → Decidable (a = b)
  | [], [] => isTrue rfl
  | [], _ :: _ => isFalse (by intro e; cases e)
  | _ :: _, [] => isFalse (by intro e; cases e)
  | (k, x) :: xs, (l, y) :: ys =>
    if hk : k = l then
      match decEqValue x y with
      | isFalse h => isFalse (by intro e; cases e; exact h rfl)
      | isTrue h =>
        match decEqFields xs ys with
        | isTrue h2 => isTrue (by rw [hk, h, h2])
        | isFalse h2 => isFalse (by intro e; cases e; exact h2 rfl)
    else isFalse (by intro e; cases e; exact hk rfl)
termination_by structural a => a
end

instance : DecidableEq JSValue := decEqValue

/-- ToBoolean: the value counts as true in a condition, `||`, `&&`, `!`. -/
def truthy : JSValue → Bool
  | undefined => false
  | null => false
  | bool b => b
  | num n => n != 0
  | str s => s != ""
  | builtin _ => true
  | arr _ => true
  | obj _ => true

/-- Whether the value is `null` or `undefined` (a property read on it throws, and
`?.` short-circuits on it). -/
def isNullish : JSValue → Bool
  | undefined => true
  | null => true
  | _ => false

/-- The operator `a || b` on values (both operands already evaluated). -/
def or (a b : JSValue) : JSValue := if a.truthy then a else b

/-- The operator `a && b` on values (both operands already evaluated). -/
def and (a b : JSValue) : JSValue := if a.truthy then b else a

/-- Number of UTF-16 code units of a string, the `length` of a JS string. -/
def utf16Length (s : String) : Nat :=
  (s.data.map fun c => if c.val ≥ 0x10000 then 2 else 1).sum

mutual
/-- The conversion `String(v)`.  Integers print in decimal (JS does so below
10^21 in absolute value), and an object prints as `[object Object]`: the
objects of the data carry no own property named `toString` or `valueOf`. -/
def jsString : JSValue → String
  | undefined => "undefined"
  | null => "null"
  | bool true => "true"
  | bool false => "false"
  | num n => toString n
  | str s => s
  | builtin name =>
    if name = "__proto__" then "[object Object]"
    else if name = "constructor" then "function Object() \x7b [native code] \x7d"
    else "function " ++ name ++ "() \x7b [native code] \x7d"
  | arr items => joinItems items
  | obj _ => "[object Object]"
termination_by structural v => v
/-- The method `Array.prototype.join` with the default separator: `null` and
`undefined` elements render as the empty string. -/
def joinItems : List JSValue → String
  | [] => ""
  | x :: rest =>
    (match x with
      | undefined => ""
      | null => ""
      | v => jsString v)
      ++ (match rest with
          | [] => ""
          | _ :: _ => ",")
      ++ joinItems rest
termination_by structural l => l
end

/-- Strict equality `a === b`.  Primitives compare by value; two objects or two
arrays are equal only as the same reference, which parsed JSON data never is. -/
def strictEq : JSValue → JSValue → Bool
  | undefined, undefined => true
  | null, null => true
  | bool a, bool b => a == b
  | num a, num b => a == b
  | str a, str b => a == b
  | builtin a, builtin b => a == b
  | _, _ => false

/-- First binding of a key in a property list, `undefined` when absent. -/
def lookup (k : String) : Fields → JSValue
  | [] => undefined
  | (k', v) :: rest => if k' = k then v else lookup k rest

/-- Property read `v.k` with a literal, non-index key `k`, on a value that is
neither `null` nor `undefined` (on those the read throws, see `member`).
Primitives other than strings have none of the keys the client reads. -/
def get (v : JSValue) (k : String) : JSValue :=
  match v with
  | obj fields => lookup k fields
  | arr items => if k = "length" then num items.length else undefined
  | str s => if k = "length" then num (utf16Length s) else undefined
  | _ => undefined

/-- Property read `v.k`, which throws a TypeError on `null` and `undefined`. -/
def member (v : JSValue) (k : String) : Except JSError JSValue :=
  if v.isNullish then .error .typeError else .ok (v.get k)

/-- Optional chaining `v?.k`. -/
def optGet (v : JSValue) (k : String) : JSValue :=
  if v.isNullish then undefined else v.get k

end JSValue

open JSValue

/-- Property read on a record of the store. -/
def Fields.get (r : Fields) (k : String) : JSValue := JSValue.lookup k r

/-- The services of the JavaScript host that the client calls and that are not
part of the repository. -/
structure Host where
  /-- The expression `new Date(v).toISOString().split('T')[0]`: `none` when the
  date is invalid, in which case `toISOString` throws a RangeError. -/
  isoDay : JSValue → Option String
  /-- Whether the number denoted by a string (ToNumber) is greater than zero. -/
  stringGtZero : String → Bool

/-- The comparison `v > 0`: both sides are converted to numbers, objects and
arrays through their string form. -/
def gtZero (host : Host) : JSValue → Bool
  | .undefined => false
  | .null => false
  | .bool b => b
  | .num n => decide (0 < n)
  | .str s => host.stringGtZero s
  | v => host.stringGtZero (jsString v)

/-- The read `v[0]` on a value that is neither `null` nor `undefined`.  On a
string JS yields its first code unit; the model keeps the first character, which
has the same (absent) `_id` and `id` properties. -/
def first : JSValue → JSValue
  | .arr (x :: _) => x
  | .obj fields => lookup "0" fields
  | .str s => .str (String.mk (s.data.take 1))
  | _ => .undefined

/-- Map a function that can throw over a list, left to right, stopping at the
first exception (the behaviour of `Array.prototype.map` with a throwing callback). -/
def mapE {α β : Type} (f : α → Except JSError β) : List α → Except JSError (List β)
  | [] => .ok []
  | x :: xs =>
    match f x with
    | .error e => .error e
    | .ok y =>
      match mapE f xs with
      | .error e => .error e
      | .ok ys => .ok (y :: ys)

namespace Api

/-- Property names every object literal inherits from `Object.prototype`. -/
def objectPrototypeKeys : List String :=
  ["constructor", "__defineGetter__", "__defineSetter__", "hasOwnProperty",
   "__lookupGetter__", "__lookupSetter__", "isPrototypeOf", "propertyIsEnumerable",
   "toString", "valueOf", "__proto__", "toLocaleString"]

/-- The object literal `statusMap` of `getProjects` and `getProject`, read with
a computed key: `statusMap[key]`.  The literal has five own properties and,
being a plain object, inherits the properties of `Object.prototype`. -/
def statusMap (key : String) : JSValue :=
  if key = "IN_PROGRESS" then str "In Progress"
  else if key = "PLANNING" then str "Planning"
  else if key = "ACTIVE" then str "Active"
  else if key = "COMPLETED" then str "Completed"
  else if key = "ON_HOLD" then str "On Hold"
  else if key ∈ objectPrototypeKeys then builtin key
  else undefined

/-- The five status tokens of the backend API. -/
def apiStatusTokens : List String :=
  ["IN_PROGRESS", "PLANNING", "ACTIVE", "COMPLETED", "ON_HOLD"]

/-- The five status labels of the frontend. -/
def statusLabels : List String :=
  ["Planning", "Active", "In Progress", "Completed", "On Hold"]

/-- The constant `normalizedStatus` of `getProjects`:
`statusMap[project.status] || project.status || 'Planning'`.  The computed key is
converted to a string. -/
def normalizedStatus (project : JSValue) : JSValue :=
  ((statusMap (jsString (project.get "status"))).or (project.get "status")).or
    (str "Planning")

/-- The constant `assignedDeveloperId` of `getProjects`:
`project.assignedDevelopers && project.assignedDevelopers.length > 0
  ? (project.assignedDevelopers[0]._id || project.assignedDevelopers[0].id) : null`.
Reading `_id` of a first element that is `null` or `undefined` throws. -/
def assignedDeveloperId (host : Host) (project : JSValue) : Except JSError JSValue :=
  let devs := project.get "assignedDevelopers"
  if devs.truthy && gtZero host (devs.get "length") then
    if (first devs).isNullish then .error .typeError
    else .ok (((first devs).get "_id").or ((first devs).get "id"))
  else .ok null

/-- The constant `managerId` of `getProjects`:
`project.createdBy?._id || project.createdBy?.id || project.managerId`. -/
def managerId (project : JSValue) : JSValue :=
  (((project.get "createdBy").optGet "_id").or ((project.get "createdBy").optGet "id")).or
    (project.get "managerId")

/-- The constant `startDate` of `getProjects`:
`project.startDate || (project.createdAt
   ? new Date(project.createdAt).toISOString().split('T')[0] : '')`. -/
def startDate (host : Host) (project : JSValue) : Except JSError JSValue :=
  if (project.get "startDate").truthy then .ok (project.get "startDate")
  else if (project.get "createdAt").truthy then
    match host.isoDay (project.get "createdAt") with
    | some day => .ok (str day)
    | none => .error .rangeError
  else .ok (str "")

/-- The callback that `getProjects` maps over the backend records
(api.js lines 65-103). -/
def normalizeProject (host : Host) (project : JSValue) : Except JSError Fields :=
  if project.isNullish then .error .typeError
  else
    match assignedDeveloperId host project with
    | .error e => .error e
    | .ok developerId =>
      match startDate host project with
      | .error e => .error e
      | .ok start =>
        .ok [("id", (project.get "_id").or (project.get "id")),
             ("title", (project.get "name").or (project.get "title")),
             ("description", (project.get "description").or (str "")),
             ("status", normalizedStatus project),
             ("managerId", managerId project),
             ("assignedDeveloperId", developerId),
             ("startDate", start),
             ("endDate", (project.get "endDate").or (str "")),
             ("createdAt", project.get "createdAt"),
             ("updatedAt", project.get "updatedAt"),
             ("createdBy", project.get "createdBy"),
             ("assignedDevelopers", (project.get "assignedDevelopers").or (arr []))]

/-- The reference extraction shared by `getTasks` and `getBugs`:
`ref?._id || ref?.id || ref`. -/
def referenceId (ref : JSValue) : JSValue :=
  ((ref.optGet "_id").or (ref.optGet "id")).or ref

/-- The constant `assignedToId` of `getTasks` and of `getBugs`. -/
def assignedToId (record : JSValue) : JSValue := referenceId (record.get "assignedTo")

/-- The constant `reportedById` of `getBugs`. -/
def reportedById (bug : JSValue) : JSValue := referenceId (bug.get "reportedBy")

/-- The local function `normalizeDate` of `getTasks` and `getBugs`: the empty
string for a falsy value, the day of the ISO form, and the value itself when
`toISOString` throws. -/
def normalizeDate (host : Host) (dateString : JSValue) : JSValue :=
  if !dateString.truthy then str ""
  else
    match host.isoDay dateString with
    | some day => str day
    | none => dateString

/-- The callback that `getTasks` maps over the backend records
(api.js lines 299-330). -/
def normalizeTask (host : Host) (task : JSValue) : Except JSError Fields :=
  if task.isNullish then .error .typeError
  else
    .ok [("id", (task.get "_id").or (task.get "id")),
         ("projectId", task.get "projectId"),
         ("moduleId", task.get "moduleId"),
         ("title", task.get "title"),
         ("description", (task.get "description").or (str "")),
         ("assignedTo", assignedToId task),
         ("status", (task.get "status").or (str "Pending")),
         ("priority", (task.get "priority").or (str "Medium")),
         ("startDate", normalizeDate host (task.get "startDate")),
         ("endDate", normalizeDate host (task.get "endDate")),
         ("createdAt", task.get "createdAt"),
         ("updatedAt", task.get "updatedAt"),
         ("assignedToUser", task.get "assignedTo")]

/-- The constant `taskId` of `getBugs` before the final coercion:
`taskIdObj?._id || taskIdObj?.id || taskIdObj`. -/
def taskId (bug : JSValue) : JSValue := referenceId (bug.get "taskId")

/-- The callback that `getBugs` maps over the backend records
(api.js lines 521-558); the task reference is stored as `String(taskId || '')`. -/
def normalizeBug (host : Host) (bug : JSValue) : Except JSError Fields :=
  if bug.isNullish then .error .typeError
  else
    .ok [("id", (bug.get "_id").or (bug.get "id")),
         ("taskId", str (jsString ((taskId bug).or (str "")))),
         ("title", bug.get "title"),
         ("description", (bug.get "description").or (str "")),
         ("severity", (bug.get "severity").or (str "Medium")),
         ("assignedTo", assignedToId bug),
         ("reportedBy", reportedById bug),
         ("status", (bug.get "status").or (str "Open")),
         ("startDate", normalizeDate host (bug.get "startDate")),
         ("endDate", normalizeDate host (bug.get "endDate")),
         ("attachments", (bug.get "attachments").or (arr [])),
         ("createdAt", bug.get "createdAt"),
         ("updatedAt", bug.get "updatedAt")]

/-- The callback that `getModules(projectId)` maps over the backend records
(api.js lines 437-445), with `projId = String(projectId)`. -/
def normalizeModule (projectId : JSValue) (module : JSValue) : Except JSError Fields :=
  if module.isNullish then .error .typeError
  else
    .ok [("id", (module.get "_id").or (module.get "id")),
         ("projectId", (module.get "projectId").or (str (jsString projectId))),
         ("name", module.get "name"),
         ("description", (module.get "description").or (str "")),
         ("status", (module.get "status").or (str "Planning")),
         ("createdAt", module.get "createdAt"),
         ("updatedAt", module.get "updatedAt")]

/-- Whether `normalizeProject` returns a record rather than throwing: the record
is neither `null` nor `undefined`; the head of a non-empty `assignedDevelopers`
is neither `null` nor `undefined` (else reading its `_id` throws a TypeError);
and `createdAt` is rendered only when `startDate` is falsy and `createdAt` is
truthy, in which case it must be a valid date (else `toISOString` throws a
RangeError). -/
def projectDecodes (host : Host) (project : JSValue) : Bool :=
  !project.isNullish
    && !((project.get "assignedDevelopers").truthy
          && gtZero host ((project.get "assignedDevelopers").get "length")
          && (first (project.get "assignedDevelopers")).isNullish)
    && !(!(project.get "startDate").truthy && (project.get "createdAt").truthy
          && (host.isoDay (project.get "createdAt")).isNone)

/-- The records `getTasks` (and, with key `bugs`, `getBugs`) takes from the
response body: the body itself when it is an array, else its property `key`
when that is an array, else its property `data` when that is an array, else
none. -/
def recordsOf (key : String) (data : JSValue) : List JSValue :=
  match data with
  | .arr items => items
  | _ =>
    match data.optGet key with
    | .arr items => items
    | _ =>
      match (data.optGet "data") with
      | .arr items => items
      | _ => []

/-- The function `getProjects` applied to the response body:
`projects = response.data.projects || response.data || []`, then
`projects.map(...)`.  Reading `projects` of a `null` body throws, and so does
calling `map` on a value that is not an array. -/
def getProjects (host : Host) (data : JSValue) : Except JSError (List Fields) :=
  if data.isNullish then .error .typeError
  else
    match ((data.get "projects").or data).or (.arr []) with
    | .arr items => mapE (normalizeProject host) items
    | _ => .error .typeError

/-- The function `getModules(projectId)` applied to the response body:
`Array.isArray(response.data) ? response.data : (response.data.modules || [])`,
then `modules.map(...)`. -/
def getModules (projectId : JSValue) (data : JSValue) : Except JSError (List Fields) :=
  match data with
  | .arr items => mapE (normalizeModule projectId) items
  | _ =>
    if data.isNullish then .error .typeError
    else
      match (data.get "modules").or (.arr []) with
      | .arr items => mapE (normalizeModule projectId) items
      | _ => .error .typeError

/-- The function `getTasks` applied to the response body. -/
def getTasks (host : Host) (data : JSValue) : Except JSError (List Fields) :=
  mapE (normalizeTask host) (recordsOf "tasks" data)

/-- The function `getBugs` applied to the response body. -/
def getBugs (host : Host) (data : JSValue) : Except JSError (List Fields) :=
  mapE (normalizeBug host) (recordsOf "bugs" data)

end Api

/-- The method `Array.prototype.includes`: some element is the same value as
`x` (SameValueZero, which on JSON values is strict equality). -/
def includes (xs : List JSValue) (x : JSValue) : Bool :=
  xs.any fun y => strictEq y x

/-- The method `Array.prototype.filter` with a callback that can throw. -/
def filterE {α : Type} (f : α → Except JSError Bool) : List α → Except JSError (List α)
  | [] => .ok []
  | x :: xs =>
    match f x with
    | .error e => .error e
    | .ok keep =>
      match filterE f xs with
      | .error e => .error e
      | .ok ys => .ok (if keep then x :: ys else ys)

/-- The method `Array.prototype.some` with a callback that can throw: elements
after the first hit are not visited. -/
def someE {α : Type} (f : α → Except JSError Bool) : List α → Except JSError Bool
  | [] => .ok false
  | x :: xs =>
    match f x with
    | .error e => .error e
    | .ok true => .ok true
    | .ok false => someE f xs

namespace DashboardController

/-- What `fetchDashboardData` keeps after the role-based filtering. -/
structure Filtered where
  projects : List Fields
  tasks : List Fields
  bugs : List Fields
  workload : JSValue
  deriving DecidableEq

/-- Manager branch, `filteredProjects`:
`allProjects.filter(p => p.managerId === user.id || p.managerId === user._id)`. -/
def managerProjects (user : JSValue) (allProjects : List Fields) : List Fields :=
  allProjects.filter fun p =>
    strictEq (p.get "managerId") (user.get "id") || strictEq (p.get "managerId") (user.get "_id")

/-- Manager branch, `projectIds = filteredProjects.map(p => p.id)`. -/
def projectIds (filteredProjects : List Fields) : List JSValue :=
  filteredProjects.map fun p => p.get "id"

/-- Manager branch, `filteredTasks`:
`allTasks.filter(t => projectIds.includes(t.projectId))`. -/
def managerTasks (ids : List JSValue) (allTasks : List Fields) : List Fields :=
  allTasks.filter fun t => includes ids (t.get "projectId")

/-- Manager branch, the task a bug resolves to:
`allTasks.find(t => String(t.id) === String(b.taskId))`. -/
def taskOfBug (allTasks : List Fields) (b : Fields) : Option Fields :=
  allTasks.find? fun t => jsString (t.get "id") == jsString (b.get "taskId")

/-- Manager branch, `filteredBugs`: the bugs whose task is found and has its
`projectId` among `projectIds` (`task && projectIds.includes(task.projectId)`). -/
def managerBugs (ids : List JSValue) (allTasks allBugs : List Fields) : List Fields :=
  allBugs.filter fun b =>
    match taskOfBug allTasks b with
    | some task => includes ids (task.get "projectId")
    | none => false

/-- Developer branch, the callback of `assignedDevelopers.some`:
`(d.id === user.id || d._id === user.id) || d === user.id`. -/
def isDeveloper (user : JSValue) (d : JSValue) : Except JSError Bool :=
  if d.isNullish then .error .typeError
  else .ok ((strictEq (d.get "id") (user.get "id") || strictEq (d.get "_id") (user.get "id"))
            || strictEq d (user.get "id"))

/-- Developer branch, the callback of `filteredProjects`:
`p.assignedDevelopers && p.assignedDevelopers.some(...)`.  Only arrays have the
method `some`; calling it on another truthy value throws. -/
def developerProject (user : JSValue) (p : Fields) : Except JSError Bool :=
  match p.get "assignedDevelopers" with
  | .arr items => someE (isDeveloper user) items
  | v => if v.truthy then .error .typeError else .ok false

/-- Developer branch, the callback of `filteredTasks`:
`t.assignedTo === user.id || t.assignedTo === user._id ||
 (t.assignedToUser && (t.assignedToUser.id === user.id || t.assignedToUser._id === user.id))`. -/
def developerTask (user : JSValue) (t : Fields) : Bool :=
  strictEq (t.get "assignedTo") (user.get "id") || strictEq (t.get "assignedTo") (user.get "_id")
    || ((t.get "assignedToUser").truthy
        && (strictEq ((t.get "assignedToUser").get "id") (user.get "id")
            || strictEq ((t.get "assignedToUser").get "_id") (user.get "id")))

/-- Developer branch, `filteredTasks`. -/
def developerTasks (user : JSValue) (allTasks : List Fields) : List Fields :=
  allTasks.filter (developerTask user)

/-- Whether `typeof v === 'object'`: objects, arrays and `null`. -/
def typeofObject : JSValue → Bool
  | .null => true
  | .arr _ => true
  | .obj _ => true
  | .builtin name => name == "__proto__"
  | _ => false

/-- Developer branch, the callback of `filteredBugs`:
`b.assignedTo === user.id || b.assignedTo === user._id ||
 (typeof b.assignedTo === 'object' &&
   (b.assignedTo.id === user.id || b.assignedTo._id === user.id))`. -/
def developerBug (user : JSValue) (b : Fields) : Except JSError Bool :=
  if strictEq (b.get "assignedTo") (user.get "id") then .ok true
  else if strictEq (b.get "assignedTo") (user.get "_id") then .ok true
  else if typeofObject (b.get "assignedTo") then
    if (b.get "assignedTo").isNullish then .error .typeError
    else .ok (strictEq ((b.get "assignedTo").get "id") (user.get "id")
              || strictEq ((b.get "assignedTo").get "_id") (user.get "id"))
  else .ok false

/-- Tester branch, `filteredTasks`:
`allTasks.filter(t => t.assignedTo === user.id || t.assignedTo === user._id)`. -/
def testerTasks (user : JSValue) (allTasks : List Fields) : List Fields :=
  allTasks.filter fun t =>
    strictEq (t.get "assignedTo") (user.get "id") || strictEq (t.get "assignedTo") (user.get "_id")

/-- Tester branch, `filteredBugs`: reported by or assigned to the user. -/
def testerBugs (user : JSValue) (allBugs : List Fields) : List Fields :=
  allBugs.filter fun b =>
    strictEq (b.get "reportedBy") (user.get "id") || strictEq (b.get "reportedBy") (user.get "_id")
      || strictEq (b.get "assignedTo") (user.get "id")
      || strictEq (b.get "assignedTo") (user.get "_id")

/-- The role-based filtering of `fetchDashboardData`
(DashboardController.jsx lines 28-60). -/
def roleFilter (user : JSValue) (allProjects allTasks allBugs : List Fields)
    (workload : JSValue) : Except JSError Filtered :=
  if user.truthy then
    if strictEq (user.get "role") (.str "Manager") then
      let filteredProjects := managerProjects user allProjects
      let ids := projectIds filteredProjects
      .ok ⟨filteredProjects, managerTasks ids allTasks, managerBugs ids allTasks allBugs,
           workload⟩
    else if strictEq (user.get "role") (.str "Developer") then
      match filterE (developerProject user) allProjects with
      | .error e => .error e
      | .ok filteredProjects =>
        match filterE (developerBug user) allBugs with
        | .error e => .error e
        | .ok filteredBugs =>
          .ok ⟨filteredProjects, developerTasks user allTasks, filteredBugs, .arr []⟩
    else if strictEq (user.get "role") (.str "Tester") then
      .ok ⟨allProjects, testerTasks user allTasks, testerBugs user allBugs, .arr []⟩
    else .ok ⟨allProjects, allTasks, allBugs, workload⟩
  else .ok ⟨allProjects, allTasks, allBugs, workload⟩

end DashboardController

namespace TasksController

/-- The constant `myTasks`:
`tasks.filter(t => String(t.assignedTo) === String(user?.id))`. -/
def myTasks (user : JSValue) (tasks : List Fields) : List Fields :=
  tasks.filter fun t => jsString (t.get "assignedTo") == jsString (user.optGet "id")

/-- The constant `displayedTasks`:
`(user?.role === 'Admin' || user?.role === 'Manager') ? tasks : myTasks`. -/
def displayedTasks (user : JSValue) (tasks : List Fields) : List Fields :=
  if strictEq (user.optGet "role") (.str "Admin") || strictEq (user.optGet "role") (.str "Manager")
  then tasks else myTasks user tasks

/-- The resolver `getProjectTitle(projectId)` over the store's projects. -/
def getProjectTitle (projects : List Fields) (projectId : JSValue) : JSValue :=
  if !projectId.truthy then .str "Unknown Project"
  else
    match projects.find? fun p => jsString (p.get "id") == jsString projectId with
    | some project => project.get "title"
    | none => .str "Unknown Project"

/-- The resolver `getAssigneeName(id)` over the users. -/
def getAssigneeName (users : List Fields) (id : JSValue) : JSValue :=
  if !id.truthy then .str "Unassigned"
  else
    match users.find? fun u => jsString (u.get "id") == jsString id with
    | some assignee => assignee.get "name"
    | none => .str "Unassigned"

end TasksController

namespace BugsController

/-- The resolver `getRelatedTaskTitle(taskId)`:
`tasks.find((t) => t.id === taskId)`, then the title or 'Unknown Task'. -/
def getRelatedTaskTitle (tasks : List Fields) (taskId : JSValue) : JSValue :=
  match tasks.find? fun t => strictEq (t.get "id") taskId with
  | some task => task.get "title"
  | none => .str "Unknown Task"

/-- The two-hop resolver `getProjectName(taskId)`: the task by `t.id === taskId`,
then the project by `p.id === task.projectId`, then its title; 'Unknown Project'
when either lookup finds nothing. -/
def getProjectName (tasks projects : List Fields) (taskId : JSValue) : JSValue :=
  match tasks.find? fun t => strictEq (t.get "id") taskId with
  | none => .str "Unknown Project"
  | some task =>
    match projects.find? fun p => strictEq (p.get "id") (task.get "projectId") with
    | some project => project.get "title"
    | none => .str "Unknown Project"

/-- The resolver `getAssigneeName(id)`: `users.find((u) => u.id === id)`. -/
def getAssigneeName (users : List Fields) (id : JSValue) : JSValue :=
  match users.find? fun u => strictEq (u.get "id") id with
  | some assignee => assignee.get "name"
  | none => .str "Unassigned"

/-- The resolver `getReporterName(id)`: `users.find((u) => u.id === id)`. -/
def getReporterName (users : List Fields) (id : JSValue) : JSValue :=
  match users.find? fun u => strictEq (u.get "id") id with
  | some reporter => reporter.get "name"
  | none => .str "Unknown"

end BugsController

/-! ## The entity store and its commands (`src/context/DataContext.jsx`) -/

/-- Whether an object has an own property `k`. -/
def hasKey (k : String) (fields : Fields) : Bool :=
  fields.any fun kv => kv.1 == k

/-- The object spread `{...base, ...over}`: the properties of `base` keep their
position and take the value `over` gives them, and the properties only `over`
has follow in its order.  (Property names here are never array indices, which
JS would order first.) -/
def spread (base over : Fields) : Fields :=
  (base.map fun kv => if hasKey kv.1 over then (kv.1, JSValue.lookup kv.1 over) else kv)
    ++ over.filter fun kv => !hasKey kv.1 base

namespace Api

/-- The normalisation `createBug` applies to the response body (api.js lines
580-613): as `getBugs`, except that the task reference is `createdBug.taskId`
as it is. -/
def normalizeCreatedBug (host : Host) (createdBug : JSValue) : Except JSError Fields :=
  if createdBug.isNullish then .error .typeError
  else
    .ok [("id", (createdBug.get "_id").or (createdBug.get "id")),
         ("taskId", createdBug.get "taskId"),
         ("title", createdBug.get "title"),
         ("description", (createdBug.get "description").or (.str "")),
         ("severity", (createdBug.get "severity").or (.str "Medium")),
         ("assignedTo", assignedToId createdBug),
         ("reportedBy", reportedById createdBug),
         ("status", (createdBug.get "status").or (.str "Open")),
         ("startDate", normalizeDate host (createdBug.get "startDate")),
         ("endDate", normalizeDate host (createdBug.get "endDate")),
         ("attachments", (createdBug.get "attachments").or (.arr [])),
         ("createdAt", createdBug.get "createdAt"),
         ("updatedAt", createdBug.get "updatedAt")]

/-- The function `createTask`, given the outcome of the POST (the response body,
or the rejection): the body is normalised exactly as in `getTasks` (api.js lines
350-377).  The request payload is built from an object and cannot throw. -/
def createTask (host : Host) (backend : Except JSError JSValue) : Except JSError Fields :=
  match backend with
  | .error e => .error e
  | .ok data => normalizeTask host data

/-- The function `createProject`, given the outcome of the POST:
`createdProject = response.data.project || response.data`, normalised exactly as
in `getProjects` (api.js lines 216-253). -/
def createProject (host : Host) (backend : Except JSError JSValue) : Except JSError Fields :=
  match backend with
  | .error e => .error e
  | .ok data =>
    if data.isNullish then .error .typeError
    else normalizeProject host ((data.get "project").or data)

/-- The function `createModule(projectId, module)`, given the outcome of the
POST.  Reading `module.name` for the payload throws on a missing draft. -/
def createModule (projectId module : JSValue) (backend : Except JSError JSValue) :
    Except JSError Fields :=
  if module.isNullish then .error .typeError
  else
    match backend with
    | .error e => .error e
    | .ok data => normalizeModule projectId data

/-- The function `createBug(bug)`, given the outcome of the POST.  Reading
`bug.taskId` for the payload throws on a missing draft. -/
def createBug (host : Host) (bug : JSValue) (backend : Except JSError JSValue) :
    Except JSError Fields :=
  if bug.isNullish then .error .typeError
  else
    match backend with
    | .error e => .error e
    | .ok data => normalizeCreatedBug host data

/-- The function `updateTask(id, updates)`, given the outcome of the PUT: the
body normalised as in `getTasks`, with `id: updatedTask._id || updatedTask.id ||
taskId` where `taskId = String(id)` (api.js lines 392-419). -/
def updateTask (host : Host) (id : JSValue) (backend : Except JSError JSValue) :
    Except JSError Fields :=
  match backend with
  | .error e => .error e
  | .ok data =>
    match normalizeTask host data with
    | .error e => .error e
    | .ok r => .ok (spread r [("id", (r.get "id").or (.str (jsString id)))])

/-- The function `updateProject(id, updates)`: it returns the response body. -/
def updateProject (backend : Except JSError JSValue) : Except JSError JSValue := backend

/-- The function `updateModule(projectId, moduleId, updates)`, given the outcome
of the PUT: the body normalised as in `getModules`, with the id falling back to
`String(moduleId)` (api.js lines 480-490). -/
def updateModule (projectId moduleId : JSValue) (backend : Except JSError JSValue) :
    Except JSError Fields :=
  match backend with
  | .error e => .error e
  | .ok data =>
    match normalizeModule projectId data with
    | .error e => .error e
    | .ok r => .ok (spread r [("id", (r.get "id").or (.str (jsString moduleId)))])

/-- The normalisation `updateBug` applies to the response body (api.js lines
628-661): as `getBugs`, except that the id falls back to `bugId = String(id)`
and the task reference is `String(updatedBug.taskId || '')`, without
extraction from a nested object. -/
def normalizeUpdatedBug (host : Host) (id updatedBug : JSValue) : Except JSError Fields :=
  if updatedBug.isNullish then .error .typeError
  else
    .ok [("id", ((updatedBug.get "_id").or (updatedBug.get "id")).or (.str (jsString id))),
         ("taskId", .str (jsString ((updatedBug.get "taskId").or (.str "")))),
         ("title", updatedBug.get "title"),
         ("description", (updatedBug.get "description").or (.str "")),
         ("severity", (updatedBug.get "severity").or (.str "Medium")),
         ("assignedTo", assignedToId updatedBug),
         ("reportedBy", reportedById updatedBug),
         ("status", (updatedBug.get "status").or (.str "Open")),
         ("startDate", normalizeDate host (updatedBug.get "startDate")),
         ("endDate", normalizeDate host (updatedBug.get "endDate")),
         ("attachments", (updatedBug.get "attachments").or (.arr [])),
         ("createdAt", updatedBug.get "createdAt"),
         ("updatedAt", updatedBug.get "updatedAt")]

/-- The function `updateBug(id, updates)`, given the outcome of the PUT. -/
def updateBug (host : Host) (id : JSValue) (backend : Except JSError JSValue) :
    Except JSError Fields :=
  match backend with
  | .error e => .error e
  | .ok data => normalizeUpdatedBug host id data

end Api

namespace DataContext

/-- The state held by `DataProvider`. -/
structure Store where
  projects : List Fields
  modules : List Fields
  tasks : List Fields
  bugs : List Fields
  notifications : List Fields
  isLoaded : Bool
  deriving DecidableEq

/-- The two readings of the clock that `addNotification` takes: `Date.now()` and
`new Date().toISOString()`. -/
structure Clock where
  now : Int
  iso : String

/-- What an asynchronous command leaves behind: the new state, and how its
promise settles (`.ok v` resolved with `v`, `.error e` rejected with `e`). -/
structure Outcome where
  store : Store
  result : Except JSError JSValue
  deriving DecidableEq

/-- The state with the projects replaced. -/
def Store.withProjects (s : Store) (projects : List Fields) : Store :=
  ⟨projects, s.modules, s.tasks, s.bugs, s.notifications, s.isLoaded⟩

/-- The state with the modules replaced. -/
def Store.withModules (s : Store) (modules : List Fields) : Store :=
  ⟨s.projects, modules, s.tasks, s.bugs, s.notifications, s.isLoaded⟩

/-- The state with the tasks replaced. -/
def Store.withTasks (s : Store) (tasks : List Fields) : Store :=
  ⟨s.projects, s.modules, tasks, s.bugs, s.notifications, s.isLoaded⟩

/-- The state with the bugs replaced. -/
def Store.withBugs (s : Store) (bugs : List Fields) : Store :=
  ⟨s.projects, s.modules, s.tasks, bugs, s.notifications, s.isLoaded⟩

/-- The record `newNotification` of `addNotification(message, type)`. -/
def newNotification (clock : Clock) (message type : String) : Fields :=
  [("id", .num clock.now), ("message", .str message), ("type", .str type),
   ("timestamp", .str clock.iso), ("read", .bool false)]

/-- The function `addNotification(message, type)`: the new notification is put
in front of the log.  A call without `type` passes 'info'. -/
def addNotification (clock : Clock) (message type : String) (s : Store) : Store :=
  ⟨s.projects, s.modules, s.tasks, s.bugs,
   newNotification clock message type :: s.notifications, s.isLoaded⟩

/-- The read `found?.k` on the result of `Array.prototype.find`: the property of
the record found, `undefined` when none was found. -/
def optField (found : Option Fields) (k : String) : JSValue :=
  match found with
  | some record => record.get k
  | none => .undefined

/-- The command `addTask(taskData)`, given the outcome of the POST issued by
`api.createTask({ ...taskData, status: 'Pending' })`.  A failure is caught,
notified and not re-thrown. -/
def addTask (host : Host) (clock : Clock) (backend : Except JSError JSValue) (s : Store) :
    Outcome :=
  match Api.createTask host backend with
  | .ok newTask =>
    ⟨addNotification clock ("New task assigned: " ++ jsString (newTask.get "title")) "success"
        (s.withTasks (s.tasks ++ [newTask])),
     .ok .undefined⟩
  | .error _ => ⟨addNotification clock "Failed to create task" "error" s, .ok .undefined⟩

/-- The command `updateTask(taskId, updates)`, given the outcome of the PUT: the
tasks with `t.id === taskId` get the updates spread over them, and a truthy
`updates.status` is notified.  A failure is caught and not re-thrown. -/
def updateTask (host : Host) (clock : Clock) (taskId : JSValue) (updates : Fields)
    (backend : Except JSError JSValue) (s : Store) : Outcome :=
  match Api.updateTask host taskId backend with
  | .ok _ =>
    let s1 := s.withTasks
      (s.tasks.map fun t => if strictEq (t.get "id") taskId then spread t updates else t)
    let title := optField (s.tasks.find? fun t => strictEq (t.get "id") taskId) "title"
    if (updates.get "status").truthy then
      ⟨addNotification clock
          ("Task \"" ++ jsString title ++ "\" status updated to "
            ++ jsString (updates.get "status")) "info" s1,
       .ok .undefined⟩
    else ⟨s1, .ok .undefined⟩
  | .error _ => ⟨s, .ok .undefined⟩

/-- The command `addProject(projectData)`, given the outcome of the POST.
Reading `projectData.status` throws on a missing draft, inside the `try`.  A
failure is caught, notified and not re-thrown. -/
def addProject (host : Host) (clock : Clock) (projectData : JSValue)
    (backend : Except JSError JSValue) (s : Store) : Outcome :=
  match (if projectData.isNullish then .error .typeError
         else Api.createProject host backend) with
  | .ok newProject =>
    ⟨addNotification clock ("New project created: " ++ jsString (newProject.get "title"))
        "success" (s.withProjects (s.projects ++ [newProject])),
     .ok .undefined⟩
  | .error _ => ⟨addNotification clock "Failed to create project" "error" s, .ok .undefined⟩

/-- The command `addModule(projectId, moduleData)`, given the outcome of the
POST.  A failure is notified and re-thrown. -/
def addModule (clock : Clock) (projectId moduleData : JSValue)
    (backend : Except JSError JSValue) (s : Store) : Outcome :=
  match Api.createModule projectId moduleData backend with
  | .ok newModule =>
    ⟨addNotification clock ("New module created: " ++ jsString (newModule.get "name"))
        "success" (s.withModules (s.modules ++ [newModule])),
     .ok .undefined⟩
  | .error e => ⟨addNotification clock "Failed to create module" "error" s, .error e⟩

/-- The command `updateModule(projectId, moduleId, updates)`, given the outcome
of the PUT: the modules with `m.projectId === projectId && m.id === moduleId`
get the updates spread over them, and the update is always notified.  A failure
is notified and re-thrown. -/
def updateModule (clock : Clock) (projectId moduleId : JSValue) (updates : Fields)
    (backend : Except JSError JSValue) (s : Store) : Outcome :=
  match Api.updateModule projectId moduleId backend with
  | .ok _ =>
    let s1 := s.withModules
      (s.modules.map fun m =>
        if strictEq (m.get "projectId") projectId && strictEq (m.get "id") moduleId
        then spread m updates else m)
    let name := optField
      (s.modules.find? fun m =>
        strictEq (m.get "projectId") projectId && strictEq (m.get "id") moduleId) "name"
    ⟨addNotification clock ("Module \"" ++ jsString name ++ "\" updated successfully") "info" s1,
     .ok .undefined⟩
  | .error e => ⟨addNotification clock "Failed to update module" "error" s, .error e⟩

/-- The command `deleteModule(projectId, moduleId)`, given the outcome of the
DELETE: the modules are filtered locally, dropping those with
`Number(m.projectId) === Number(projectId) && Number(m.id) === Number(moduleId)`;
`numberEq a b` is the host's `Number(a) === Number(b)`.  A failure is notified and
re-thrown. -/
def deleteModule (clock : Clock) (numberEq : JSValue → JSValue → Bool)
    (projectId moduleId : JSValue) (backend : Except JSError JSValue) (s : Store) : Outcome :=
  match backend with
  | .ok _ =>
    ⟨addNotification clock "Module deleted successfully" "info"
        (s.withModules (s.modules.filter fun m =>
          !(numberEq (m.get "projectId") projectId && numberEq (m.get "id") moduleId))),
     .ok .undefined⟩
  | .error e => ⟨addNotification clock "Failed to delete module" "error" s, .error e⟩

/-- The command `updateProject(projectId, updates)`, given the outcome of the
PUT: the projects with `p.id === projectId` get the updates spread over them, and
the update is always notified.  A failure is caught and not re-thrown. -/
def updateProject (clock : Clock) (projectId : JSValue) (updates : Fields)
    (backend : Except JSError JSValue) (s : Store) : Outcome :=
  match Api.updateProject backend with
  | .ok _ =>
    let s1 := s.withProjects
      (s.projects.map fun p => if strictEq (p.get "id") projectId then spread p updates else p)
    let title := optField (s.projects.find? fun p => strictEq (p.get "id") projectId) "title"
    ⟨addNotification clock ("Project \"" ++ jsString title ++ "\" updated successfully") "info"
        s1,
     .ok .undefined⟩
  | .error _ => ⟨s, .ok .undefined⟩

/-- The constant `normalizedBug` of `addBug`:
`{ ...newBug, id: newBug.id || newBug._id, taskId: newBug.taskId }`. -/
def addedBug (newBug : Fields) : Fields :=
  spread newBug [("id", (newBug.get "id").or (newBug.get "_id")),
                 ("taskId", newBug.get "taskId")]

/-- The command `addBug(bugData)`, given the outcome of the POST: the created bug
is appended, notified with the type 'error', and returned.  A failure is
notified and re-thrown. -/
def addBug (host : Host) (clock : Clock) (bugData : JSValue)
    (backend : Except JSError JSValue) (s : Store) : Outcome :=
  match Api.createBug host bugData backend with
  | .ok newBug =>
    ⟨addNotification clock ("New bug reported: " ++ jsString ((addedBug newBug).get "title"))
        "error" (s.withBugs (s.bugs ++ [addedBug newBug])),
     .ok (.obj (addedBug newBug))⟩
  | .error e => ⟨addNotification clock "Failed to report bug" "error" s, .error e⟩

/-- The constant `normalizedBug` of `updateBug`:
`{ ...updatedBug, id: updatedBug.id || updatedBug._id || bugId }`. -/
def updatedBugRecord (bugId : JSValue) (updatedBug : Fields) : Fields :=
  spread updatedBug
    [("id", ((updatedBug.get "id").or (updatedBug.get "_id")).or bugId)]

/-- The command `updateBug(bugId, updates)`, given the outcome of the PUT: the
bugs with `String(b.id) === String(bugId)` are replaced by the normalised
response, and a truthy `updates.status` is notified.  A failure is re-thrown. -/
def updateBug (host : Host) (clock : Clock) (bugId : JSValue) (updates : Fields)
    (backend : Except JSError JSValue) (s : Store) : Outcome :=
  match Api.updateBug host bugId backend with
  | .ok updatedBug =>
    let s1 := s.withBugs
      (s.bugs.map fun b =>
        if jsString (b.get "id") == jsString bugId then updatedBugRecord bugId updatedBug
        else b)
    let title :=
      optField (s.bugs.find? fun b => jsString (b.get "id") == jsString bugId) "title"
    if (updates.get "status").truthy then
      ⟨addNotification clock
          ("Bug \"" ++ jsString title ++ "\" status updated to "
            ++ jsString (updates.get "status")) "info" s1,
       .ok .undefined⟩
    else ⟨s1, .ok .undefined⟩
  | .error e => ⟨s, .error e⟩

/-- The outcome of a listing call `api.getXs()`: the rejection of the GET, or
the normalisation of its response body. -/
def fetchList (fetch : JSValue → Except JSError (List Fields))
    (listing : Except JSError JSValue) : Except JSError (List Fields) :=
  match listing with
  | .error e => .error e
  | .ok data => fetch data

/-- The outcome of `await api.deleteX(id)` followed by `await api.getXs()`: the
delete response is dropped and the listing is fetched only after a successful
delete. -/
def deleteThenFetch (fetch : JSValue → Except JSError (List Fields))
    (backend listing : Except JSError JSValue) : Except JSError (List Fields) :=
  match backend with
  | .error e => .error e
  | .ok _ => fetchList fetch listing

/-- The command `deleteProject(projectId)`, given the outcomes of the DELETE and
of the GET that follows it: the projects are replaced by the fetched list.  A
failure of either call is caught, notified and not re-thrown. -/
def deleteProject (host : Host) (clock : Clock) (backend listing : Except JSError JSValue)
    (s : Store) : Outcome :=
  match deleteThenFetch (Api.getProjects host) backend listing with
  | .ok updatedProjects =>
    ⟨addNotification clock "Project deleted successfully" "info"
        (s.withProjects updatedProjects),
     .ok .undefined⟩
  | .error _ => ⟨addNotification clock "Failed to delete project" "error" s, .ok .undefined⟩

/-- The command `deleteTask(taskId)`, given the outcomes of the DELETE and of the
GET that follows it. -/
def deleteTask (host : Host) (clock : Clock) (backend listing : Except JSError JSValue)
    (s : Store) : Outcome :=
  match deleteThenFetch (Api.getTasks host) backend listing with
  | .ok updatedTasks =>
    ⟨addNotification clock "Task deleted successfully" "info" (s.withTasks updatedTasks),
     .ok .undefined⟩
  | .error _ => ⟨addNotification clock "Failed to delete task" "error" s, .ok .undefined⟩

/-- The command `deleteBug(bugId)`, given the outcomes of the DELETE and of the
GET that follows it. -/
def deleteBug (host : Host) (clock : Clock) (backend listing : Except JSError JSValue)
    (s : Store) : Outcome :=
  match deleteThenFetch (Api.getBugs host) backend listing with
  | .ok updatedBugs =>
    ⟨addNotification clock "Bug report deleted successfully" "info" (s.withBugs updatedBugs),
     .ok .undefined⟩
  | .error _ => ⟨addNotification clock "Failed to delete bug" "error" s, .ok .undefined⟩

/-- The outcome of `api.getModules(project.id)` inside the loop of `loadData`,
given the backend's answer for that project id. -/
def fetchModules (modulesOf : JSValue → Except JSError JSValue) (project : Fields) :
    Except JSError (List Fields) :=
  match modulesOf (project.get "id") with
  | .error e => .error e
  | .ok data => Api.getModules (project.get "id") data

/-- The loop of `loadData` over the loaded projects: the modules of each project
are appended in project order, and a project whose fetch fails is skipped. -/
def loadModules (modulesOf : JSValue → Except JSError JSValue) : List Fields → List Fields
  | [] => []
  | project :: rest =>
    match fetchModules modulesOf project with
    | .ok projectModules => projectModules ++ loadModules modulesOf rest
    | .error _ => loadModules modulesOf rest

/-- The effect `loadData` of `DataProvider`, given the answers of the backend to
the three listings and to the module listing of each project id, and the stored
notification log (`.error` when `JSON.parse` of the stored text throws).
Without a user the collections are emptied.  If a listing fails, or the stored
log cannot be parsed, the four collections are emptied and the log is left as it
is. -/
def loadData (host : Host) (user : JSValue)
    (projectsBody tasksBody bugsBody : Except JSError JSValue)
    (modulesOf : JSValue → Except JSError JSValue)
    (stored : Except JSError (List Fields)) (s : Store) : Store :=
  if !user.truthy then ⟨[], [], [], [], s.notifications, true⟩
  else
    match fetchList (Api.getProjects host) projectsBody,
          fetchList (Api.getTasks host) tasksBody,
          fetchList (Api.getBugs host) bugsBody with
    | .ok loadedProjects, .ok loadedTasks, .ok loadedBugs =>
      match stored with
      | .ok storedNotifications =>
        ⟨loadedProjects, loadModules modulesOf loadedProjects, loadedTasks, loadedBugs,
         storedNotifications, true⟩
      | .error _ => ⟨[], [], [], [], s.notifications, true⟩
    | _, _, _ => ⟨[], [], [], [], s.notifications, true⟩

end DataContext

namespace DataContext

/-- The value of the parameter `type` of `addNotification(message, type = 'info')`:
the argument given, 'info' when the call passes none. -/
def typeOrDefault (type : Option String) : String :=
  match type with
  | some t => t
  | none => "info"

/-- A run of `addNotification` calls, the earliest first; each call comes with
the readings of the clock it takes. -/
def addNotifications (calls : List (Clock × String × String)) (s : Store) : Store :=
  calls.foldl (fun st call => addNotification call.1 call.2.1 call.2.2 st) s

/-- The function `markNotificationRead(id)`:
`prev.map(n => n.id === id ? \x7b ...n, read: true \x7d : n)`. -/
def markNotificationRead (id : JSValue) (s : Store) : Store :=
  ⟨s.projects, s.modules, s.tasks, s.bugs,
   s.notifications.map (fun n =>
     if strictEq (n.get "id") id then spread n [("read", .bool true)] else n),
   s.isLoaded⟩

end DataContext

/-! ## The session (`src/context/AuthContext.jsx`) -/

/-- The properties `"i"`, `"i+1"`, ... that a spread copies from the elements of
an array or the characters of a string. -/
def indexedFrom (i : Nat) : List JSValue → Fields
  | [] => []
  | x :: xs => (toString i, x) :: indexedFrom (i + 1) xs

/-- The own enumerable properties that an object spread `\x7b ...v \x7d` copies:
those of an object, the elements of an array, the characters of a string
(one per code point, which is exact for text of the basic plane), and none for
the other primitives and for `null` and `undefined`. -/
def spreadValue : JSValue → Fields
  | .obj fields => fields
  | .arr items => indexedFrom 0 items
  | .str s => indexedFrom 0 (s.data.map fun c => .str (String.singleton c))
  | _ => []

namespace AuthContext

/-- The normalisation of the stored session in the lazy initializer of `user`
(lines 15-24), applied to the value that `JSON.parse` returned; reading a
property of `null` throws. -/
def restoreNormalize (parsedUser : JSValue) : Except JSError JSValue :=
  if parsedUser.isNullish then .error .typeError
  else if (parsedUser.get "user").truthy && (parsedUser.get "token").truthy then
    .ok (.obj (spread (spreadValue (parsedUser.get "user"))
                 [("token", parsedUser.get "token")]))
  else if (parsedUser.get "data").truthy && ((parsedUser.get "data").get "user").truthy then
    .ok (.obj (spread (spreadValue ((parsedUser.get "data").get "user"))
                 [("token", (parsedUser.get "data").get "token")]))
  else .ok parsedUser

/-- The normalisation of the login response in `login` (lines 45-58), applied to
the body that `api.login` resolved with. -/
def loginNormalize (userData : JSValue) : Except JSError JSValue :=
  if userData.isNullish then .error .typeError
  else
    let normalizedUser := userData
    if (userData.get "user").truthy && (userData.get "token").truthy then
      .ok (.obj (spread (spreadValue (userData.get "user")) [("token", userData.get "token")]))
    else if (userData.get "data").truthy && ((userData.get "data").get "user").truthy then
      .ok (.obj (spread (spreadValue ((userData.get "data").get "user"))
                   [("token", (userData.get "data").get "token")]))
    else .ok normalizedUser

/-- The session: the state `user` of `AuthProvider` and the item 'tracker_user'
of the session storage (`none` when the item is absent). -/
structure Session where
  user : JSValue
  storedUser : Option String
  deriving DecidableEq

/-- What `login` leaves behind: the session, and how its promise settles. -/
structure LoginOutcome where
  session : Session
  result : Except JSError Bool
  deriving DecidableEq

/-- The function `login(email, password)` as a function of the outcome of
`api.login`, of `JSON.stringify` and of the session storage: the whole body runs
inside `try`, whose `catch` returns `false`.  `accepts text` tells whether
`sessionStorage.setItem('tracker_user', text)` stores the text; when the write
throws instead (quota exceeded, storage disabled), the `catch` runs after
`setUser(normalizedUser)` has been called and nothing is stored. -/
def login (stringify : JSValue → String) (accepts : String → Bool)
    (backend : Except JSError JSValue) (s : Session) : LoginOutcome :=
  match backend with
  | .error _ => ⟨s, .ok false⟩
  | .ok userData =>
    match loginNormalize userData with
    | .error _ => ⟨s, .ok false⟩
    | .ok normalizedUser =>
      if accepts (stringify normalizedUser) then
        ⟨⟨normalizedUser, some (stringify normalizedUser)⟩, .ok true⟩
      else ⟨⟨normalizedUser, s.storedUser⟩, .ok false⟩

/-- The function `logout`. -/
def logout (_s : Session) : Session := ⟨.null, none⟩

/-- The lazy initializer of `user` as a function of `JSON.parse` and of the
stored item: a stored text that does not parse or does not normalise is
removed and the session starts signed out. -/
def restore (parse : String → Except JSError JSValue) (storedUser : Option String) : Session :=
  match storedUser with
  | none => ⟨.null, none⟩
  | some text =>
    if text = "" then ⟨.null, some text⟩
    else
      match parse text with
      | .error _ => ⟨.null, none⟩
      | .ok parsedUser =>
        match restoreNormalize parsedUser with
        | .error _ => ⟨.null, none⟩
        | .ok normalizedUser => ⟨normalizedUser, some text⟩

end AuthContext

/-! ## The project page (`src/controllers/ProjectDetailsController.jsx`) -/

namespace ProjectDetailsController

/-- The code points that `String.prototype.trim` strips: the white space and the
line terminators of the language. -/
def isTrimmed (c : Char) : Bool :=
  c.toNat ∈ [0x09, 0x0A, 0x0B, 0x0C, 0x0D, 0x20, 0xA0, 0x1680, 0x2028, 0x2029, 0x202F,
             0x205F, 0x3000, 0xFEFF]
    || (0x2000 ≤ c.toNat && c.toNat ≤ 0x200A)

/-- The method `String.prototype.trim`. -/
def trim (s : String) : String :=
  String.mk ((s.data.dropWhile isTrimmed).reverse.dropWhile isTrimmed).reverse

/-- The list `projectModules`:
`project ? safeModules.filter(m => String(m.projectId) === String(project.id)) : []`. -/
def projectModules (project : JSValue) (modules : List Fields) : List Fields :=
  if project.truthy then
    modules.filter fun m => jsString (m.get "projectId") == jsString (project.get "id")
  else []

/-- The list `projectTasks`:
`project ? safeTasks.filter(t => String(t.projectId) === String(project.id)) : []`. -/
def projectTasks (project : JSValue) (tasks : List Fields) : List Fields :=
  if project.truthy then
    tasks.filter fun t => jsString (t.get "projectId") == jsString (project.get "id")
  else []

/-- The callback of `projectBugs` (lines 112-157): a bug without `taskId`, or
whose trimmed `taskId` is empty, is dropped; otherwise the bug is kept when
`projectTasks.find` returns a task whose `String(t.id || '').trim()` is the
trimmed `taskId`. -/
def bugOfProject (tasksOfProject : List Fields) (b : Fields) : Bool :=
  if !(b.get "taskId").truthy then false
  else
    let bugTaskId := trim (jsString (b.get "taskId"))
    if bugTaskId == "" then false
    else
      (tasksOfProject.find? fun t =>
        trim (jsString ((t.get "id").or (.str ""))) == bugTaskId).isSome

/-- The list `projectBugs`: `project ? safeBugs.filter(...) : []`. -/
def projectBugs (project : JSValue) (tasks bugs : List Fields) : List Fields :=
  if project.truthy then bugs.filter (bugOfProject (projectTasks project tasks)) else []

end ProjectDetailsController

/-! ## Dashboard statistics (`src/controllers/DashboardController.jsx`, lines 62-92) -/

/-- The quotient `n / d` rounded to the nearest integer, ties to even. -/
def roundHalfEven (n d : Nat) : Nat :=
  if 2 * (n % d) < d then n / d
  else if d < 2 * (n % d) then n / d + 1
  else if (n / d) % 2 = 0 then n / d
  else n / d + 1

/-- A positive double-precision number `mant / 2 ^ scale` with `2 ^ 52 ≤ mant ≤
2 ^ 53`.  The numbers of the dashboard lie between 2⁻¹⁰²² and 2⁵², where every
double has this form. -/
structure Double where
  mant : Nat
  scale : Nat
  deriving DecidableEq

namespace Double

/-- The search for the least scale `k` from `k` on with `2 ^ 52 ≤ n * 2 ^ k / d`. -/
def scaleFrom (n d : Nat) : Nat → Nat → Nat
  | 0, k => k
  | fuel + 1, k => if 2 ^ 52 * d ≤ n * 2 ^ k then k else scaleFrom n d fuel (k + 1)

/-- The scale at which the fraction `n / d` has a 53-bit integer part:
`2 ^ 52 ≤ n * 2 ^ scale / d < 2 ^ 53`, for `0 < n`, `0 < d` and `n / d < 2 ^ 53`.
The search ends within `53 + d` steps, because `d < 2 ^ d`. -/
def scaleOf (n d : Nat) : Nat := scaleFrom n d (53 + d) 0

/-- The double nearest to the fraction `n / d`, ties to the even mantissa: the
rounding of every arithmetic operation of the language. -/
def nearest (n d : Nat) : Double :=
  ⟨roundHalfEven (n * 2 ^ scaleOf n d) d, scaleOf n d⟩

/-- The quotient `a / b` of two positive integers below 2⁵³. -/
def divide (a b : Nat) : Double := nearest a b

/-- The product `x * k` with a positive integer `k`. -/
def times (x : Double) (k : Nat) : Double := nearest (x.mant * k) (2 ^ x.scale)

/-- The function `Math.round` on a positive double: `⌊x + 1/2⌋`. -/
def round (x : Double) : Nat := (2 * x.mant + 2 ^ x.scale) / 2 ^ (x.scale + 1)

end Double

namespace DashboardController

/-- The object `calculatedStats` that the dashboard recomputes for a user who is
not an Admin. -/
structure Stats where
  totalWork : Nat
  completedWork : Nat
  inProgressWork : Nat
  pendingWork : Nat
  completionPercentage : Nat
  taskStats : Nat × Nat × Nat × Nat
  bugStats : Nat × Nat × Nat × Nat
  projectStats : Nat × Nat × Nat × Nat
  deriving DecidableEq

/-- The count `records.filter(r => r.status === status).length`. -/
def countStatus (records : List Fields) (status : String) : Nat :=
  (records.filter fun r => strictEq (r.get "status") (.str status)).length

/-- The value `Math.round((completedWork / totalWork) * 100)` in double-precision
arithmetic; the quotient `0 / totalWork` is zero, and so is its percentage. -/
def percentage (completedWork totalWork : Nat) : Nat :=
  if completedWork = 0 then 0
  else Double.round (Double.times (Double.divide completedWork totalWork) 100)

/-- The statistics recomputed for a user who is not an Admin (lines 63-91):
`completionPercentage` starts at 0 and is assigned when `totalWork > 0`. -/
def calculatedStats (filteredProjects filteredTasks filteredBugs : List Fields) : Stats :=
  let totalWork := filteredTasks.length + filteredBugs.length
  let completedWork := countStatus filteredTasks "Completed" + countStatus filteredBugs "Resolved"
  ⟨totalWork,
   completedWork,
   countStatus filteredTasks "In Progress" + countStatus filteredBugs "In Progress",
   countStatus filteredTasks "Pending" + countStatus filteredBugs "Open",
   if 0 < totalWork then percentage completedWork totalWork else 0,
   (filteredTasks.length, countStatus filteredTasks "Completed",
    countStatus filteredTasks "In Progress", countStatus filteredTasks "Pending"),
   (filteredBugs.length, countStatus filteredBugs "Resolved",
    countStatus filteredBugs "In Progress", countStatus filteredBugs "Open"),
   (filteredProjects.length, countStatus filteredProjects "Active",
    countStatus filteredProjects "In Progress", countStatus filteredProjects "Completed")⟩

end DashboardController

/-! ## Concrete sessions and backend records used in the examples -/

namespace Examples

/-- A host whose date and number services are never consulted by the examples. -/
def host : Host := ⟨fun _ => none, fun _ => false⟩

/-- A developer session whose backend user carries only the Mongo key `_id`. -/
def mongoDeveloper : JSValue :=
  .obj [("_id", .str "u1"), ("name", .str "Dev"), ("role", .str "Developer")]

/-- A developer session with the key `id`, as in the login scenario of the spec. -/
def developer : JSValue :=
  .obj [("id", .str "u1"), ("name", .str "Dev"), ("role", .str "Developer")]

/-- A backend task assigned to user `u1` by a nested user object. -/
def backendTask : JSValue :=
  .obj [("_id", .str "t1"), ("projectId", .str "p1"), ("title", .str "Fix login"),
        ("assignedTo", .obj [("_id", .str "u1"), ("name", .str "Dev")])]

/-- The normalised form of `backendTask`. -/
def task : Fields :=
  [("id", .str "t1"), ("projectId", .str "p1"), ("moduleId", .undefined),
   ("title", .str "Fix login"), ("description", .str ""), ("assignedTo", .str "u1"),
   ("status", .str "Pending"), ("priority", .str "Medium"), ("startDate", .str ""),
   ("endDate", .str ""), ("createdAt", .undefined), ("updatedAt", .undefined),
   ("assignedToUser", .obj [("_id", .str "u1"), ("name", .str "Dev")])]

/-- A stored task whose assignee id is the number 5. -/
def numericTask : Fields :=
  [("id", .str "t2"), ("projectId", .str "p1"), ("title", .str "Write docs"),
   ("assignedTo", .num 5), ("assignedToUser", .num 5)]

/-- A developer session whose id is the string "5". -/
def developerFive : JSValue :=
  .obj [("id", .str "5"), ("role", .str "Developer")]

/-- An administrator session. -/
def admin : JSValue := .obj [("id", .str "a1"), ("role", .str "Admin")]

/-- A manager session whose backend user carries only the Mongo key `_id`. -/
def mongoManager : JSValue :=
  .obj [("_id", .str "m1"), ("name", .str "Max"), ("role", .str "Manager")]

/-- A manager session with the key `id`. -/
def manager : JSValue :=
  .obj [("id", .str "m1"), ("name", .str "Max"), ("role", .str "Manager")]

/-- The backend project of the spec scenario. -/
def backendProject : JSValue :=
  .obj [("_id", .str "p1"), ("name", .str "Site"), ("status", .str "IN_PROGRESS"),
        ("createdBy", .obj [("_id", .str "m1")])]

/-- The normalised form of `backendProject`. -/
def project : Fields :=
  [("id", .str "p1"), ("title", .str "Site"), ("description", .str ""),
   ("status", .str "In Progress"), ("managerId", .str "m1"),
   ("assignedDeveloperId", .null), ("startDate", .str ""), ("endDate", .str ""),
   ("createdAt", .undefined), ("updatedAt", .undefined),
   ("createdBy", .obj [("_id", .str "m1")]), ("assignedDevelopers", .arr [])]

/-- A bug on task `t1`. -/
def bug : Fields :=
  [("id", .str "b1"), ("taskId", .str "t1"), ("title", .str "Crash"),
   ("assignedTo", .str "u1"), ("reportedBy", .str "q1"), ("status", .str "Open")]

/-- A backend project record that has neither `name` nor `title`. -/
def namelessBackendProject : JSValue := .obj [("_id", .str "p1")]

/-- The normalised form of `namelessBackendProject`: its title is undefined. -/
def namelessProject : Fields :=
  [("id", .str "p1"), ("title", .undefined), ("description", .str ""),
   ("status", .str "Planning"), ("managerId", .undefined),
   ("assignedDeveloperId", .null), ("startDate", .str ""), ("endDate", .str ""),
   ("createdAt", .undefined), ("updatedAt", .undefined),
   ("createdBy", .undefined), ("assignedDevelopers", .arr [])]

/-- A backend that uses numeric ids: a task with id 5 in project 3. -/
def numericBackendTask : JSValue :=
  .obj [("id", .num 5), ("projectId", .num 3), ("title", .str "Fix login"),
        ("assignedTo", .num 7)]

/-- A backend bug on task 5, assigned to user 7 and reported by user 8. -/
def numericBackendBug : JSValue :=
  .obj [("id", .num 9), ("taskId", .num 5), ("title", .str "Crash"),
        ("assignedTo", .num 7), ("reportedBy", .num 8)]

/-- The normalised form of `numericBackendTask`: the id stays the number 5. -/
def storedNumericTask : Fields :=
  [("id", .num 5), ("projectId", .num 3), ("moduleId", .undefined),
   ("title", .str "Fix login"), ("description", .str ""), ("assignedTo", .num 7),
   ("status", .str "Pending"), ("priority", .str "Medium"), ("startDate", .str ""),
   ("endDate", .str ""), ("createdAt", .undefined), ("updatedAt", .undefined),
   ("assignedToUser", .num 7)]

/-- The normalised form of `numericBackendBug`: the task reference is the string "5". -/
def storedNumericBug : Fields :=
  [("id", .num 9), ("taskId", .str "5"), ("title", .str "Crash"), ("description", .str ""),
   ("severity", .str "Medium"), ("assignedTo", .num 7), ("reportedBy", .num 8),
   ("status", .str "Open"), ("startDate", .str ""), ("endDate", .str ""),
   ("attachments", .arr []), ("createdAt", .undefined), ("updatedAt", .undefined)]

/-- A stored project with the numeric id 3. -/
def storedNumericProject : Fields := [("id", .num 3), ("title", .str "Site")]

/-- Stored users with numeric ids. -/
def storedNumericUsers : List Fields :=
  [[("id", .num 7), ("name", .str "Dev")], [("id", .num 8), ("name", .str "Quinn")]]

/-- A backend task that is explicitly unassigned. -/
def unassignedBackendTask : JSValue :=
  .obj [("_id", .str "t3"), ("title", .str "Triage"), ("assignedTo", .null)]

/-- A backend task whose assignee object carries no id at all. -/
def anonymousBackendTask : JSValue :=
  .obj [("_id", .str "t4"), ("title", .str "Review"),
        ("assignedTo", .obj [("name", .str "Bob")])]

/-- A backend task whose assignee object carries both `id` and `_id`. -/
def twoKeyBackendTask : JSValue :=
  .obj [("_id", .str "t5"), ("title", .str "Deploy"),
        ("assignedTo", .obj [("id", .str "X"), ("_id", .str "Y")])]

/-- A backend bug without a task reference. -/
def looseBackendBug : JSValue := .obj [("_id", .str "b2"), ("title", .str "Glitch")]

/-- A backend record that carries different values under `id` and `_id`. -/
def twoIdRecord : JSValue :=
  .obj [("id", .str "a"), ("_id", .str "b"), ("name", .str "Site"), ("title", .str "Site")]

/-- A backend record whose id is the number 5. -/
def numericIdRecord : JSValue :=
  .obj [("id", .num 5), ("name", .str "Site"), ("title", .str "Site")]

/-- A backend project whose status is spelled in lower case. -/
def lowerCaseBackendProject : JSValue :=
  .obj [("_id", .str "p2"), ("name", .str "Shop"), ("status", .str "in_progress")]

/-- A backend project whose status token is the name of an inherited property. -/
def constructorBackendProject : JSValue :=
  .obj [("_id", .str "p3"), ("name", .str "Docs"), ("status", .str "constructor")]

/-- A host that renders the dates of the examples as JS does and treats every
other value as an invalid date. -/
def isoHost : Host :=
  ⟨fun v =>
     if v = .str "2024-01-15T10:30:00.000Z" then some "2024-01-15"
     else if v = .str "2024-01-15" then some "2024-01-15"
     else if v = .str "2024-02-20T08:00:00.000Z" then some "2024-02-20"
     else if v = .str "2024-02-20" then some "2024-02-20"
     else none,
   fun _ => false⟩

/-- A backend project with a status token and a creation time. -/
def createdBackendProject : JSValue :=
  .obj [("_id", .str "p6"), ("name", .str "Shop"), ("status", .str "ON_HOLD"),
        ("createdAt", .str "2024-01-15T10:30:00.000Z")]

/-- The normalised form of `createdBackendProject` under `isoHost`. -/
def createdProject : Fields :=
  [("id", .str "p6"), ("title", .str "Shop"), ("description", .str ""),
   ("status", .str "On Hold"), ("managerId", .undefined),
   ("assignedDeveloperId", .null), ("startDate", .str "2024-01-15"), ("endDate", .str ""),
   ("createdAt", .str "2024-01-15T10:30:00.000Z"), ("updatedAt", .undefined),
   ("createdBy", .undefined), ("assignedDevelopers", .arr [])]

/-- The result of normalising the normalised task `task` again: the auxiliary
`assignedToUser` is now the id. -/
def renormalizedTask : Fields :=
  [("id", .str "t1"), ("projectId", .str "p1"), ("moduleId", .undefined),
   ("title", .str "Fix login"), ("description", .str ""), ("assignedTo", .str "u1"),
   ("status", .str "Pending"), ("priority", .str "Medium"), ("startDate", .str ""),
   ("endDate", .str ""), ("createdAt", .undefined), ("updatedAt", .undefined),
   ("assignedToUser", .str "u1")]

/-- A backend task with ISO date-times, assigned by a bare id. -/
def datedBackendTask : JSValue :=
  .obj [("_id", .str "t6"), ("title", .str "Ship"), ("assignedTo", .str "u1"),
        ("startDate", .str "2024-01-15T10:30:00.000Z"),
        ("endDate", .str "2024-02-20T08:00:00.000Z")]

/-- A backend project whose developer list starts with `null`. -/
def nullDeveloperBackendProject : JSValue :=
  .obj [("_id", .str "p4"), ("name", .str "Site"), ("assignedDevelopers", .arr [.null])]

/-- A backend project whose developer list holds a bare id. -/
def bareDeveloperBackendProject : JSValue :=
  .obj [("_id", .str "p4"), ("name", .str "Site"), ("assignedDevelopers", .arr [.str "u1"])]

/-- A backend project without `startDate` whose `createdAt` is not a date. -/
def undatedBackendProject : JSValue :=
  .obj [("_id", .str "p5"), ("name", .str "Site"), ("createdAt", .str "not a date")]

/-- A backend project with ISO date-times as start and end date. -/
def datedBackendProject : JSValue :=
  .obj [("_id", .str "p7"), ("name", .str "Site"),
        ("startDate", .str "2024-01-15T10:30:00.000Z"),
        ("endDate", .str "2024-02-20T08:00:00.000Z")]

/-- A reading of the clock. -/
def clock : DataContext.Clock := ⟨1700000000000, "2023-11-14T22:13:20.000Z"⟩

/-- A module of project `p1`. -/
def module : Fields :=
  [("id", .str "m1"), ("projectId", .str "p1"), ("name", .str "Auth"),
   ("description", .str ""), ("status", .str "Planning"), ("createdAt", .undefined),
   ("updatedAt", .undefined)]

/-- An earlier notification of the log. -/
def oldNotification : Fields :=
  [("id", .num 1600000000000), ("message", .str "Task deleted successfully"),
   ("type", .str "info"), ("timestamp", .str "2020-09-13T12:26:40.000Z"),
   ("read", .bool true)]

/-- A loaded store with one record of each kind and one notification. -/
def store : DataContext.Store :=
  ⟨[project], [module], [task], [bug], [oldNotification], true⟩

/-- A loaded store of a backend with numeric ids. -/
def numericStore : DataContext.Store :=
  ⟨[storedNumericProject], [], [storedNumericTask], [storedNumericBug], [], true⟩

/-- The response body of a successful bug creation. -/
def createdBackendBug : JSValue :=
  .obj [("_id", .str "b7"), ("taskId", .str "t1"), ("title", .str "Crash on save"),
        ("status", .str "Open")]

/-- A rejection of a backend call. -/
def rejection : Except JSError JSValue := .error .requestError

/-- The host's `Number(a) === Number(b)` on the values of the examples: integers
compare by value, and a string that denotes no number (such as "m1") converts
to NaN, which is equal to nothing. -/
def numberEq (a b : JSValue) : Bool :=
  match a, b with
  | .num x, .num y => x == y
  | _, _ => false

/-- Two modules of project 3 on a backend with numeric ids. -/
def numericModules : List Fields :=
  [[("id", .num 1), ("projectId", .num 3), ("name", .str "Auth")],
   [("id", .num 2), ("projectId", .num 3), ("name", .str "Billing")]]

/-- The response body of a successful update. -/
def updateResponse : JSValue := .obj [("message", .str "updated")]

/-- The backend's module listings: one module for project "p1", a failure for
project "p2", one module for project "p3". -/
def modulesOf (projectId : JSValue) : Except JSError JSValue :=
  if projectId = .str "p1" then
    .ok (.arr [.obj [("_id", .str "m1"), ("name", .str "Auth")]])
  else if projectId = .str "p3" then
    .ok (.arr [.obj [("_id", .str "m3"), ("name", .str "Billing")]])
  else .error .requestError

/-- A listing of three projects `p1`, `p2`, `p3`. -/
def projectListing : JSValue :=
  .obj [("projects", .arr [.obj [("_id", .str "p1"), ("name", .str "Site")],
                            .obj [("_id", .str "p2"), ("name", .str "Shop")],
                            .obj [("_id", .str "p3"), ("name", .str "Docs")]])]

/-- A store that holds nothing yet. -/
def emptyStore : DataContext.Store := ⟨[], [], [], [], [], true⟩

/-- Two notifications raised within the same millisecond. -/
def sameMillisecondCalls : List (DataContext.Clock × String × String) :=
  [(clock, "Task deleted successfully", "info"), (clock, "Failed to delete bug", "error")]

/-- Two notifications raised one millisecond apart. -/
def laterCalls : List (DataContext.Clock × String × String) :=
  [(clock, "Task deleted successfully", "info"),
   (⟨1700000000001, "2023-11-14T22:13:20.001Z"⟩, "Failed to delete bug", "error")]

/-- An unread notification. -/
def unreadNotification : Fields :=
  [("id", .num 1700000000000), ("message", .str "New task assigned: Fix login"),
   ("type", .str "success"), ("timestamp", .str "2023-11-14T22:13:20.000Z"),
   ("read", .bool false)]

/-- A store whose log holds an unread and a read notification. -/
def notifiedStore : DataContext.Store :=
  ⟨[project], [module], [task], [bug], [unreadNotification, oldNotification], true⟩

/-- A login response of the shape `\x7b user, token \x7d`. -/
def loginResponse : JSValue :=
  .obj [("user", .obj [("id", .str "u1"), ("name", .str "Ann"), ("role", .str "Developer")]),
        ("token", .str "jwt-1")]

/-- A login response of the shape `\x7b data: \x7b user, token \x7d \x7d`. -/
def wrappedLoginResponse : JSValue :=
  .obj [("success", .bool true),
        ("data", .obj [("user", .obj [("id", .str "u1"), ("name", .str "Ann"),
                                      ("role", .str "Developer")]),
                       ("token", .str "jwt-1")])]

/-- The session that both responses normalise to. -/
def sessionUser : JSValue :=
  .obj [("id", .str "u1"), ("name", .str "Ann"), ("role", .str "Developer"),
        ("token", .str "jwt-1")]

/-- A login response whose user record has a field `user` of its own. -/
def nestedLoginResponse : JSValue :=
  .obj [("user", .obj [("id", .str "u1"), ("name", .str "Ann"),
                       ("user", .obj [("id", .str "u9"), ("name", .str "Bob")])]),
        ("token", .str "jwt-1")]

/-- The host's `JSON.stringify` on the sessions of the examples. -/
def stringify (v : JSValue) : String :=
  if v = sessionUser then
    "\x7b\"id\":\"u1\",\"name\":\"Ann\",\"role\":\"Developer\",\"token\":\"jwt-1\"\x7d"
  else "null"

/-- A session that is signed out. -/
def signedOut : AuthContext.Session := ⟨.null, none⟩

/-- A session storage that accepts every write. -/
def storage (_text : String) : Bool := true

/-- A session storage whose `setItem` throws on every write: its quota is
exhausted, or the browser has storage disabled. -/
def fullStorage (_text : String) : Bool := false

/-- A project page whose project is loaded. -/
def loadedProject : JSValue := .obj [("id", .str "p1"), ("name", .str "Site")]

/-- A task of project `p1` whose id is the number 0. -/
def zeroTask : Fields :=
  [("id", .num 0), ("projectId", .str "p1"), ("title", .str "Fix login")]

/-- A bug filed against the task with id 0. -/
def zeroTaskBug : Fields :=
  [("id", .str "b3"), ("taskId", .str "0"), ("title", .str "Crash")]

/-- A bug whose task reference carries surrounding blanks. -/
def paddedBug : Fields :=
  [("id", .str "b4"), ("taskId", .str " t1 "), ("title", .str "Crash")]

/-- A backend bug whose task reference is populated with the task. -/
def populatedBackendBug : JSValue :=
  .obj [("_id", .str "b7"),
        ("taskId", .obj [("_id", .str "t1"), ("title", .str "Fix login")]),
        ("title", .str "Crash on save"), ("status", .str "Open")]

/-- A module whose ids are ObjectId strings of the backend. -/
def objectIdModule : Fields :=
  [("id", .str "65a1b2c3d4e5f60718293a4b"), ("projectId", .str "65a1b2c3d4e5f60718293a4a"),
   ("name", .str "Auth")]

/-- A store that holds `objectIdModule` and another module of the same project. -/
def objectIdStore : DataContext.Store :=
  ⟨[], [objectIdModule,
        [("id", .str "65a1b2c3d4e5f60718293a4c"), ("projectId", .str "65a1b2c3d4e5f60718293a4a"),
         ("name", .str "Billing")]], [], [], [], true⟩

/-- A completed task. -/
def completedTask : Fields :=
  [("id", .str "t2"), ("projectId", .str "p1"), ("status", .str "Completed")]

/-- A pending task. -/
def pendingTask : Fields :=
  [("id", .str "t3"), ("projectId", .str "p1"), ("status", .str "Pending")]

/-- An open bug. -/
def openBug : Fields :=
  [("id", .str "b5"), ("taskId", .str "t3"), ("status", .str "Open")]

/-- A bug whose status is outside the standard set. -/
def reopenedBug : Fields :=
  [("id", .str "b6"), ("taskId", .str "t3"), ("status", .str "Reopened")]

/-- Forty tasks, 23 of them completed. -/
def fortyTasks : List Fields :=
  List.replicate 23 completedTask ++ List.replicate 17 pendingTask

/-- A backend task of project `p1` assigned to another user, `u2`. -/
def otherBackendTask : JSValue :=
  .obj [("_id", .str "t7"), ("projectId", .str "p1"), ("title", .str "Review"),
        ("assignedTo", .obj [("_id", .str "u2"), ("name", .str "Eve")])]

/-- The normalised form of `otherBackendTask`. -/
def otherTask : Fields :=
  [("id", .str "t7"), ("projectId", .str "p1"), ("moduleId", .undefined),
   ("title", .str "Review"), ("description", .str ""), ("assignedTo", .str "u2"),
   ("status", .str "Pending"), ("priority", .str "Medium"), ("startDate", .str ""),
   ("endDate", .str ""), ("createdAt", .undefined), ("updatedAt", .undefined),
   ("assignedToUser", .obj [("_id", .str "u2"), ("name", .str "Eve")])]

/-- A backend task of project `p1` that nobody is assigned to. -/
def unownedBackendTask : JSValue :=
  .obj [("_id", .str "t8"), ("projectId", .str "p1"), ("title", .str "Triage")]

/-- The normalised form of `unownedBackendTask`. -/
def unownedTask : Fields :=
  [("id", .str "t8"), ("projectId", .str "p1"), ("moduleId", .undefined),
   ("title", .str "Triage"), ("description", .str ""), ("assignedTo", .undefined),
   ("status", .str "Pending"), ("priority", .str "Medium"), ("startDate", .str ""),
   ("endDate", .str ""), ("createdAt", .undefined), ("updatedAt", .undefined),
   ("assignedToUser", .undefined)]

/-- A backend task of project `p1` assigned to the user `u3` by a bare id. -/
def thirdBackendTask : JSValue :=
  .obj [("_id", .str "t9"), ("projectId", .str "p1"), ("title", .str "Deploy"),
        ("assignedTo", .str "u3")]

/-- The normalised form of `thirdBackendTask`. -/
def thirdTask : Fields :=
  [("id", .str "t9"), ("projectId", .str "p1"), ("moduleId", .undefined),
   ("title", .str "Deploy"), ("description", .str ""), ("assignedTo", .str "u3"),
   ("status", .str "Pending"), ("priority", .str "Medium"), ("startDate", .str ""),
   ("endDate", .str ""), ("createdAt", .undefined), ("updatedAt", .undefined),
   ("assignedToUser", .str "u3")]

/-- The backend project of the spec scenario with a developer list whose first
entry is `null`. -/
def nullDeveloperSpecProject : JSValue :=
  .obj [("_id", .str "p1"), ("name", .str "Site"), ("status", .str "IN_PROGRESS"),
        ("createdBy", .obj [("_id", .str "m1")]), ("assignedDevelopers", .arr [.null])]

/-- A store with two tasks, `t1` and `t2`. -/
def twoTaskStore : DataContext.Store :=
  ⟨[project], [module], [task, numericTask], [bug], [oldNotification], true⟩

/-- The task listing of the backend after task `t2` was deleted and another
client created task `t6`. -/
def taskListing : JSValue := .obj [("tasks", .arr [backendTask, datedBackendTask])]

/-- The normalised form of `datedBackendTask` under `isoHost`. -/
def datedTask : Fields :=
  [("id", .str "t6"), ("projectId", .undefined), ("moduleId", .undefined),
   ("title", .str "Ship"), ("description", .str ""), ("assignedTo", .str "u1"),
   ("status", .str "Pending"), ("priority", .str "Medium"),
   ("startDate", .str "2024-01-15"), ("endDate", .str "2024-02-20"),
   ("createdAt", .undefined), ("updatedAt", .undefined), ("assignedToUser", .str "u1")]

/-- The bug listing of the backend: one bug, whose task reference is populated. -/
def bugListing : JSValue := .obj [("bugs", .arr [populatedBackendBug])]

/-- The normalised form of `populatedBackendBug`. -/
def populatedBug : Fields :=
  [("id", .str "b7"), ("taskId", .str "t1"), ("title", .str "Crash on save"),
   ("description", .str ""), ("severity", .str "Medium"), ("assignedTo", .undefined),
   ("reportedBy", .undefined), ("status", .str "Open"), ("startDate", .str ""),
   ("endDate", .str ""), ("attachments", .arr []), ("createdAt", .undefined),
   ("updatedAt", .undefined)]

end Examples

/-! ## Basic facts about values -/

@[simp] theorem jsString_undefined : jsString .undefined = "undefined" := rfl

@[simp] theorem jsString_null : jsString .null = "null" := rfl

@[simp] theorem jsString_true : jsString (.bool true) = "true" := rfl

@[simp] theorem jsString_false : jsString (.bool false) = "false" := rfl

@[simp] theorem jsString_num (n : Int) : jsString (.num n) = toString n := rfl

@[simp] theorem jsString_str (s : String) : jsString (.str s) = s := rfl

@[simp] theorem jsString_obj (fields : Fields) : jsString (.obj fields) = "[object Object]" :=
  rfl

theorem strictEq_str_iff (v : JSValue) (s : String) :
    strictEq v (.str s) = true ↔ v = .str s := by
  cases v <;> simp [strictEq]

theorem strictEq_str_eq_false {v : JSValue} {s : String} (h : v ≠ .str s) :
    strictEq v (.str s) = false := by
  cases hh : strictEq v (.str s)
  · rfl
  · exact absurd ((strictEq_str_iff v s).1 hh) h

theorem strictEq_true_eq {a b : JSValue} (h : strictEq a b = true) : a = b := by
  cases a <;> cases b <;> simp_all [strictEq]

theorem get_str_not_nullish {v : JSValue} {k s : String} (h : v.get k = .str s) :
    v.isNullish = false ∧ v.truthy = true := by
  cases v <;> simp_all [JSValue.get, JSValue.isNullish, JSValue.truthy]
  all_goals split at h <;> simp_all

theorem optGet_eq_get {v : JSValue} (k : String) (h : v.isNullish = false) :
    v.optGet k = v.get k := by
  simp [JSValue.optGet, h]

theorem includes_iff (xs : List JSValue) (x : JSValue) :
    includes xs x = true ↔ ∃ y ∈ xs, strictEq y x = true := by
  simp [includes, List.any_eq_true]

/-! ## Role scoping on the dashboard and on the task page -/

theorem role_developer_session {U : JSValue}
    (hrole : strictEq (U.get "role") (.str "Developer") = true) :
    U.truthy = true ∧ U.optGet "id" = U.get "id"
      ∧ strictEq (U.optGet "role") (.str "Admin") = false
      ∧ strictEq (U.optGet "role") (.str "Manager") = false := by
  have h := (strictEq_str_iff _ _).1 hrole
  obtain ⟨hn, ht⟩ := get_str_not_nullish h
  refine ⟨ht, optGet_eq_get _ hn, ?_, ?_⟩ <;>
    simp [optGet_eq_get _ hn, h, strictEq]

/-- C1: the two developer filters do not keep the tasks assigned to the
developer.  For the session `\x7b _id: 'u1', role: 'Developer' \x7d` the dashboard
keeps a task assigned to `u2`, an unassigned task and a task assigned to `u3`
(`t.assignedTo === user.id` and `t.assignedToUser.id === user.id` compare
`undefined` with `undefined`), while the task page drops the task assigned to
`u1` and shows the unassigned one (`String(undefined) === String(undefined)`).
For the session `\x7b id: 'u1', role: 'Developer' \x7d` of the spec the dashboard
keeps the unassigned task as well (`t.assignedTo === user._id`), and the task
page does not.  For the session with id "5" the task page keeps the task
assigned to the number 5 and the dashboard drops it. -/
theorem developer_filters_keep_unassigned_and_foreign_tasks :
    strictEq (Examples.mongoDeveloper.get "role") (.str "Developer") = true
    ∧ Api.getTasks Examples.host
          (.arr [Examples.otherBackendTask, Examples.unownedBackendTask,
                 Examples.thirdBackendTask])
        = .ok [Examples.otherTask, Examples.unownedTask, Examples.thirdTask]
    ∧ [Examples.otherTask, Examples.unownedTask, Examples.thirdTask].map
          (fun t => t.get "assignedTo")
        = [.str "u2", .undefined, .str "u3"]
    ∧ (DashboardController.roleFilter Examples.mongoDeveloper []
          [Examples.otherTask, Examples.unownedTask, Examples.thirdTask] [] .null).map
          (fun r => r.tasks)
        = .ok [Examples.otherTask, Examples.unownedTask, Examples.thirdTask]
    ∧ Api.normalizeTask Examples.host Examples.backendTask = .ok Examples.task
    ∧ Examples.task.get "assignedTo" = Examples.mongoDeveloper.get "_id"
    ∧ TasksController.displayedTasks Examples.mongoDeveloper
          [Examples.task, Examples.unownedTask]
        = [Examples.unownedTask]
    ∧ strictEq (Examples.developer.get "role") (.str "Developer") = true
    ∧ (DashboardController.roleFilter Examples.developer []
          [Examples.task, Examples.otherTask, Examples.unownedTask, Examples.thirdTask] []
          .null).map (fun r => r.tasks)
        = .ok [Examples.task, Examples.unownedTask]
    ∧ TasksController.displayedTasks Examples.developer
          [Examples.task, Examples.otherTask, Examples.unownedTask, Examples.thirdTask]
        = [Examples.task]
    ∧ strictEq (Examples.developerFive.get "role") (.str "Developer") = true
    ∧ TasksController.displayedTasks Examples.developerFive [Examples.numericTask]
        = [Examples.numericTask]
    ∧ DashboardController.developerTasks Examples.developerFive [Examples.numericTask]
        = [] := by
  refine ⟨?_, ?_, ?_, ?_, ?_, ?_, ?_, ?_, ?_, ?_, ?_, ?_, ?_⟩ <;> decide

/-- What the two developer filters compute: for a Developer session `U`, the
dashboard's `filteredTasks` keeps a task `T` of the input exactly when
`T.assignedTo === U.id`, or `T.assignedTo === U._id`, or `T.assignedToUser` is
truthy and its `id` or `_id` is strictly equal to `U.id`; whenever the dashboard
filtering returns, its tasks are that list; and the task page's `displayedTasks`
keeps `T` exactly when `String(T.assignedTo) === String(U.id)`.  A task with
`T.assignedTo === U.id` is kept by both. -/
theorem developer_task_scoping (U : JSValue) (tasks : List Fields) (T : Fields)
    (hrole : strictEq (U.get "role") (.str "Developer") = true) :
    (T ∈ DashboardController.developerTasks U tasks ↔
      T ∈ tasks ∧
        (strictEq (T.get "assignedTo") (U.get "id") = true
          ∨ strictEq (T.get "assignedTo") (U.get "_id") = true
          ∨ ((T.get "assignedToUser").truthy = true
              ∧ (strictEq ((T.get "assignedToUser").get "id") (U.get "id") = true
                  ∨ strictEq ((T.get "assignedToUser").get "_id") (U.get "id") = true))))
    ∧ (∀ (allProjects allBugs : List Fields) (workload : JSValue)
          (r : DashboardController.Filtered),
        DashboardController.roleFilter U allProjects tasks allBugs workload = .ok r →
          r.tasks = DashboardController.developerTasks U tasks)
    ∧ (T ∈ TasksController.displayedTasks U tasks ↔
        T ∈ tasks ∧ jsString (T.get "assignedTo") = jsString (U.get "id"))
    ∧ (T ∈ tasks → strictEq (T.get "assignedTo") (U.get "id") = true →
        T ∈ DashboardController.developerTasks U tasks
          ∧ T ∈ TasksController.displayedTasks U tasks) := by
  obtain ⟨htruthy, hid, hadmin, hmanager⟩ := role_developer_session hrole
  have hnotManager : strictEq (U.get "role") (.str "Manager") = false := by
    rw [(strictEq_str_iff _ _).1 hrole]; decide
  have hdash : ∀ T : Fields, T ∈ DashboardController.developerTasks U tasks ↔
      T ∈ tasks ∧
        (strictEq (T.get "assignedTo") (U.get "id") = true
          ∨ strictEq (T.get "assignedTo") (U.get "_id") = true
          ∨ ((T.get "assignedToUser").truthy = true
              ∧ (strictEq ((T.get "assignedToUser").get "id") (U.get "id") = true
                  ∨ strictEq ((T.get "assignedToUser").get "_id") (U.get "id") = true))) := by
    intro T
    simp [DashboardController.developerTasks, DashboardController.developerTask,
      List.mem_filter, or_assoc]
  have hpage : ∀ T : Fields, T ∈ TasksController.displayedTasks U tasks ↔
      T ∈ tasks ∧ jsString (T.get "assignedTo") = jsString (U.get "id") := by
    intro T
    simp [TasksController.displayedTasks, TasksController.myTasks, hadmin, hmanager, hid,
      List.mem_filter]
  refine ⟨hdash T, ?_, hpage T, ?_⟩
  · intro allProjects allBugs workload r hr
    simp only [DashboardController.roleFilter, htruthy, hnotManager, hrole, if_true,
      Bool.false_eq_true, if_false] at hr
    split at hr
    · cases hr
    · split at hr
      · cases hr
      · cases hr; rfl
  · intro hmem heq
    refine ⟨(hdash T).2 ⟨hmem, Or.inl heq⟩, (hpage T).2 ⟨hmem, ?_⟩⟩
    rw [strictEq_true_eq heq]

/-- At the login scenario of the spec, the developer with id "u1" sees the task
assigned to "u1" on the dashboard and on the task page. -/
theorem developer_task_scoping_witness :
    strictEq (Examples.developer.get "role") (.str "Developer") = true
    ∧ Examples.task ∈ DashboardController.developerTasks Examples.developer [Examples.task]
    ∧ Examples.task ∈ TasksController.displayedTasks Examples.developer [Examples.task] :=
  ⟨by decide,
   (developer_task_scoping Examples.developer [Examples.task] Examples.task (by decide)).2.2.2
     (by decide) (by decide)⟩

/-- C2: for an Admin session, and for a session whose role is none of
'Manager', 'Developer', 'Tester', the dashboard role filter returns the
projects, tasks, bugs and team workload it was given, unchanged and in the same
order. -/
theorem roleFilter_unrestricted (user : JSValue) (allProjects allTasks allBugs : List Fields)
    (workload : JSValue)
    (hrole : user.get "role" = .str "Admin"
      ∨ (user.get "role" ≠ .str "Manager" ∧ user.get "role" ≠ .str "Developer"
          ∧ user.get "role" ≠ .str "Tester")) :
    DashboardController.roleFilter user allProjects allTasks allBugs workload
      = .ok ⟨allProjects, allTasks, allBugs, workload⟩ := by
  have h : strictEq (user.get "role") (.str "Manager") = false
      ∧ strictEq (user.get "role") (.str "Developer") = false
      ∧ strictEq (user.get "role") (.str "Tester") = false := by
    rcases hrole with h | ⟨h1, h2, h3⟩
    · rw [h]; decide
    · exact ⟨strictEq_str_eq_false h1, strictEq_str_eq_false h2, strictEq_str_eq_false h3⟩
  simp [DashboardController.roleFilter, h.1, h.2.1, h.2.2]

/-- C2 at an Admin session and at a session with the unrecognised role 'Guest'. -/
theorem roleFilter_unrestricted_witness :
    DashboardController.roleFilter Examples.admin [Examples.project] [Examples.task]
        [Examples.bug] (.arr [.num 3])
      = .ok ⟨[Examples.project], [Examples.task], [Examples.bug], .arr [.num 3]⟩
    ∧ DashboardController.roleFilter (.obj [("id", .str "g1"), ("role", .str "Guest")])
        [Examples.project] [Examples.task] [Examples.bug] (.arr [.num 3])
      = .ok ⟨[Examples.project], [Examples.task], [Examples.bug], .arr [.num 3]⟩ :=
  ⟨roleFilter_unrestricted Examples.admin _ _ _ _ (Or.inl (by decide)),
   roleFilter_unrestricted _ _ _ _ _ (Or.inr (by decide))⟩

/-- C3 (as stated, refuted): for the manager session `mongoManager` (key `_id`
only) the project of the spec scenario, whose `managerId` is "m1", is among the
filtered projects although `managerId === user.id` is false. -/
theorem manager_projects_not_managerId_eq_id :
    strictEq (Examples.mongoManager.get "role") (.str "Manager") = true
    ∧ Api.normalizeProject Examples.host Examples.backendProject = .ok Examples.project
    ∧ DashboardController.roleFilter Examples.mongoManager [Examples.project] [Examples.task]
        [Examples.bug] .null
      = .ok ⟨[Examples.project], [Examples.task], [Examples.bug], .null⟩
    ∧ ¬ (Examples.project ∈
            DashboardController.managerProjects Examples.mongoManager [Examples.project]
          ↔ strictEq (Examples.project.get "managerId") (Examples.mongoManager.get "id")
              = true) := by
  decide

/-- C3 (amended): for a Manager session `U` the dashboard filtering returns; the
filtered projects are exactly the projects whose `managerId` is strictly equal to
`U.id` or to `U._id`; the filtered tasks are exactly the tasks whose `projectId`
is the id of a filtered project; and a bug is kept exactly when the first task
whose id has the same string form as the bug's `taskId` exists and has its
`projectId` among the ids of the filtered projects.  The workload is unchanged. -/
theorem manager_scoping (U : JSValue) (allProjects allTasks allBugs : List Fields)
    (workload : JSValue)
    (hrole : strictEq (U.get "role") (.str "Manager") = true) :
    ∃ r, DashboardController.roleFilter U allProjects allTasks allBugs workload = .ok r
      ∧ (∀ P : Fields, P ∈ r.projects ↔
            P ∈ allProjects ∧ (strictEq (P.get "managerId") (U.get "id") = true
                                ∨ strictEq (P.get "managerId") (U.get "_id") = true))
      ∧ (∀ T : Fields, T ∈ r.tasks ↔
            T ∈ allTasks
              ∧ ∃ P ∈ r.projects, strictEq (P.get "id") (T.get "projectId") = true)
      ∧ (∀ B : Fields, B ∈ r.bugs ↔
            B ∈ allBugs ∧ ∃ task,
              allTasks.find? (fun t => jsString (t.get "id") == jsString (B.get "taskId"))
                = some task
              ∧ ∃ P ∈ r.projects, strictEq (P.get "id") (task.get "projectId") = true)
      ∧ r.workload = workload := by
  have htruthy : U.truthy = true := (get_str_not_nullish ((strictEq_str_iff _ _).1 hrole)).2
  refine ⟨⟨DashboardController.managerProjects U allProjects,
      DashboardController.managerTasks
        (DashboardController.projectIds (DashboardController.managerProjects U allProjects))
        allTasks,
      DashboardController.managerBugs
        (DashboardController.projectIds (DashboardController.managerProjects U allProjects))
        allTasks allBugs,
      workload⟩,
    by simp [DashboardController.roleFilter, htruthy, hrole], ?_, ?_, ?_, rfl⟩
  · intro P
    simp [DashboardController.managerProjects, List.mem_filter]
  · intro T
    simp [DashboardController.managerTasks, DashboardController.projectIds, List.mem_filter,
      includes_iff]
  · intro B
    simp only [DashboardController.managerBugs, DashboardController.taskOfBug, List.mem_filter]
    constructor
    · rintro ⟨hB, h⟩
      refine ⟨hB, ?_⟩
      split at h
      · next task htask =>
        refine ⟨task, htask, ?_⟩
        simpa [DashboardController.projectIds, includes_iff] using h
      · cases h
    · rintro ⟨hB, task, htask, hP⟩
      refine ⟨hB, ?_⟩
      rw [htask]
      simpa [DashboardController.projectIds, includes_iff] using hP

/-- C3 (amended) at the manager with id "m1": the project, its task and the
bug on that task are all kept. -/
theorem manager_scoping_witness :
    strictEq (Examples.manager.get "role") (.str "Manager") = true
    ∧ ∃ r, DashboardController.roleFilter Examples.manager [Examples.project] [Examples.task]
          [Examples.bug] .null = .ok r
        ∧ (∀ P : Fields, P ∈ r.projects ↔
            P ∈ [Examples.project]
              ∧ (strictEq (P.get "managerId") (Examples.manager.get "id") = true
                  ∨ strictEq (P.get "managerId") (Examples.manager.get "_id") = true)) :=
  ⟨by decide,
   let ⟨r, hr, hP, _⟩ := manager_scoping Examples.manager [Examples.project] [Examples.task]
     [Examples.bug] .null (by decide)
   ⟨r, hr, hP⟩⟩

/-! ## Resolvers of the bug page -/

/-- C4 (as stated, refuted): a backend project without `name` and `title`
normalises to a project whose title is undefined, and for a bug on a task of
that project `getProjectName` returns undefined. -/
theorem getProjectName_undefined_title :
    Api.normalizeProject Examples.host Examples.namelessBackendProject
      = .ok Examples.namelessProject
    ∧ Api.normalizeTask Examples.host Examples.backendTask = .ok Examples.task
    ∧ BugsController.getProjectName [Examples.task] [Examples.namelessProject]
        (Examples.bug.get "taskId") = .undefined := by
  decide

theorem find?_congr_mem {α : Type} (l : List α) (p q : α → Bool)
    (h : ∀ x ∈ l, p x = q x) : l.find? p = l.find? q := by
  induction l with
  | nil => rfl
  | cons a rest ih =>
    have ha := h a (List.mem_cons_self _ _)
    have hrest := ih (fun x hx => h x (List.mem_cons_of_mem _ hx))
    simp [List.find?_cons, ha, hrest]

theorem strictEq_eq_string_eq {a b : JSValue}
    (h : jsString a = jsString b → strictEq a b = true) :
    strictEq a b = (jsString a == jsString b) := by
  by_cases hs : jsString a = jsString b
  · rw [h hs]
    simp [hs]
  · have hne : strictEq a b = false := by
      cases hb : strictEq a b
      · rfl
      · exact absurd (congrArg jsString (strictEq_true_eq hb)) hs
    rw [hne]
    simp [hs]

theorem strictEq_string_eq {a b : JSValue} (h : strictEq a b = true) :
    jsString a = jsString b :=
  congrArg jsString (strictEq_true_eq h)

/-- C4 (amended): `getProjectName(taskId)` returns 'Unknown Project' when no task
has the id `taskId`, and when every task with that id has a `projectId` that
matches no project, ids being compared by their string forms.  When the ids of
the tasks do not differ from `taskId` only in type, and the ids of the projects
do not differ from the `projectId` of the task only in type, it returns the
`title`, as stored, of the first project with the `projectId` of the first task
with the id `taskId`.  Hence the result is never undefined provided no project
of the list has an undefined title; and whatever it returns is the sentinel or
the title of a project referenced by a task with the id `taskId`. -/
theorem getProjectName_resolves (tasks projects : List Fields) (taskId : JSValue) :
    ((∀ t ∈ tasks, jsString (t.get "id") ≠ jsString taskId) →
        BugsController.getProjectName tasks projects taskId = .str "Unknown Project")
    ∧ ((∀ t ∈ tasks, jsString (t.get "id") = jsString taskId →
          ∀ p ∈ projects, jsString (p.get "id") ≠ jsString (t.get "projectId")) →
        BugsController.getProjectName tasks projects taskId = .str "Unknown Project")
    ∧ (∀ task project,
        (∀ t ∈ tasks, jsString (t.get "id") = jsString taskId →
          strictEq (t.get "id") taskId = true) →
        (∀ p ∈ projects, jsString (p.get "id") = jsString (task.get "projectId") →
          strictEq (p.get "id") (task.get "projectId") = true) →
        tasks.find? (fun t => jsString (t.get "id") == jsString taskId) = some task →
        projects.find? (fun p => jsString (p.get "id") == jsString (task.get "projectId"))
          = some project →
        BugsController.getProjectName tasks projects taskId = project.get "title")
    ∧ ((∀ p ∈ projects, p.get "title" ≠ .undefined) →
        BugsController.getProjectName tasks projects taskId ≠ .undefined)
    ∧ (BugsController.getProjectName tasks projects taskId = .str "Unknown Project"
        ∨ ∃ task ∈ tasks, ∃ project ∈ projects,
            jsString (task.get "id") = jsString taskId
              ∧ jsString (project.get "id") = jsString (task.get "projectId")
              ∧ BugsController.getProjectName tasks projects taskId = project.get "title") := by
  refine ⟨?_, ?_, ?_, ?_, ?_⟩
  · intro h
    have hnone : tasks.find? (fun t => strictEq (t.get "id") taskId) = none := by
      rw [List.find?_eq_none]
      intro t ht hs
      exact h t ht (strictEq_string_eq hs)
    simp [BugsController.getProjectName, hnone]
  · intro h
    unfold BugsController.getProjectName
    split
    · rfl
    · next task htask =>
      have hmem := List.mem_of_find?_eq_some htask
      have hid : strictEq (task.get "id") taskId = true := by
        simpa using List.find?_some htask
      have hnone : projects.find? (fun p => strictEq (p.get "id") (task.get "projectId"))
          = none := by
        rw [List.find?_eq_none]
        intro p hp hs
        exact h task hmem (strictEq_string_eq hid) p hp (strictEq_string_eq hs)
      rw [hnone]
  · intro task project htasks hprojects htask hproject
    have h1 : tasks.find? (fun t => strictEq (t.get "id") taskId) = some task := by
      rw [← htask]
      exact find?_congr_mem tasks _ _ (fun t ht => strictEq_eq_string_eq (htasks t ht))
    have h2 : projects.find? (fun p => strictEq (p.get "id") (task.get "projectId"))
        = some project := by
      rw [← hproject]
      exact find?_congr_mem projects _ _ (fun p hp => strictEq_eq_string_eq (hprojects p hp))
    simp [BugsController.getProjectName, h1, h2]
  · intro h
    unfold BugsController.getProjectName
    split
    · simp
    · split
      · next project hproject => exact h project (List.mem_of_find?_eq_some hproject)
      · simp
  · unfold BugsController.getProjectName
    split
    · exact Or.inl rfl
    · next task htask =>
      split
      · next project hproject =>
        refine Or.inr ⟨task, List.mem_of_find?_eq_some htask, project,
          List.mem_of_find?_eq_some hproject, ?_, ?_, rfl⟩
        · exact strictEq_string_eq (by simpa using List.find?_some htask)
        · exact strictEq_string_eq (by simpa using List.find?_some hproject)
      · exact Or.inl rfl

/-- C4 (amended) at the scenario of the spec: the bug on task "t1" resolves to
the project "Site", and to 'Unknown Project' once the task is gone. -/
theorem getProjectName_resolves_witness :
    BugsController.getProjectName [Examples.task] [Examples.project] (.str "t1") = .str "Site"
    ∧ BugsController.getProjectName [] [Examples.project] (.str "t1") = .str "Unknown Project"
    ∧ BugsController.getProjectName [Examples.task] [] (.str "t1") = .str "Unknown Project"
    ∧ BugsController.getProjectName [Examples.task] [Examples.project] (.str "t1")
        ≠ .undefined :=
  ⟨(getProjectName_resolves [Examples.task] [Examples.project] (.str "t1")).2.2.1
      Examples.task Examples.project (by decide) (by decide) (by decide) (by decide),
   (getProjectName_resolves [] [Examples.project] (.str "t1")).1 (by decide),
   (getProjectName_resolves [Examples.task] [] (.str "t1")).2.1 (by decide),
   (getProjectName_resolves [Examples.task] [Examples.project] (.str "t1")).2.2.2.1
     (by decide)⟩

/-- C5 (the code at the failing input): with a backend that uses numeric ids,
`getTasks` keeps the task id as the number 5 while `getBugs` stores the bug's
task reference as the string "5".  The resolvers of the bug page compare with
`===` and find nothing: 'Unknown Task', 'Unknown Project', and for user ids
given as strings 'Unassigned' and 'Unknown'.  The dashboard's bug-to-task lookup
and the resolvers of the task page compare string forms and find the records. -/
theorem bug_page_resolvers_compare_strictly :
    Api.normalizeTask Examples.host Examples.numericBackendTask = .ok Examples.storedNumericTask
    ∧ Api.normalizeBug Examples.host Examples.numericBackendBug = .ok Examples.storedNumericBug
    ∧ BugsController.getRelatedTaskTitle [Examples.storedNumericTask]
        (Examples.storedNumericBug.get "taskId") = .str "Unknown Task"
    ∧ BugsController.getProjectName [Examples.storedNumericTask] [Examples.storedNumericProject]
        (Examples.storedNumericBug.get "taskId") = .str "Unknown Project"
    ∧ BugsController.getAssigneeName Examples.storedNumericUsers (.str "7") = .str "Unassigned"
    ∧ BugsController.getReporterName Examples.storedNumericUsers (.str "8") = .str "Unknown"
    ∧ DashboardController.taskOfBug [Examples.storedNumericTask] Examples.storedNumericBug
        = some Examples.storedNumericTask
    ∧ TasksController.getProjectTitle [Examples.storedNumericProject] (.str "3") = .str "Site"
    ∧ TasksController.getAssigneeName Examples.storedNumericUsers (.str "7") = .str "Dev" := by
  decide

/-! ## Normalisation of references and identifiers -/

theorem referenceId_of_not_obj (ref : JSValue) (h : ∀ fields, ref ≠ .obj fields) :
    Api.referenceId ref = ref := by
  cases ref <;>
    simp_all [Api.referenceId, JSValue.optGet, JSValue.get, JSValue.or, JSValue.isNullish,
      JSValue.truthy]

theorem normalizeTask_ok (host : Host) (task : JSValue) (h : task.isNullish = false) :
    ∃ r, Api.normalizeTask host task = .ok r
      ∧ r.get "id" = (task.get "_id").or (task.get "id")
      ∧ r.get "assignedTo" = Api.referenceId (task.get "assignedTo") := by
  refine ⟨_, by simp only [Api.normalizeTask, h]; rfl, ?_, ?_⟩ <;>
    simp [Fields.get, JSValue.lookup, Api.assignedToId]

theorem normalizeBug_ok (host : Host) (bug : JSValue) (h : bug.isNullish = false) :
    ∃ r, Api.normalizeBug host bug = .ok r
      ∧ r.get "id" = (bug.get "_id").or (bug.get "id")
      ∧ r.get "assignedTo" = Api.referenceId (bug.get "assignedTo")
      ∧ r.get "reportedBy" = Api.referenceId (bug.get "reportedBy")
      ∧ r.get "taskId"
          = .str (jsString ((Api.referenceId (bug.get "taskId")).or (.str ""))) := by
  refine ⟨_, by simp only [Api.normalizeBug, h]; rfl, ?_, ?_, ?_, ?_⟩ <;>
    simp [Fields.get, JSValue.lookup, Api.assignedToId, Api.reportedById, Api.taskId]

theorem normalizeModule_ok (projectId module : JSValue) (h : module.isNullish = false) :
    ∃ r, Api.normalizeModule projectId module = .ok r
      ∧ r.get "id" = (module.get "_id").or (module.get "id") := by
  refine ⟨_, by simp only [Api.normalizeModule, h]; rfl, ?_⟩
  simp [Fields.get, JSValue.lookup]

/-- C6 (as stated, refuted): a backend task with `assignedTo: null` normalises
to `assignedTo` null, not undefined; a bug without `taskId` normalises to the
task reference '' (a string), not undefined; an assignee object without `_id`
and `id` is kept as the object; and an assignee object with `id` "X" and `_id`
"Y" normalises to "Y". -/
theorem reference_null_object_and_empty :
    (Api.normalizeTask Examples.host Examples.unassignedBackendTask).map
        (fun r => r.get "assignedTo") = .ok .null
    ∧ (Api.normalizeBug Examples.host Examples.looseBackendBug).map
        (fun r => r.get "taskId") = .ok (.str "")
    ∧ (Api.normalizeTask Examples.host Examples.anonymousBackendTask).map
        (fun r => r.get "assignedTo") = .ok (.obj [("name", .str "Bob")])
    ∧ (Api.normalizeTask Examples.host Examples.twoKeyBackendTask).map
        (fun r => r.get "assignedTo") = .ok (.str "Y") := by
  decide

/-- C6 (amended): for a backend task or bug record, the normalised
`task.assignedTo`, `bug.assignedTo` and `bug.reportedBy` are
`ref?._id || ref?.id || ref` of the backend field `ref`: for an object its
`_id` when truthy, else its `id` when truthy (so an object with `id` "X", X
non-empty, and no truthy `_id` gives "X"), else the object itself; for a
value that is not an object, the value itself, so "X" gives "X", an omitted
field gives undefined and null gives null.  `bug.taskId` is that reference
coerced by `String(ref || '')`: always a string, "X" for "X" and for such an
object, and '' when omitted or null. -/
theorem reference_normalization (host : Host) (record : JSValue)
    (hrecord : record.isNullish = false) :
    (∃ t, Api.normalizeTask host record = .ok t
        ∧ t.get "assignedTo" = Api.referenceId (record.get "assignedTo"))
    ∧ (∃ b, Api.normalizeBug host record = .ok b
        ∧ b.get "assignedTo" = Api.referenceId (record.get "assignedTo")
        ∧ b.get "reportedBy" = Api.referenceId (record.get "reportedBy")
        ∧ b.get "taskId"
            = .str (jsString ((Api.referenceId (record.get "taskId")).or (.str ""))))
    ∧ (∀ fields : Fields, Api.referenceId (.obj fields)
          = if (JSValue.lookup "_id" fields).truthy then JSValue.lookup "_id" fields
            else if (JSValue.lookup "id" fields).truthy then JSValue.lookup "id" fields
            else .obj fields)
    ∧ (∀ (fields : Fields) (X : String), (JSValue.lookup "_id" fields).truthy = false →
          JSValue.lookup "id" fields = .str X → X ≠ "" →
          Api.referenceId (.obj fields) = .str X
            ∧ jsString ((Api.referenceId (.obj fields)).or (.str "")) = X)
    ∧ (∀ ref : JSValue, (∀ fields, ref ≠ .obj fields) → Api.referenceId ref = ref)
    ∧ (∀ X : String, Api.referenceId (.str X) = .str X
          ∧ jsString ((Api.referenceId (.str X)).or (.str "")) = X)
    ∧ Api.referenceId .undefined = .undefined
    ∧ Api.referenceId .null = .null
    ∧ jsString ((Api.referenceId .undefined).or (.str "")) = ""
    ∧ jsString ((Api.referenceId .null).or (.str "")) = "" := by
  obtain ⟨t, ht, _, htref⟩ := normalizeTask_ok host record hrecord
  obtain ⟨b, hb, _, hb1, hb2, hb3⟩ := normalizeBug_ok host record hrecord
  have hobj : ∀ fields : Fields, Api.referenceId (.obj fields)
      = if (JSValue.lookup "_id" fields).truthy then JSValue.lookup "_id" fields
        else if (JSValue.lookup "id" fields).truthy then JSValue.lookup "id" fields
        else .obj fields := by
    intro fields
    simp only [Api.referenceId, JSValue.optGet, JSValue.isNullish, JSValue.get, JSValue.or]
    by_cases h1 : (JSValue.lookup "_id" fields).truthy = true
    · simp [h1]
    · simp [h1]
  have hstr : ∀ X : String, Api.referenceId (.str X) = .str X :=
    fun X => referenceId_of_not_obj _ (by simp)
  refine ⟨⟨t, ht, htref⟩, ⟨b, hb, hb1, hb2, hb3⟩, hobj, ?_, referenceId_of_not_obj, ?_,
    by decide, by decide, by decide, by decide⟩
  · intro fields X h1 h2 hX
    have : Api.referenceId (.obj fields) = .str X := by
      rw [hobj, h1, h2]; simp [JSValue.truthy, hX]
    refine ⟨this, ?_⟩
    rw [this]; simp [JSValue.or, JSValue.truthy, hX, jsString]
  · intro X
    refine ⟨hstr X, ?_⟩
    rw [hstr]
    by_cases hX : X = ""
    · subst hX; decide
    · simp [JSValue.or, JSValue.truthy, hX, jsString]

/-- C6 (amended) at the task of the login scenario: the nested assignee object
with `_id` "u1" normalises to "u1". -/
theorem reference_normalization_witness :
    Examples.backendTask.isNullish = false
    ∧ ∃ t, Api.normalizeTask Examples.host Examples.backendTask = .ok t
        ∧ t.get "assignedTo" = Api.referenceId (Examples.backendTask.get "assignedTo")
        ∧ Api.referenceId (Examples.backendTask.get "assignedTo") = .str "u1" :=
  ⟨by decide,
   let ⟨t, ht, h⟩ := (reference_normalization Examples.host Examples.backendTask (by decide)).1
   ⟨t, ht, h, by decide⟩⟩

theorem normalizeProject_returns_iff (host : Host) (project : JSValue) :
    (∃ r, Api.normalizeProject host project = .ok r)
      ↔ Api.projectDecodes host project = true := by
  unfold Api.normalizeProject Api.projectDecodes Api.assignedDeveloperId Api.startDate
  cases hn : project.isNullish
  · cases h1 : (project.get "assignedDevelopers").truthy
        && gtZero host ((project.get "assignedDevelopers").get "length")
    · cases h2 : (project.get "startDate").truthy
      · cases h3 : (project.get "createdAt").truthy
        · simp [h1]
        · cases h4 : host.isoDay (project.get "createdAt") <;> simp [h1, h4]
      · simp [h1]
    · cases h5 : (first (project.get "assignedDevelopers")).isNullish
      · cases h2 : (project.get "startDate").truthy
        · cases h3 : (project.get "createdAt").truthy
          · simp [h1, h5]
          · cases h4 : host.isoDay (project.get "createdAt") <;> simp [h1, h4, h5]
        · simp [h1, h5]
      · simp [h1, h5]
  · simp

theorem normalizeProject_ok (host : Host) (project : JSValue)
    (h : Api.projectDecodes host project = true) :
    ∃ r, Api.normalizeProject host project = .ok r
      ∧ r.get "id" = (project.get "_id").or (project.get "id")
      ∧ r.get "title" = (project.get "name").or (project.get "title")
      ∧ r.get "status" = Api.normalizedStatus project
      ∧ r.get "managerId" = Api.managerId project := by
  obtain ⟨r, hr⟩ := (normalizeProject_returns_iff host project).2 h
  refine ⟨r, hr, ?_⟩
  unfold Api.normalizeProject at hr
  split at hr
  · cases hr
  · split at hr
    · cases hr
    · split at hr
      · cases hr
      · cases hr
        simp [Fields.get, JSValue.lookup]

/-- C7 (as stated, refuted): a record with `id` "a" and `_id` "b" normalises, as
a project, task, bug and module alike, to the id "b"; and a record whose id
is the number 5 keeps the number 5 as its normalised id. -/
theorem id_prefers_mongo_key_and_keeps_numbers :
    Examples.twoIdRecord.get "id" = .str "a"
    ∧ (Api.normalizeProject Examples.host Examples.twoIdRecord).map (fun r => r.get "id")
        = .ok (.str "b")
    ∧ (Api.normalizeTask Examples.host Examples.twoIdRecord).map (fun r => r.get "id")
        = .ok (.str "b")
    ∧ (Api.normalizeBug Examples.host Examples.twoIdRecord).map (fun r => r.get "id")
        = .ok (.str "b")
    ∧ (Api.normalizeModule (.str "p1") Examples.twoIdRecord).map (fun r => r.get "id")
        = .ok (.str "b")
    ∧ (Api.normalizeProject Examples.host Examples.numericIdRecord).map (fun r => r.get "id")
        = .ok (.num 5)
    ∧ (Api.normalizeTask Examples.host Examples.numericIdRecord).map (fun r => r.get "id")
        = .ok (.num 5) := by
  decide

/-- C7 (amended): for every backend record, the normalised id of the task, bug
and module, and of the project whenever project normalisation does not throw,
is `record._id || record.id`: the value of `_id` when that is truthy, and the
value of `id` otherwise.  The value is stored as it is, without coercion, so a
number stays a number. -/
theorem id_normalization (host : Host) (record projectId : JSValue)
    (hrecord : record.isNullish = false) :
    (∃ t, Api.normalizeTask host record = .ok t
        ∧ t.get "id" = (record.get "_id").or (record.get "id"))
    ∧ (∃ b, Api.normalizeBug host record = .ok b
        ∧ b.get "id" = (record.get "_id").or (record.get "id"))
    ∧ (∃ m, Api.normalizeModule projectId record = .ok m
        ∧ m.get "id" = (record.get "_id").or (record.get "id"))
    ∧ (Api.projectDecodes host record = true →
        ∃ p, Api.normalizeProject host record = .ok p
          ∧ p.get "id" = (record.get "_id").or (record.get "id"))
    ∧ ((record.get "_id").truthy = true →
        (record.get "_id").or (record.get "id") = record.get "_id")
    ∧ ((record.get "_id").truthy = false →
        (record.get "_id").or (record.get "id") = record.get "id") := by
  obtain ⟨t, ht, htid, _⟩ := normalizeTask_ok host record hrecord
  obtain ⟨b, hb, hbid, _⟩ := normalizeBug_ok host record hrecord
  obtain ⟨m, hm, hmid⟩ := normalizeModule_ok projectId record hrecord
  refine ⟨⟨t, ht, htid⟩, ⟨b, hb, hbid⟩, ⟨m, hm, hmid⟩, ?_, ?_, ?_⟩
  · intro hdec
    obtain ⟨p, hp, hpid, _⟩ := normalizeProject_ok host record hdec
    exact ⟨p, hp, hpid⟩
  · intro h; simp [JSValue.or, h]
  · intro h; simp [JSValue.or, h]

/-- C7 (amended) at the backend project of the spec scenario, which carries only
`_id`: its normalised id is "p1". -/
theorem id_normalization_witness :
    Examples.backendProject.isNullish = false
    ∧ Api.projectDecodes Examples.host Examples.backendProject = true
    ∧ ∃ p, Api.normalizeProject Examples.host Examples.backendProject = .ok p
        ∧ p.get "id"
            = (Examples.backendProject.get "_id").or (Examples.backendProject.get "id") :=
  ⟨by decide, by decide,
   (id_normalization Examples.host Examples.backendProject .null (by decide)).2.2.2.1
     (by decide)⟩

/-! ## Normalisation of projects -/

theorem statusMap_token {token : String} (h : token ∈ Api.apiStatusTokens) :
    (Api.statusMap token).truthy = true
      ∧ ∃ label ∈ Api.statusLabels, Api.statusMap token = .str label := by
  simp only [Api.apiStatusTokens, List.mem_cons, List.mem_singleton, List.not_mem_nil,
    or_false] at h
  rcases h with h | h | h | h | h <;> subst h
  · exact ⟨by decide, "In Progress", by decide, by decide⟩
  · exact ⟨by decide, "Planning", by decide, by decide⟩
  · exact ⟨by decide, "Active", by decide, by decide⟩
  · exact ⟨by decide, "Completed", by decide, by decide⟩
  · exact ⟨by decide, "On Hold", by decide, by decide⟩

theorem normalizedStatus_token (project : JSValue) {token : String}
    (hstatus : project.get "status" = .str token) (h : token ∈ Api.apiStatusTokens) :
    Api.normalizedStatus project = Api.statusMap token := by
  simp [Api.normalizedStatus, hstatus, JSValue.or, (statusMap_token h).1]

theorem statusMap_other {key : String} (h1 : key ∉ Api.apiStatusTokens)
    (h2 : key ∉ Api.objectPrototypeKeys) : Api.statusMap key = .undefined := by
  simp only [Api.apiStatusTokens, List.mem_cons, List.mem_singleton, List.not_mem_nil,
    or_false, not_or] at h1
  simp [Api.statusMap, h1, h2]

theorem normalizedStatus_other (project : JSValue) {s : String}
    (hstatus : project.get "status" = .str s) (hs : s ≠ "")
    (h1 : s ∉ Api.apiStatusTokens) (h2 : s ∉ Api.objectPrototypeKeys) :
    Api.normalizedStatus project = .str s := by
  simp [Api.normalizedStatus, hstatus, JSValue.or, statusMap_other h1 h2,
    JSValue.truthy, hs]

theorem normalizedStatus_falsy (project : JSValue)
    (hstatus : (project.get "status").truthy = false) :
    Api.normalizedStatus project = .str "Planning" := by
  have : Api.statusMap (jsString (project.get "status")) = .undefined := by
    cases hv : project.get "status" with
    | undefined => decide
    | null => decide
    | bool b =>
      have hb : b = false := by simpa [hv, JSValue.truthy] using hstatus
      subst hb; decide
    | num n =>
      have hn : n = 0 := by simpa [hv, JSValue.truthy] using hstatus
      subst hn; decide
    | str s =>
      have hs : s = "" := by simpa [hv, JSValue.truthy] using hstatus
      subst hs; decide
    | builtin name => simp [hv, JSValue.truthy] at hstatus
    | arr items => simp [hv, JSValue.truthy] at hstatus
    | obj fields => simp [hv, JSValue.truthy] at hstatus
  have hu : JSValue.truthy .undefined = false := rfl
  unfold Api.normalizedStatus
  rw [this]
  simp [JSValue.or, hstatus, hu]

theorem get_truthy_not_nullish {v : JSValue} {k : String} (h : (v.get k).truthy = true) :
    v.isNullish = false := by
  cases v <;> simp_all [JSValue.get, JSValue.isNullish, JSValue.truthy]

/-- The shape of a normalised project: for every backend project record that
has (as truthy values) `_id`, `name` and `createdBy._id`, whose `status` is one
of the five API tokens, and on which normalisation returns a record, that
record has id = `_id`, title = `name`, status = the label of the table
`statusMap` for the token (one of the five frontend labels) and managerId =
`createdBy._id`.  In particular the record of the spec scenario normalises to
id "p1", title "Site", status "In Progress", managerId "m1". -/
theorem normalizeProject_backend_shape (host : Host) (project : JSValue) (token : String)
    (hid : (project.get "_id").truthy = true)
    (hname : (project.get "name").truthy = true)
    (hstatus : project.get "status" = .str token)
    (htoken : token ∈ Api.apiStatusTokens)
    (hmanager : ((project.get "createdBy").get "_id").truthy = true)
    (hdecodes : Api.projectDecodes host project = true) :
    (∃ r, Api.normalizeProject host project = .ok r
        ∧ r.get "id" = project.get "_id"
        ∧ r.get "title" = project.get "name"
        ∧ r.get "status" = Api.statusMap token
        ∧ r.get "managerId" = (project.get "createdBy").get "_id")
    ∧ (∃ label ∈ Api.statusLabels, Api.statusMap token = .str label)
    ∧ Api.statusMap "IN_PROGRESS" = .str "In Progress"
    ∧ Api.statusMap "PLANNING" = .str "Planning"
    ∧ Api.statusMap "ACTIVE" = .str "Active"
    ∧ Api.statusMap "COMPLETED" = .str "Completed"
    ∧ Api.statusMap "ON_HOLD" = .str "On Hold"
    ∧ Api.normalizeProject host Examples.backendProject = .ok Examples.project := by
  obtain ⟨r, hr, h1, h2, h3, h4⟩ := normalizeProject_ok host project hdecodes
  refine ⟨⟨r, hr, ?_, ?_, ?_, ?_⟩, (statusMap_token htoken).2, by decide, by decide,
    by decide, by decide, by decide, rfl⟩
  · rw [h1]; simp [JSValue.or, hid]
  · rw [h2]; simp [JSValue.or, hname]
  · rw [h3]; exact normalizedStatus_token project hstatus htoken
  · rw [h4]
    simp [Api.managerId, optGet_eq_get _ (get_truthy_not_nullish hmanager), JSValue.or, hmanager]

/-- The shape of the normalised project at the backend project of the spec scenario. -/
theorem normalizeProject_backend_shape_witness :
    ∃ r, Api.normalizeProject Examples.host Examples.backendProject = .ok r
      ∧ r.get "id" = .str "p1" ∧ r.get "title" = .str "Site"
      ∧ r.get "status" = .str "In Progress" ∧ r.get "managerId" = .str "m1" :=
  (normalizeProject_backend_shape Examples.host Examples.backendProject "IN_PROGRESS"
    (by decide) (by decide) (by decide) (by decide) (by decide) (by decide)).1

/-- C8: the backend project of the spec scenario, given a developer list whose
first entry is `null`, has `_id`, `name`, the status token 'IN_PROGRESS' and
`createdBy._id`, yet its normalisation yields no record: reading `._id` of the
`null` entry throws a TypeError, and the listing that contains the record
rejects as a whole.  Without the list the record normalises to the project of
the spec, and the manager reference next to it is read with `?.` and survives
a `null`. -/
theorem normalizeProject_throws_on_null_developer :
    (Examples.nullDeveloperSpecProject.get "_id").truthy = true
    ∧ (Examples.nullDeveloperSpecProject.get "name").truthy = true
    ∧ Examples.nullDeveloperSpecProject.get "status" = .str "IN_PROGRESS"
    ∧ "IN_PROGRESS" ∈ Api.apiStatusTokens
    ∧ ((Examples.nullDeveloperSpecProject.get "createdBy").get "_id").truthy = true
    ∧ Api.normalizeProject Examples.host Examples.nullDeveloperSpecProject
        = .error .typeError
    ∧ Api.getProjects Examples.host
          (.obj [("projects", .arr [Examples.backendProject,
                                    Examples.nullDeveloperSpecProject])])
        = .error .typeError
    ∧ Api.normalizeProject Examples.host Examples.backendProject = .ok Examples.project
    ∧ (Api.normalizeProject Examples.host
          (.obj [("_id", .str "p1"), ("name", .str "Site"), ("createdBy", .null)])).map
          (fun r => r.get "managerId")
        = .ok .undefined := by
  decide

/-- C9 (as stated, refuted): a backend project whose status is spelled
'in_progress' normalises to the status 'in_progress', which is none of the five
frontend labels. -/
theorem status_lower_case_not_a_label :
    (Api.normalizeProject Examples.host Examples.lowerCaseBackendProject).map
        (fun r => r.get "status") = .ok (.str "in_progress")
    ∧ "in_progress" ∉ Api.statusLabels := by
  decide

/-- C9 (amended): for every backend project record on which normalisation does
not throw and whose status is one of the five API tokens in their exact
spelling, or already one of the five frontend labels, or absent or otherwise
falsy, the status of the normalised project is one of the five frontend labels
'Planning', 'Active', 'In Progress', 'Completed', 'On Hold'. -/
theorem status_label_invariant (host : Host) (project : JSValue)
    (hdecodes : Api.projectDecodes host project = true)
    (hstatus : (project.get "status").truthy = false
      ∨ ∃ s, project.get "status" = .str s
          ∧ (s ∈ Api.apiStatusTokens ∨ s ∈ Api.statusLabels)) :
    ∃ r, Api.normalizeProject host project = .ok r
      ∧ ∃ label ∈ Api.statusLabels, r.get "status" = .str label := by
  obtain ⟨r, hr, _, _, h3, _⟩ := normalizeProject_ok host project hdecodes
  refine ⟨r, hr, ?_⟩
  rw [h3]
  rcases hstatus with h | ⟨s, hs, h | h⟩
  · exact ⟨"Planning", by decide, normalizedStatus_falsy project h⟩
  · rw [normalizedStatus_token project hs h]
    exact (statusMap_token h).2
  · refine ⟨s, h, ?_⟩
    simp only [Api.statusLabels, List.mem_cons, List.mem_singleton, List.not_mem_nil,
      or_false] at h
    rcases h with h | h | h | h | h <;> subst h <;>
      exact normalizedStatus_other project hs (by decide) (by decide) (by decide)

/-- C9 (amended) at the backend project of the spec scenario. -/
theorem status_label_invariant_witness :
    ∃ r, Api.normalizeProject Examples.host Examples.backendProject = .ok r
      ∧ ∃ label ∈ Api.statusLabels, r.get "status" = .str label :=
  status_label_invariant Examples.host Examples.backendProject (by decide)
    (Or.inr ⟨"IN_PROGRESS", by decide, Or.inl (by decide)⟩)

/-- C10 (the code at the failing input): the status token 'constructor' is the
name of a property that the object literal `statusMap` inherits, so
`statusMap[project.status]` is truthy and the normalised status is that
inherited value, not the backend status 'constructor'.  The same holds for
every other inherited property name. -/
theorem status_inherited_key_not_passed_through :
    Api.normalizedStatus Examples.constructorBackendProject = .builtin "constructor"
    ∧ (Api.normalizeProject Examples.host Examples.constructorBackendProject).map
        (fun r => r.get "status") = .ok (.builtin "constructor")
    ∧ Examples.constructorBackendProject.get "status" = .str "constructor"
    ∧ (∀ key ∈ Api.objectPrototypeKeys,
        Api.normalizedStatus (.obj [("status", .str key)]) = .builtin key) := by
  decide

/-! ## Idempotence of the normalisers -/

theorem or_undefined_left (x : JSValue) : JSValue.or .undefined x = x := by
  simp [JSValue.or, JSValue.truthy]

theorem or_or_right (x y : JSValue) : (x.or y).or y = x.or y := by
  unfold JSValue.or
  by_cases h : x.truthy = true
  · simp [h]
  · simp [h]

theorem or_or_left (a m : JSValue) : a.or (a.or m) = a.or m := by
  unfold JSValue.or
  by_cases h : a.truthy = true
  · simp [h]
  · simp [h]

theorem statusMap_truthy_cases {key : String} (h : (Api.statusMap key).truthy = true) :
    (∃ label ∈ Api.statusLabels, Api.statusMap key = .str label)
      ∨ (key ∈ Api.objectPrototypeKeys ∧ Api.statusMap key = .builtin key) := by
  unfold Api.statusMap at h ⊢
  split_ifs at h ⊢ with h1 h2 h3 h4 h5 h6
  · exact Or.inl ⟨_, by decide, rfl⟩
  · exact Or.inl ⟨_, by decide, rfl⟩
  · exact Or.inl ⟨_, by decide, rfl⟩
  · exact Or.inl ⟨_, by decide, rfl⟩
  · exact Or.inl ⟨_, by decide, rfl⟩
  · exact Or.inr ⟨h6, rfl⟩
  · simp [JSValue.truthy] at h

theorem statusMap_falsy_eq {key : String} (h : (Api.statusMap key).truthy = false) :
    Api.statusMap key = .undefined := by
  unfold Api.statusMap at h ⊢
  split_ifs at h ⊢ <;> first | rfl | simp [JSValue.truthy] at h

theorem statusMap_of_result {key : String} (h : (Api.statusMap key).truthy = true) :
    Api.statusMap (jsString (Api.statusMap key)) = .undefined := by
  rcases statusMap_truthy_cases h with ⟨label, hl, he⟩ | ⟨hk, he⟩
  · rw [he]
    simp only [Api.statusLabels, List.mem_cons, List.mem_singleton, List.not_mem_nil,
      or_false] at hl
    rcases hl with hl | hl | hl | hl | hl <;> subst hl <;> decide
  · rw [he]
    simp only [Api.objectPrototypeKeys, List.mem_cons, List.mem_singleton, List.not_mem_nil,
      or_false] at hk
    rcases hk with hk | hk | hk | hk | hk | hk | hk | hk | hk | hk | hk | hk <;>
      subst hk <;> decide

theorem normalizedStatus_idempotent (p q : JSValue)
    (h : q.get "status" = Api.normalizedStatus p) :
    Api.normalizedStatus q = Api.normalizedStatus p := by
  have hu : JSValue.truthy .undefined = false := rfl
  unfold Api.normalizedStatus at h ⊢
  rw [h]
  by_cases h1 : (Api.statusMap (jsString (p.get "status"))).truthy = true
  · have hr : ((Api.statusMap (jsString (p.get "status"))).or (p.get "status")).or
        (.str "Planning") = Api.statusMap (jsString (p.get "status")) := by
      simp [JSValue.or, h1]
    rw [hr, statusMap_of_result h1]
    simp [JSValue.or, h1, hu]
  · have h1f : (Api.statusMap (jsString (p.get "status"))).truthy = false := by
      simpa using h1
    have hm := statusMap_falsy_eq h1f
    by_cases h2 : (p.get "status").truthy = true
    · have hr : ((Api.statusMap (jsString (p.get "status"))).or (p.get "status")).or
          (.str "Planning") = p.get "status" := by
        simp [JSValue.or, hm, hu, h2]
      rw [hr, hr]
    · have hr : ((Api.statusMap (jsString (p.get "status"))).or (p.get "status")).or
          (.str "Planning") = .str "Planning" := by
        simp [JSValue.or, hm, hu, h2]
      rw [hr]
      decide

theorem get_obj (fields : Fields) (k : String) :
    (JSValue.obj fields).get k = JSValue.lookup k fields := rfl

theorem lookup_nil (k : String) : JSValue.lookup k [] = .undefined := rfl

theorem lookup_cons (k k' : String) (v : JSValue) (rest : Fields) :
    JSValue.lookup k ((k', v) :: rest) = if k' = k then v else JSValue.lookup k rest := rfl

theorem assignedDeveloperId_congr (host : Host) (p q : JSValue)
    (h : q.get "assignedDevelopers" = (p.get "assignedDevelopers").or (.arr [])) :
    Api.assignedDeveloperId host q = Api.assignedDeveloperId host p := by
  unfold Api.assignedDeveloperId
  simp only [h]
  by_cases hd : (p.get "assignedDevelopers").truthy = true
  · simp [JSValue.or, hd]
  · have hor : (p.get "assignedDevelopers").or (.arr []) = .arr [] := by simp [JSValue.or, hd]
    have hg : gtZero host ((JSValue.arr []).get "length") = false := by
      simp [JSValue.get, gtZero]
    rw [hor]
    simp [hd, hg]

theorem startDate_stable (host : Host) (p q : JSValue) (s : JSValue)
    (h : Api.startDate host p = .ok s) (hs : q.get "startDate" = s)
    (hc : q.get "createdAt" = p.get "createdAt") :
    Api.startDate host q = .ok s := by
  unfold Api.startDate at h ⊢
  rw [hs, hc]
  by_cases h1 : (p.get "startDate").truthy = true
  · simp only [h1, if_true] at h
    cases h
    simp [h1]
  · simp only [h1, Bool.false_eq_true, if_false] at h
    by_cases h2 : (p.get "createdAt").truthy = true
    · simp only [h2, if_true] at h
      cases h3 : host.isoDay (p.get "createdAt") with
      | none => simp [h3] at h
      | some day =>
        simp only [h3] at h
        cases h
        by_cases h4 : (JSValue.str day).truthy = true
        · simp [h4]
        · simp [h4, h2, h3]
    · simp only [h2, Bool.false_eq_true, if_false] at h
      cases h
      have he : (JSValue.str "").truthy = false := rfl
      simp [he, h2]

theorem managerId_idempotent (p q : JSValue)
    (hc : q.get "createdBy" = p.get "createdBy")
    (hm : q.get "managerId" = Api.managerId p) :
    Api.managerId q = Api.managerId p := by
  unfold Api.managerId at hm ⊢
  rw [hc, hm, or_or_left]

/-- C11: project normalisation is idempotent: whenever normalising a backend
record `r` succeeds with the record `n`, normalising `n` again succeeds with
`n`; in particular the status is not mapped and the start date not rendered a
second time. -/
theorem normalizeProject_idempotent (host : Host) (r : JSValue) (n : Fields)
    (h : Api.normalizeProject host r = .ok n) :
    Api.normalizeProject host (.obj n) = .ok n := by
  unfold Api.normalizeProject at h
  split at h
  · cases h
  · split at h
    · cases h
    · next developerId hdev =>
      split at h
      · cases h
      · next start hstart =>
        cases h
        unfold Api.normalizeProject
        rw [assignedDeveloperId_congr host r (JSValue.obj _), hdev,
          startDate_stable host r (JSValue.obj _) start hstart,
          normalizedStatus_idempotent r (JSValue.obj _),
          managerId_idempotent r (JSValue.obj _)]
        · simp [JSValue.isNullish, get_obj, lookup_cons, lookup_nil, or_undefined_left,
            or_or_right]
        all_goals simp [get_obj, lookup_cons, lookup_nil]

/-- C11 at a backend project with the status token ON_HOLD and a creation time:
it normalises to the label 'On Hold' and the start day 2024-01-15, and
normalising that record again returns it unchanged. -/
theorem normalizeProject_idempotent_witness :
    Api.normalizeProject Examples.isoHost Examples.createdBackendProject
      = .ok Examples.createdProject
    ∧ Api.normalizeProject Examples.isoHost (.obj Examples.createdProject)
      = .ok Examples.createdProject :=
  ⟨by decide,
   normalizeProject_idempotent Examples.isoHost Examples.createdBackendProject
     Examples.createdProject (by decide)⟩

theorem normalizeDate_idempotent (host : Host)
    (hstable : ∀ v day, host.isoDay v = some day → host.isoDay (.str day) = some day)
    (v : JSValue) :
    Api.normalizeDate host (Api.normalizeDate host v) = Api.normalizeDate host v := by
  have he : (JSValue.str "").truthy = false := rfl
  unfold Api.normalizeDate
  by_cases h1 : v.truthy = true
  · cases h2 : host.isoDay v with
    | none => simp [h1, h2]
    | some day =>
      by_cases h3 : (JSValue.str day).truthy = true
      · simp [h1, h2, h3, hstable v day h2]
      · simp [h1, h2, h3]
        exact (by simpa [JSValue.truthy] using h3 : day = "").symm
  · simp [h1, he]

/-- C12 (as stated, refuted): the backend task of the login scenario, whose
`assignedTo` is a nested user object, normalises to `task`, with the object
kept in `assignedToUser`; normalising `task` again yields a record whose
`assignedToUser` is the id "u1", so the two records differ. -/
theorem normalizeTask_not_idempotent :
    Api.normalizeTask Examples.host Examples.backendTask = .ok Examples.task
    ∧ Api.normalizeTask Examples.host (.obj Examples.task) = .ok Examples.renormalizedTask
    ∧ Examples.renormalizedTask ≠ Examples.task
    ∧ Examples.task.get "assignedToUser" = .obj [("_id", .str "u1"), ("name", .str "Dev")]
    ∧ Examples.renormalizedTask.get "assignedToUser" = .str "u1" := by
  decide

/-- C12 (amended): for every backend task record `r`, on a host whose day
rendering reproduces the days it renders (as `Date` does), normalising the
normalised task `n` again yields a record `m` with the same id, projectId,
moduleId, title, description, status, priority, startDate, endDate, createdAt
and updatedAt; `m.assignedTo` is the reference extracted from `n.assignedTo`,
equal to it whenever `n.assignedTo` is not an object; and the auxiliary
`m.assignedToUser` is `n.assignedTo`, the id, not the backend's value.  The
whole record is reproduced, `m = n`, when the backend's `assignedTo` is not an
object. -/
theorem normalizeTask_renormalized (host : Host) (r : JSValue)
    (hr : r.isNullish = false)
    (hstable : ∀ v day, host.isoDay v = some day → host.isoDay (.str day) = some day) :
    ∃ n m, Api.normalizeTask host r = .ok n ∧ Api.normalizeTask host (.obj n) = .ok m
      ∧ (∀ k ∈ ["id", "projectId", "moduleId", "title", "description", "status", "priority",
                "startDate", "endDate", "createdAt", "updatedAt"], m.get k = n.get k)
      ∧ m.get "assignedTo" = Api.referenceId (n.get "assignedTo")
      ∧ ((∀ fields, n.get "assignedTo" ≠ .obj fields) →
          m.get "assignedTo" = n.get "assignedTo")
      ∧ m.get "assignedToUser" = n.get "assignedTo"
      ∧ ((∀ fields, r.get "assignedTo" ≠ .obj fields) → m = n) := by
  refine ⟨_, _, by simp only [Api.normalizeTask, hr]; rfl,
    by simp only [Api.normalizeTask, JSValue.isNullish]; rfl, ?_, ?_, ?_, ?_, ?_⟩
  · intro k hk
    simp only [List.mem_cons, List.mem_singleton, List.not_mem_nil, or_false] at hk
    rcases hk with h | h | h | h | h | h | h | h | h | h | h <;> subst h <;>
      simp [Fields.get, get_obj, lookup_cons, lookup_nil, or_undefined_left, or_or_right,
        normalizeDate_idempotent host hstable]
  · simp [Fields.get, get_obj, lookup_cons, lookup_nil, Api.assignedToId]
  · intro h
    simp only [Fields.get, get_obj, lookup_cons, lookup_nil, Api.assignedToId] at h ⊢
    simp only [if_true, if_false, reduceCtorEq] at h ⊢
    simpa using referenceId_of_not_obj _ h
  · simp [Fields.get, get_obj, lookup_cons, lookup_nil, Api.assignedToId]
  · intro h
    have h1 := referenceId_of_not_obj _ h
    simp [get_obj, lookup_cons, lookup_nil, Api.assignedToId, or_undefined_left, or_or_right,
      normalizeDate_idempotent host hstable, h1]

theorem isoHost_stable (v : JSValue) (day : String)
    (h : Examples.isoHost.isoDay v = some day) :
    Examples.isoHost.isoDay (.str day) = some day := by
  simp only [Examples.isoHost] at h ⊢
  split_ifs at h <;> (cases h; decide)

/-- C12 (amended) at a backend task assigned by a bare id, with ISO date-times:
the dates become days and a second normalisation reproduces the record. -/
theorem normalizeTask_renormalized_witness :
    Examples.datedBackendTask.isNullish = false
    ∧ ∃ n m, Api.normalizeTask Examples.isoHost Examples.datedBackendTask = .ok n
        ∧ Api.normalizeTask Examples.isoHost (.obj n) = .ok m
        ∧ m.get "assignedToUser" = n.get "assignedTo"
        ∧ m = n :=
  ⟨by decide,
   let ⟨n, m, hn, hm, _, _, _, hu, heq⟩ :=
     normalizeTask_renormalized Examples.isoHost Examples.datedBackendTask (by decide)
       isoHost_stable
   ⟨n, m, hn, hm, hu, heq (fun fields hf => by
      have hget : Examples.datedBackendTask.get "assignedTo" = .str "u1" := by decide
      rw [hget] at hf
      cases hf)⟩⟩


/-! ## Decode failures and date normalisation -/

/-- C13 (the code at the failing inputs): a backend project whose
`assignedDevelopers` starts with `null` makes the normalisation of `getProjects`
throw a TypeError, and one without `startDate` whose `createdAt` is not a date
makes it throw a RangeError; either record makes the whole listing fail.  A
developer list holding a bare id does not throw.  The task normaliser, whose
`normalizeDate` catches the exception, returns the unparsable value unchanged. -/
theorem normalizeProject_throws_on_malformed_optional_fields :
    Api.normalizeProject Examples.isoHost Examples.nullDeveloperBackendProject
      = .error .typeError
    ∧ Examples.isoHost.isoDay (.str "not a date") = none
    ∧ Api.normalizeProject Examples.isoHost Examples.undatedBackendProject
      = .error .rangeError
    ∧ Api.getProjects Examples.isoHost
        (.obj [("projects", .arr [Examples.backendProject, Examples.nullDeveloperBackendProject])])
      = .error .typeError
    ∧ Api.getProjects Examples.isoHost
        (.obj [("projects", .arr [Examples.backendProject, Examples.undatedBackendProject])])
      = .error .rangeError
    ∧ (Api.normalizeProject Examples.isoHost Examples.bareDeveloperBackendProject).map
        (fun r => r.get "assignedDeveloperId") = .ok .undefined
    ∧ (Api.normalizeTask Examples.isoHost
        (.obj [("_id", .str "t9"), ("startDate", .str "not a date")])).map
        (fun r => r.get "startDate") = .ok (.str "not a date") := by
  decide

/-- C14 (as stated, refuted): a backend project whose `startDate` and `endDate`
are ISO date-times keeps them as they are, although the host renders them to
the days 2024-01-15 and 2024-02-20, which is what the task normaliser stores for
the same values. -/
theorem project_dates_not_normalized :
    Examples.isoHost.isoDay (.str "2024-01-15T10:30:00.000Z") = some "2024-01-15"
    ∧ Examples.isoHost.isoDay (.str "2024-02-20T08:00:00.000Z") = some "2024-02-20"
    ∧ (Api.normalizeProject Examples.isoHost Examples.datedBackendProject).map
        (fun r => r.get "startDate") = .ok (.str "2024-01-15T10:30:00.000Z")
    ∧ (Api.normalizeProject Examples.isoHost Examples.datedBackendProject).map
        (fun r => r.get "endDate") = .ok (.str "2024-02-20T08:00:00.000Z")
    ∧ (Api.normalizeTask Examples.isoHost Examples.datedBackendTask).map
        (fun r => r.get "startDate") = .ok (.str "2024-01-15")
    ∧ (Api.normalizeTask Examples.isoHost Examples.datedBackendTask).map
        (fun r => r.get "endDate") = .ok (.str "2024-02-20") := by
  decide

theorem normalizeTask_dates (host : Host) (task : JSValue) (h : task.isNullish = false) :
    ∃ r, Api.normalizeTask host task = .ok r
      ∧ r.get "startDate" = Api.normalizeDate host (task.get "startDate")
      ∧ r.get "endDate" = Api.normalizeDate host (task.get "endDate") := by
  refine ⟨_, by simp only [Api.normalizeTask, h]; rfl, ?_, ?_⟩ <;>
    simp [Fields.get, lookup_cons, lookup_nil]

theorem normalizeBug_dates (host : Host) (bug : JSValue) (h : bug.isNullish = false) :
    ∃ r, Api.normalizeBug host bug = .ok r
      ∧ r.get "startDate" = Api.normalizeDate host (bug.get "startDate")
      ∧ r.get "endDate" = Api.normalizeDate host (bug.get "endDate") := by
  refine ⟨_, by simp only [Api.normalizeBug, h]; rfl, ?_, ?_⟩ <;>
    simp [Fields.get, lookup_cons, lookup_nil]

theorem normalizeProject_dates (host : Host) (project : JSValue) (r : Fields)
    (h : Api.normalizeProject host project = .ok r) :
    Api.startDate host project = .ok (r.get "startDate")
      ∧ r.get "endDate" = (project.get "endDate").or (.str "") := by
  unfold Api.normalizeProject at h
  split at h
  · cases h
  · split at h
    · cases h
    · split at h
      · cases h
      · next start hstart =>
        cases h
        simp [Fields.get, lookup_cons, lookup_nil, hstart]

/-- C14 (amended): for task and bug records, `startDate` and `endDate` are
`normalizeDate` of the backend value: '' for an absent, empty or otherwise falsy
value; the date part of the value's ISO form for a value the host renders; and
the value itself, unchanged, when rendering throws.  For a project record the
dates are not normalised: `endDate` is the backend value as it is ('' when
falsy); `startDate` is the backend value as it is when truthy, and otherwise the
date part of the ISO form of `createdAt` when that is truthy and valid, and ''
when `createdAt` is falsy. -/
theorem date_normalization (host : Host) (record : JSValue)
    (hrecord : record.isNullish = false) :
    (∃ t, Api.normalizeTask host record = .ok t
        ∧ t.get "startDate" = Api.normalizeDate host (record.get "startDate")
        ∧ t.get "endDate" = Api.normalizeDate host (record.get "endDate"))
    ∧ (∃ b, Api.normalizeBug host record = .ok b
        ∧ b.get "startDate" = Api.normalizeDate host (record.get "startDate")
        ∧ b.get "endDate" = Api.normalizeDate host (record.get "endDate"))
    ∧ (∀ v : JSValue, v.truthy = false → Api.normalizeDate host v = .str "")
    ∧ (∀ (v : JSValue) (day : String), v.truthy = true → host.isoDay v = some day →
        Api.normalizeDate host v = .str day)
    ∧ (∀ v : JSValue, v.truthy = true → host.isoDay v = none → Api.normalizeDate host v = v)
    ∧ (Api.projectDecodes host record = true →
        ∃ p, Api.normalizeProject host record = .ok p
          ∧ p.get "endDate" = (record.get "endDate").or (.str "")
          ∧ ((record.get "startDate").truthy = true →
              p.get "startDate" = record.get "startDate")
          ∧ (∀ day, (record.get "startDate").truthy = false →
              (record.get "createdAt").truthy = true →
              host.isoDay (record.get "createdAt") = some day → p.get "startDate" = .str day)
          ∧ ((record.get "startDate").truthy = false →
              (record.get "createdAt").truthy = false → p.get "startDate" = .str "")) := by
  refine ⟨normalizeTask_dates host record hrecord, normalizeBug_dates host record hrecord,
    ?_, ?_, ?_, ?_⟩
  · intro v hv; simp [Api.normalizeDate, hv]
  · intro v day hv hd; simp [Api.normalizeDate, hv, hd]
  · intro v hv hd; simp [Api.normalizeDate, hv, hd]
  · intro hdec
    obtain ⟨p, hp⟩ := (normalizeProject_returns_iff host record).2 hdec
    obtain ⟨hstart, hend⟩ := normalizeProject_dates host record p hp
    refine ⟨p, hp, hend, ?_, ?_, ?_⟩
    · intro h1
      simp only [Api.startDate, h1, if_true] at hstart
      exact (Except.ok.inj hstart).symm
    · intro day h1 h2 h3
      simp only [Api.startDate, h1, h2, h3, Bool.false_eq_true, if_false, if_true] at hstart
      exact (Except.ok.inj hstart).symm
    · intro h1 h2
      simp only [Api.startDate, h1, h2, Bool.false_eq_true, if_false] at hstart
      exact (Except.ok.inj hstart).symm

/-- C14 (amended) at a backend task with ISO date-times: the dates become the
days 2024-01-15 and 2024-02-20. -/
theorem date_normalization_witness :
    Examples.datedBackendTask.isNullish = false
    ∧ ∃ t, Api.normalizeTask Examples.isoHost Examples.datedBackendTask = .ok t
        ∧ t.get "startDate" = .str "2024-01-15" ∧ t.get "endDate" = .str "2024-02-20" :=
  ⟨by decide,
   let ⟨t, ht, hs, he⟩ :=
     (date_normalization Examples.isoHost Examples.datedBackendTask (by decide)).1
   ⟨t, ht, hs.trans (by decide), he.trans (by decide)⟩⟩


open DataContext

/-! ## Commands of the entity store -/

/-- C15 (the code when the backend call fails): with the POST or PUT rejected by
`e`, every command leaves its collection unchanged, and the four create commands
put an error notification in front of the log; but only the module and bug
commands reject (re-throw).  `addTask`, `updateTask`, `addProject` and
`updateProject` catch the failure and resolve normally, so their caller cannot
see it. -/
theorem create_update_failure (host : Host) (clock : Clock) (e : JSError) (s : Store)
    (id projectId draft : JSValue) (updates : Fields) :
    addTask host clock (.error e) s
      = ⟨addNotification clock "Failed to create task" "error" s, .ok .undefined⟩
    ∧ updateTask host clock id updates (.error e) s = ⟨s, .ok .undefined⟩
    ∧ addProject host clock draft (.error e) s
      = ⟨addNotification clock "Failed to create project" "error" s, .ok .undefined⟩
    ∧ updateProject clock id updates (.error e) s = ⟨s, .ok .undefined⟩
    ∧ addModule clock projectId draft (.error e) s
      = ⟨addNotification clock "Failed to create module" "error" s,
         .error (if draft.isNullish then .typeError else e)⟩
    ∧ updateModule clock projectId id updates (.error e) s
      = ⟨addNotification clock "Failed to update module" "error" s, .error e⟩
    ∧ addBug host clock draft (.error e) s
      = ⟨addNotification clock "Failed to report bug" "error" s,
         .error (if draft.isNullish then .typeError else e)⟩
    ∧ updateBug host clock id updates (.error e) s = ⟨s, .error e⟩
    ∧ (addNotification clock "Failed to create task" "error" s).tasks = s.tasks
    ∧ (addNotification clock "Failed to create project" "error" s).projects = s.projects
    ∧ (addNotification clock "Failed to create module" "error" s).modules = s.modules
    ∧ (addNotification clock "Failed to report bug" "error" s).bugs = s.bugs := by
  refine ⟨rfl, rfl, ?_, rfl, ?_, rfl, ?_, rfl, rfl, rfl, rfl, rfl⟩
  · unfold addProject
    by_cases h : draft.isNullish = true <;> simp [h, Api.createProject]
  · unfold addModule Api.createModule
    by_cases h : draft.isNullish = true <;> simp [h]
  · unfold addBug Api.createBug
    by_cases h : draft.isNullish = true <;> simp [h]


/-- C16 (the code at the failing input): a successful `addBug` appends the
created bug and puts exactly one notification in front of the log, but its type
is 'error', not 'success' as for the other three create commands. -/
theorem addBug_notifies_with_type_error :
    ((addBug Examples.host Examples.clock (.obj [("title", .str "Crash on save")])
        (.ok Examples.createdBackendBug) Examples.store).store.notifications.map
      fun n => (n.get "message", n.get "type"))
      = [(.str "New bug reported: Crash on save", .str "error"),
         (.str "Task deleted successfully", .str "info")]
    ∧ ((addBug Examples.host Examples.clock (.obj [("title", .str "Crash on save")])
        (.ok Examples.createdBackendBug) Examples.store).store.bugs.map fun b => b.get "id")
      = [.str "b1", .str "b7"] := by
  decide

/-- What the create commands do on success: a create command whose api call
returns the normalised record `r` leaves every other collection and the
existing records of its own collection unchanged and in order, appends one
record as the last element (`r` for a task, project or module; for a bug
`{ ...r, id: r.id || r._id, taskId: r.taskId }`), and puts exactly one
notification in front of the log.  Its type is 'success' for a task, project or
module; `addBug` passes 'error'. -/
theorem create_success (host : Host) (clock : Clock) (backend : Except JSError JSValue)
    (s : Store) (projectId draft : JSValue) (r : Fields) :
    (Api.createTask host backend = .ok r →
      addTask host clock backend s
        = ⟨⟨s.projects, s.modules, s.tasks ++ [r], s.bugs,
            newNotification clock ("New task assigned: " ++ jsString (r.get "title")) "success"
              :: s.notifications, s.isLoaded⟩, .ok .undefined⟩)
    ∧ (draft.isNullish = false → Api.createProject host backend = .ok r →
      addProject host clock draft backend s
        = ⟨⟨s.projects ++ [r], s.modules, s.tasks, s.bugs,
            newNotification clock ("New project created: " ++ jsString (r.get "title"))
              "success" :: s.notifications, s.isLoaded⟩, .ok .undefined⟩)
    ∧ (Api.createModule projectId draft backend = .ok r →
      addModule clock projectId draft backend s
        = ⟨⟨s.projects, s.modules ++ [r], s.tasks, s.bugs,
            newNotification clock ("New module created: " ++ jsString (r.get "name"))
              "success" :: s.notifications, s.isLoaded⟩, .ok .undefined⟩)
    ∧ (Api.createBug host draft backend = .ok r →
      addBug host clock draft backend s
        = ⟨⟨s.projects, s.modules, s.tasks, s.bugs ++ [addedBug r],
            newNotification clock
              ("New bug reported: " ++ jsString ((addedBug r).get "title")) "error"
              :: s.notifications, s.isLoaded⟩, .ok (.obj (addedBug r))⟩)
    ∧ (∀ message type, (newNotification clock message type).get "type" = .str type) := by
  refine ⟨?_, ?_, ?_, ?_, ?_⟩
  · intro h; simp [addTask, h, addNotification, Store.withTasks]
  · intro hd h; simp [addProject, hd, h, addNotification, Store.withProjects]
  · intro h; simp [addModule, h, addNotification, Store.withModules]
  · intro h; simp [addBug, h, addNotification, Store.withBugs]
  · intro message type; simp [newNotification, Fields.get, lookup_cons, lookup_nil]

/-- A task creation answered with the backend task of the login scenario: the
task is appended after the existing one and a 'success' notification is put in
front. -/
theorem create_success_witness :
    Api.createTask Examples.host (.ok Examples.backendTask) = .ok Examples.task
    ∧ addTask Examples.host Examples.clock (.ok Examples.backendTask) Examples.store
      = ⟨⟨[Examples.project], [Examples.module], [Examples.task, Examples.task],
          [Examples.bug],
          [DataContext.newNotification Examples.clock "New task assigned: Fix login" "success",
           Examples.oldNotification], true⟩, .ok .undefined⟩ :=
  ⟨by decide,
   (create_success Examples.host Examples.clock (.ok Examples.backendTask) Examples.store
     .null .null Examples.task).1 (by decide)⟩


theorem hasKey_cons (k k' : String) (v : JSValue) (rest : Fields) :
    hasKey k ((k', v) :: rest) = (k' == k || hasKey k rest) := by
  simp [hasKey]

theorem lookup_of_not_hasKey {k : String} {fields : Fields} (h : hasKey k fields = false) :
    JSValue.lookup k fields = .undefined := by
  induction fields with
  | nil => rfl
  | cons kv rest ih =>
    obtain ⟨k', v⟩ := kv
    rw [hasKey_cons] at h
    simp only [Bool.or_eq_false_iff, beq_eq_false_iff_ne] at h
    rw [lookup_cons, if_neg h.1, ih h.2]

theorem lookup_append (k : String) (a b : Fields) :
    JSValue.lookup k (a ++ b) = if hasKey k a then JSValue.lookup k a else JSValue.lookup k b := by
  induction a with
  | nil => simp [hasKey]
  | cons kv rest ih =>
    obtain ⟨k', v⟩ := kv
    rw [List.cons_append, lookup_cons, lookup_cons, hasKey_cons, ih]
    by_cases h : k' = k
    · simp [h]
    · simp [h]

theorem hasKey_map_spread (k : String) (base over : Fields) :
    hasKey k (base.map fun kv =>
      if hasKey kv.1 over then (kv.1, JSValue.lookup kv.1 over) else kv) = hasKey k base := by
  induction base with
  | nil => rfl
  | cons kv rest ih =>
    obtain ⟨k', v⟩ := kv
    rw [List.map_cons, hasKey_cons k k' v rest, ← ih]
    by_cases h : hasKey k' over = true <;> simp [h, hasKey_cons]

theorem lookup_map_spread (k : String) (base over : Fields) (h : hasKey k base = true) :
    JSValue.lookup k (base.map fun kv =>
      if hasKey kv.1 over then (kv.1, JSValue.lookup kv.1 over) else kv)
      = if hasKey k over then JSValue.lookup k over else JSValue.lookup k base := by
  induction base with
  | nil => simp [hasKey] at h
  | cons kv rest ih =>
    obtain ⟨k', v⟩ := kv
    rw [hasKey_cons] at h
    rw [List.map_cons]
    by_cases hk : k' = k
    · subst hk
      by_cases ho : hasKey k' over = true <;> simp [ho, lookup_cons]
    · have hrest : hasKey k rest = true := by simpa [hk] using h
      by_cases ho : hasKey k' over = true <;> simp [ho, lookup_cons, hk, ih hrest]

theorem lookup_filter_new (k : String) (base over : Fields) (h : hasKey k base = false) :
    JSValue.lookup k (over.filter fun kv => !hasKey kv.1 base) = JSValue.lookup k over := by
  induction over with
  | nil => rfl
  | cons kv rest ih =>
    obtain ⟨k', v⟩ := kv
    by_cases hk : k' = k
    · subst hk
      simp [List.filter_cons, h, lookup_cons]
    · by_cases hb : hasKey k' base = true
      · simp [List.filter_cons, hb, lookup_cons, hk, ih]
      · simp [List.filter_cons, hb, lookup_cons, hk, ih]

/-- Reading a property of `{...base, ...over}`: the value `over` gives it when
`over` has the property, else the value of `base`. -/
theorem spread_get (base over : Fields) (k : String) :
    (spread base over).get k = if hasKey k over then over.get k else base.get k := by
  unfold spread Fields.get
  rw [lookup_append, hasKey_map_spread]
  by_cases hb : hasKey k base = true
  · simp [hb, lookup_map_spread k base over hb]
  · have hb' : hasKey k base = false := by simpa using hb
    simp only [hb', Bool.false_eq_true, if_false]
    rw [lookup_filter_new k base over hb']
    by_cases ho : hasKey k over = true
    · simp [ho]
    · have ho' : hasKey k over = false := by simpa using ho
      simp [ho', lookup_of_not_hasKey ho', lookup_of_not_hasKey hb']

theorem updateTask_success (host : Host) (clock : Clock) (taskId : JSValue) (updates : Fields)
    (backend : Except JSError JSValue) (s : Store) (r : Fields)
    (h : Api.updateTask host taskId backend = .ok r) :
    (updateTask host clock taskId updates backend s).store.tasks
        = s.tasks.map (fun t => if strictEq (t.get "id") taskId then spread t updates else t)
    ∧ (updateTask host clock taskId updates backend s).store.projects = s.projects
    ∧ (updateTask host clock taskId updates backend s).store.modules = s.modules
    ∧ (updateTask host clock taskId updates backend s).store.bugs = s.bugs
    ∧ (updateTask host clock taskId updates backend s).store.notifications
        = (if (updates.get "status").truthy then
            [newNotification clock
              ("Task \"" ++ jsString
                  (optField (s.tasks.find? fun t => strictEq (t.get "id") taskId) "title")
                ++ "\" status updated to " ++ jsString (updates.get "status")) "info"]
           else []) ++ s.notifications
    ∧ (updateTask host clock taskId updates backend s).result = .ok .undefined := by
  unfold updateTask
  rw [h]
  by_cases hs : (updates.get "status").truthy = true
  · simp [hs, addNotification, Store.withTasks]
  · simp [hs, Store.withTasks]

/-- C17 (as stated, refuted): the store holds the task with the numeric id 5 and
`updateTask` is called with the id "5", which has the same string form.  The
PUT succeeds, yet the local task is not replaced: the tasks are unchanged, and
the notification names the task "undefined".  Called with the number 5 the same
update is merged; and `updateBug`, which compares string forms, replaces the bug
with the numeric id 9 when called with the id "9". -/
theorem updateTask_compares_strictly :
    jsString (Examples.storedNumericTask.get "id") = jsString (.str "5")
    ∧ (updateTask Examples.host Examples.clock (.str "5") [("status", .str "Completed")]
        (.ok Examples.updateResponse) Examples.numericStore).store.tasks
      = [Examples.storedNumericTask]
    ∧ ((updateTask Examples.host Examples.clock (.str "5") [("status", .str "Completed")]
        (.ok Examples.updateResponse) Examples.numericStore).store.notifications.map
        fun n => n.get "message")
      = [.str "Task \"undefined\" status updated to Completed"]
    ∧ ((updateTask Examples.host Examples.clock (.num 5) [("status", .str "Completed")]
        (.ok Examples.updateResponse) Examples.numericStore).store.tasks.map
        fun t => (t.get "id", t.get "status"))
      = [(.num 5, .str "Completed")]
    ∧ ((updateBug Examples.host Examples.clock (.str "9") [("status", .str "Resolved")]
        (.ok (.obj [("id", .num 9), ("status", .str "Resolved")]))
        Examples.numericStore).store.bugs.map fun b => (b.get "id", b.get "status"))
      = [(.num 9, .str "Resolved")] := by
  decide

/-- C17 (amended): for a PUT that succeeds and an id from which no stored task id
differs only in type (a stored id with the same string form is the same value,
as when the id is read from a stored task), `updateTask(id, patch)` replaces
each task whose id equals the given id under string equality by the task with
the fields of the patch merged over it, and leaves every other task, the order
and the length of the collection unchanged. -/
theorem updateTask_merges (host : Host) (clock : Clock) (taskId : JSValue) (updates : Fields)
    (backend : Except JSError JSValue) (s : Store) (r : Fields)
    (hput : Api.updateTask host taskId backend = .ok r)
    (hsame : ∀ t ∈ s.tasks, jsString (t.get "id") = jsString taskId →
      strictEq (t.get "id") taskId = true) :
    (updateTask host clock taskId updates backend s).store.tasks
        = s.tasks.map (fun t =>
            if jsString (t.get "id") = jsString taskId then spread t updates else t)
    ∧ (updateTask host clock taskId updates backend s).store.tasks.length = s.tasks.length
    ∧ (∀ (i : Nat) (t : Fields), s.tasks[i]? = some t →
        jsString (t.get "id") = jsString taskId →
        (updateTask host clock taskId updates backend s).store.tasks[i]?
          = some (spread t updates))
    ∧ (∀ (i : Nat) (t : Fields), s.tasks[i]? = some t →
        jsString (t.get "id") ≠ jsString taskId →
        (updateTask host clock taskId updates backend s).store.tasks[i]? = some t)
    ∧ (∀ (t : Fields) (k : String),
        (spread t updates).get k = if hasKey k updates then updates.get k else t.get k) := by
  have htasks : (updateTask host clock taskId updates backend s).store.tasks
      = s.tasks.map (fun t =>
          if jsString (t.get "id") = jsString taskId then spread t updates else t) := by
    rw [(updateTask_success host clock taskId updates backend s r hput).1]
    apply List.map_congr_left
    intro t ht
    rw [strictEq_eq_string_eq (hsame t ht)]
    simp
  refine ⟨htasks, ?_, ?_, ?_, fun t k => spread_get t updates k⟩
  · rw [htasks, List.length_map]
  · intro i t hi hid
    rw [htasks]
    simp [hi, hid]
  · intro i t hi hid
    rw [htasks]
    simp [hi, hid]

theorem updateTask_merges_witness :
    (updateTask Examples.host Examples.clock (Examples.numericTask.get "id")
        [("status", .str "Completed")] (.ok Examples.updateResponse)
        Examples.twoTaskStore).store.tasks
      = [Examples.task,
         [("id", .str "t2"), ("projectId", .str "p1"), ("title", .str "Write docs"),
          ("assignedTo", .num 5), ("assignedToUser", .num 5), ("status", .str "Completed")]]
    ∧ (updateTask Examples.host Examples.clock (Examples.numericTask.get "id")
        [("status", .str "Completed")] (.ok Examples.updateResponse)
        Examples.twoTaskStore).store.tasks[1]?
      = some (spread Examples.numericTask [("status", .str "Completed")])
    ∧ (updateTask Examples.host Examples.clock (.num 5)
        [("status", .str "Completed")] (.ok Examples.updateResponse)
        Examples.numericStore).store.tasks[0]?
      = some (spread Examples.storedNumericTask [("status", .str "Completed")]) :=
  ⟨by decide,
   (updateTask_merges Examples.host Examples.clock (Examples.numericTask.get "id")
      [("status", .str "Completed")] (.ok Examples.updateResponse) Examples.twoTaskStore _
      rfl (by decide)).2.2.1 1 Examples.numericTask rfl (by decide),
   (updateTask_merges Examples.host Examples.clock (.num 5)
      [("status", .str "Completed")] (.ok Examples.updateResponse) Examples.numericStore _
      rfl (by decide)).2.2.1 0 Examples.storedNumericTask rfl (by decide)⟩

/-- C18 (as stated, refuted): a successful `updateProject` and a successful
`updateModule` with a patch that has no `status` field still put a notification
in front of the log; and a successful `updateTask` whose patch contains the
status field with the empty value adds none. -/
theorem update_notification_not_iff_status :
    hasKey "status" [("description", .str "New text")] = false
    ∧ ((updateProject Examples.clock (.str "p1") [("description", .str "New text")]
        (.ok Examples.updateResponse) Examples.store).store.notifications.map
        fun n => n.get "message")
      = [.str "Project \"Site\" updated successfully", .str "Task deleted successfully"]
    ∧ ((updateModule Examples.clock (.str "p1") (.str "m1") [("description", .str "New text")]
        (.ok Examples.updateResponse) Examples.store).store.notifications.map
        fun n => n.get "message")
      = [.str "Module \"Auth\" updated successfully", .str "Task deleted successfully"]
    ∧ hasKey "status" [("status", .str "")] = true
    ∧ (updateTask Examples.host Examples.clock (.str "t1") [("status", .str "")]
        (.ok Examples.updateResponse) Examples.store).store.notifications
      = Examples.store.notifications := by
  decide

/-- C18 (amended): a successful `updateTask` or `updateBug` puts one notification
(of type 'info') in front of the log if and only if `updates.status` is truthy,
and otherwise leaves the log unchanged; a successful `updateProject` or
`updateModule` always puts one notification (of type 'info') in front of the
log, whatever the patch. -/
theorem update_notifications (host : Host) (clock : Clock) (id projectId : JSValue)
    (updates : Fields) (backend : Except JSError JSValue) (s : Store) :
    (∀ r, Api.updateTask host id backend = .ok r →
      (updateTask host clock id updates backend s).store.notifications
        = if (updates.get "status").truthy then
            newNotification clock
              ("Task \"" ++ jsString
                  (optField (s.tasks.find? fun t => strictEq (t.get "id") id) "title")
                ++ "\" status updated to " ++ jsString (updates.get "status")) "info"
              :: s.notifications
          else s.notifications)
    ∧ (∀ r, Api.updateBug host id backend = .ok r →
      (updateBug host clock id updates backend s).store.notifications
        = if (updates.get "status").truthy then
            newNotification clock
              ("Bug \"" ++ jsString
                  (optField (s.bugs.find? fun b => jsString (b.get "id") == jsString id)
                    "title")
                ++ "\" status updated to " ++ jsString (updates.get "status")) "info"
              :: s.notifications
          else s.notifications)
    ∧ (∀ r, Api.updateProject backend = .ok r →
      (updateProject clock id updates backend s).store.notifications
        = newNotification clock
            ("Project \"" ++ jsString
                (optField (s.projects.find? fun p => strictEq (p.get "id") id) "title")
              ++ "\" updated successfully") "info"
            :: s.notifications)
    ∧ (∀ r, Api.updateModule projectId id backend = .ok r →
      (updateModule clock projectId id updates backend s).store.notifications
        = newNotification clock
            ("Module \"" ++ jsString
                (optField
                  (s.modules.find? fun m =>
                    strictEq (m.get "projectId") projectId && strictEq (m.get "id") id)
                  "name")
              ++ "\" updated successfully") "info"
            :: s.notifications) := by
  refine ⟨?_, ?_, ?_, ?_⟩
  · intro r h
    unfold updateTask
    rw [h]
    by_cases hs : (updates.get "status").truthy = true <;>
      simp [hs, addNotification, Store.withTasks]
  · intro r h
    unfold updateBug
    rw [h]
    by_cases hs : (updates.get "status").truthy = true <;>
      simp [hs, addNotification, Store.withBugs]
  · intro r h
    unfold updateProject
    rw [h]
    simp [addNotification, Store.withProjects]
  · intro r h
    unfold updateModule
    rw [h]
    simp [addNotification, Store.withModules]

/-- C18 (amended) at a status change of task "t1": one notification is put in
front of the log. -/
theorem update_notifications_witness :
    Api.updateTask Examples.host (.str "t1") (.ok Examples.updateResponse)
      = .ok [("id", .str "t1"), ("projectId", .undefined), ("moduleId", .undefined),
             ("title", .undefined), ("description", .str ""), ("assignedTo", .undefined),
             ("status", .str "Pending"), ("priority", .str "Medium"), ("startDate", .str ""),
             ("endDate", .str ""), ("createdAt", .undefined), ("updatedAt", .undefined),
             ("assignedToUser", .undefined)]
    ∧ (updateTask Examples.host Examples.clock (.str "t1") [("status", .str "Completed")]
        (.ok Examples.updateResponse) Examples.store).store.notifications
      = [newNotification Examples.clock "Task \"Fix login\" status updated to Completed" "info",
         Examples.oldNotification] :=
  ⟨by decide,
   (update_notifications Examples.host Examples.clock (.str "t1") .null
     [("status", .str "Completed")] (.ok Examples.updateResponse) Examples.store).1 _ rfl⟩


/-- C19 (as stated, refuted): `deleteModule` requests no listing and filters the
local collection.  On a store with numeric ids, deleting module 1 of project 3
keeps module 2 as it is held locally; and on a store whose ids are not numeric
(`Number` gives NaN) nothing is removed at all, although the backend deleted the
module. -/
theorem deleteModule_filters_locally :
    ((deleteModule Examples.clock Examples.numberEq (.num 3) (.num 1) (.ok .null)
        (Examples.numericStore.withModules Examples.numericModules)).store.modules.map
        fun m => m.get "name")
      = [.str "Billing"]
    ∧ (deleteModule Examples.clock Examples.numberEq (.str "p1") (.str "m1") (.ok .null)
        Examples.store).store.modules
      = [Examples.module]
    ∧ ((deleteModule Examples.clock Examples.numberEq (.str "p1") (.str "m1") (.ok .null)
        Examples.store).store.notifications.map fun n => n.get "message")
      = [.str "Module deleted successfully", .str "Task deleted successfully"] := by
  decide

/-- C19 (amended): for projects, tasks and bugs, a delete command whose DELETE
and the listing that follows it both succeed replaces the whole collection by
the freshly fetched, normalised list and puts an 'info' notification in front of
the log; when the DELETE fails the collection is unchanged and an 'error'
notification is put in front of the log.  For modules the command fetches
nothing: on success it filters the local collection, the result being a
sub-list of it, and notifies with 'info'; on failure the collection is
unchanged, an 'error' notification is put in front of the log and the failure
is re-thrown. -/
theorem delete_commands (host : Host) (clock : Clock) (numberEq : JSValue → JSValue → Bool)
    (projectId moduleId reply : JSValue) (backend listing : Except JSError JSValue)
    (e : JSError) (s : Store) :
    (∀ updated, deleteThenFetch (Api.getProjects host) backend listing = .ok updated →
      deleteProject host clock backend listing s
        = ⟨⟨updated, s.modules, s.tasks, s.bugs,
            newNotification clock "Project deleted successfully" "info" :: s.notifications,
            s.isLoaded⟩, .ok .undefined⟩)
    ∧ (∀ updated, deleteThenFetch (Api.getTasks host) backend listing = .ok updated →
      deleteTask host clock backend listing s
        = ⟨⟨s.projects, s.modules, updated, s.bugs,
            newNotification clock "Task deleted successfully" "info" :: s.notifications,
            s.isLoaded⟩, .ok .undefined⟩)
    ∧ (∀ updated, deleteThenFetch (Api.getBugs host) backend listing = .ok updated →
      deleteBug host clock backend listing s
        = ⟨⟨s.projects, s.modules, s.tasks, updated,
            newNotification clock "Bug report deleted successfully" "info" :: s.notifications,
            s.isLoaded⟩, .ok .undefined⟩)
    ∧ (∀ (fetch : JSValue → Except JSError (List Fields)) (data : JSValue),
        deleteThenFetch fetch (.ok reply) (.ok data) = fetch data)
    ∧ deleteProject host clock (.error e) listing s
        = ⟨⟨s.projects, s.modules, s.tasks, s.bugs,
            newNotification clock "Failed to delete project" "error" :: s.notifications,
            s.isLoaded⟩, .ok .undefined⟩
    ∧ deleteTask host clock (.error e) listing s
        = ⟨⟨s.projects, s.modules, s.tasks, s.bugs,
            newNotification clock "Failed to delete task" "error" :: s.notifications,
            s.isLoaded⟩, .ok .undefined⟩
    ∧ deleteBug host clock (.error e) listing s
        = ⟨⟨s.projects, s.modules, s.tasks, s.bugs,
            newNotification clock "Failed to delete bug" "error" :: s.notifications,
            s.isLoaded⟩, .ok .undefined⟩
    ∧ deleteModule clock numberEq projectId moduleId (.ok reply) s
        = ⟨⟨s.projects,
            s.modules.filter (fun m =>
              !(numberEq (m.get "projectId") projectId && numberEq (m.get "id") moduleId)),
            s.tasks, s.bugs,
            newNotification clock "Module deleted successfully" "info" :: s.notifications,
            s.isLoaded⟩, .ok .undefined⟩
    ∧ List.Sublist
        (deleteModule clock numberEq projectId moduleId (.ok reply) s).store.modules s.modules
    ∧ deleteModule clock numberEq projectId moduleId (.error e) s
        = ⟨⟨s.projects, s.modules, s.tasks, s.bugs,
            newNotification clock "Failed to delete module" "error" :: s.notifications,
            s.isLoaded⟩, .error e⟩ := by
  refine ⟨?_, ?_, ?_, ?_, rfl, rfl, rfl, rfl, ?_, rfl⟩
  · intro updated h; simp [deleteProject, h, addNotification, Store.withProjects]
  · intro updated h; simp [deleteTask, h, addNotification, Store.withTasks]
  · intro updated h; simp [deleteBug, h, addNotification, Store.withBugs]
  · intro fetch data; rfl
  · exact List.filter_sublist _

/-- C19 (amended) at a store with the tasks `t1` and `t2`: after the deletion
of `t2` the backend lists `t1` and a task `t6` that another client created, and
the collection becomes the normalised listing, `t6` with its dates cut to the
day, not the local collection without `t2`.  Likewise the bugs become the
normalised bug listing and the projects the normalised project listing. -/
theorem delete_commands_witness :
    deleteThenFetch (Api.getTasks Examples.isoHost) (.ok Examples.updateResponse)
        (.ok Examples.taskListing) = .ok [Examples.task, Examples.datedTask]
    ∧ deleteTask Examples.isoHost Examples.clock (.ok Examples.updateResponse)
        (.ok Examples.taskListing) Examples.twoTaskStore
      = ⟨⟨[Examples.project], [Examples.module], [Examples.task, Examples.datedTask],
          [Examples.bug],
          [newNotification Examples.clock "Task deleted successfully" "info",
           Examples.oldNotification], true⟩, .ok .undefined⟩
    ∧ deleteBug Examples.isoHost Examples.clock (.ok Examples.updateResponse)
        (.ok Examples.bugListing) Examples.twoTaskStore
      = ⟨⟨[Examples.project], [Examples.module], [Examples.task, Examples.numericTask],
          [Examples.populatedBug],
          [newNotification Examples.clock "Bug report deleted successfully" "info",
           Examples.oldNotification], true⟩, .ok .undefined⟩
    ∧ deleteProject Examples.isoHost Examples.clock (.ok Examples.updateResponse)
        (.ok (.obj [("projects", .arr [Examples.backendProject])]))
        (Examples.twoTaskStore.withProjects [])
      = ⟨⟨[Examples.project], [Examples.module], [Examples.task, Examples.numericTask],
          [Examples.bug],
          [newNotification Examples.clock "Project deleted successfully" "info",
           Examples.oldNotification], true⟩, .ok .undefined⟩
    ∧ deleteTask Examples.isoHost Examples.clock Examples.rejection
        (.ok Examples.taskListing) Examples.twoTaskStore
      = ⟨⟨[Examples.project], [Examples.module], [Examples.task, Examples.numericTask],
          [Examples.bug],
          [newNotification Examples.clock "Failed to delete task" "error",
           Examples.oldNotification], true⟩, .ok .undefined⟩ :=
  ⟨by decide,
   (delete_commands Examples.isoHost Examples.clock Examples.numberEq .null .null .null
     (.ok Examples.updateResponse) (.ok Examples.taskListing) .requestError
     Examples.twoTaskStore).2.1 [Examples.task, Examples.datedTask] (by decide),
   (delete_commands Examples.isoHost Examples.clock Examples.numberEq .null .null .null
     (.ok Examples.updateResponse) (.ok Examples.bugListing) .requestError
     Examples.twoTaskStore).2.2.1 [Examples.populatedBug] (by decide),
   (delete_commands Examples.isoHost Examples.clock Examples.numberEq .null .null .null
     (.ok Examples.updateResponse)
     (.ok (.obj [("projects", .arr [Examples.backendProject])])) .requestError
     (Examples.twoTaskStore.withProjects [])).1 [Examples.project] (by decide),
   (delete_commands Examples.isoHost Examples.clock Examples.numberEq .null .null .null
     (.ok Examples.updateResponse) (.ok Examples.taskListing) .requestError
     Examples.twoTaskStore).2.2.2.2.2.1⟩

theorem loadModules_eq (modulesOf : JSValue → Except JSError JSValue) (projects : List Fields) :
    loadModules modulesOf projects
      = (projects.map fun p => (fetchModules modulesOf p).toOption.getD []).flatten := by
  induction projects with
  | nil => rfl
  | cons p rest ih =>
    unfold loadModules
    cases h : fetchModules modulesOf p <;> simp [h, ih, Except.toOption]

/-- C20: with a user present, if the project, task or bug listing fails, the
projects, tasks, bugs and modules all become empty and the notification log is
left as it is.  If the three listings succeed (and the stored log is readable),
the modules are the module lists of the projects, concatenated in project
order, a project whose module listing fails contributing nothing. -/
theorem loadData_degrades (host : Host) (user : JSValue)
    (projectsBody tasksBody bugsBody : Except JSError JSValue)
    (modulesOf : JSValue → Except JSError JSValue)
    (stored : Except JSError (List Fields)) (s : Store)
    (huser : user.truthy = true) :
    (((∃ e, fetchList (Api.getProjects host) projectsBody = .error e)
        ∨ (∃ e, fetchList (Api.getTasks host) tasksBody = .error e)
        ∨ (∃ e, fetchList (Api.getBugs host) bugsBody = .error e)) →
      loadData host user projectsBody tasksBody bugsBody modulesOf stored s
        = ⟨[], [], [], [], s.notifications, true⟩)
    ∧ (∀ loadedProjects loadedTasks loadedBugs storedNotifications,
        fetchList (Api.getProjects host) projectsBody = .ok loadedProjects →
        fetchList (Api.getTasks host) tasksBody = .ok loadedTasks →
        fetchList (Api.getBugs host) bugsBody = .ok loadedBugs →
        stored = .ok storedNotifications →
        loadData host user projectsBody tasksBody bugsBody modulesOf stored s
          = ⟨loadedProjects,
             (loadedProjects.map fun p => (fetchModules modulesOf p).toOption.getD []).flatten,
             loadedTasks, loadedBugs, storedNotifications, true⟩) := by
  refine ⟨?_, ?_⟩
  · intro h
    unfold loadData
    simp only [huser, Bool.not_true, Bool.false_eq_true, if_false]
    rcases h with ⟨e, h⟩ | ⟨e, h⟩ | ⟨e, h⟩
    · rw [h]
    · rw [h]
      cases fetchList (Api.getProjects host) projectsBody <;> rfl
    · rw [h]
      cases fetchList (Api.getProjects host) projectsBody <;>
        cases fetchList (Api.getTasks host) tasksBody <;> rfl
  · intro ps ts bs ns hp ht hb hs
    unfold loadData
    simp only [huser, Bool.not_true, Bool.false_eq_true, if_false, hp, ht, hb, hs]
    rw [loadModules_eq]

/-- C20 at a session whose task listing fails, and at one where only the module
listing of project "p2" fails: the modules of "p1" and "p3" are loaded, in
that order. -/
theorem loadData_degrades_witness :
    loadData Examples.host Examples.admin (.ok Examples.projectListing) Examples.rejection
        (.ok (.arr [])) Examples.modulesOf (.ok []) Examples.store
      = ⟨[], [], [], [], [Examples.oldNotification], true⟩
    ∧ ((loadData Examples.host Examples.admin (.ok Examples.projectListing) (.ok (.arr []))
        (.ok (.arr [])) Examples.modulesOf (.ok []) Examples.store).modules.map
        fun m => (m.get "id", m.get "projectId"))
      = [(.str "m1", .str "p1"), (.str "m3", .str "p3")] :=
  ⟨(loadData_degrades Examples.host Examples.admin (.ok Examples.projectListing)
      Examples.rejection (.ok (.arr [])) Examples.modulesOf (.ok []) Examples.store
      (by decide)).1 (Or.inr (Or.inl ⟨_, rfl⟩)),
   by decide⟩

/-! ## The notification log -/

/-- C23: `addNotification(message, type)` leaves a log that is one new entry
followed by the previous log, entry for entry; the new entry carries the given
message, the given type, which is 'info' when the call passes none, and
`read = false`.  The rest of the store is untouched. -/
theorem addNotification_prepends (clock : Clock) (message : String) (type : Option String)
    (s : Store) :
    ∃ entry : Fields,
      (addNotification clock message (typeOrDefault type) s).notifications
          = entry :: s.notifications
        ∧ entry.get "message" = .str message
        ∧ entry.get "type" = .str (typeOrDefault type)
        ∧ typeOrDefault none = "info"
        ∧ (∀ t : String, typeOrDefault (some t) = t)
        ∧ entry.get "read" = .bool false
        ∧ (addNotification clock message (typeOrDefault type) s).projects = s.projects
        ∧ (addNotification clock message (typeOrDefault type) s).modules = s.modules
        ∧ (addNotification clock message (typeOrDefault type) s).tasks = s.tasks
        ∧ (addNotification clock message (typeOrDefault type) s).bugs = s.bugs :=
  ⟨newNotification clock message (typeOrDefault type), rfl, rfl, rfl, rfl, fun _ => rfl, rfl,
   rfl, rfl, rfl, rfl⟩

theorem addNotifications_log (calls : List (Clock × String × String)) (s : Store) :
    (addNotifications calls s).notifications
      = (calls.map fun call => newNotification call.1 call.2.1 call.2.2).reverse
          ++ s.notifications := by
  unfold addNotifications
  induction calls generalizing s with
  | nil => rfl
  | cons call rest ih =>
    rw [List.foldl_cons, ih]
    simp [addNotification]

theorem addNotifications_ids (calls : List (Clock × String × String)) (s : Store)
    (hs : s.notifications = []) :
    ((addNotifications calls s).notifications.map fun n => n.get "id")
      = (calls.map fun call => call.1.now).reverse.map JSValue.num := by
  rw [addNotifications_log, hs, List.append_nil, List.map_reverse, List.map_reverse,
    List.map_map, List.map_map]
  rfl

/-- C24, counterexample: two notifications raised within the same millisecond
take the same reading of the clock, which is a non-decreasing run of readings,
and get the same id. -/
theorem notification_ids_repeat_within_a_millisecond :
    (Examples.sameMillisecondCalls.map fun call => call.1.now).Pairwise (· ≤ ·)
      ∧ Examples.emptyStore.notifications = []
      ∧ ((addNotifications Examples.sameMillisecondCalls Examples.emptyStore).notifications.map
            fun n => n.get "id")
          = [.num 1700000000000, .num 1700000000000]
      ∧ ¬ ((addNotifications Examples.sameMillisecondCalls
              Examples.emptyStore).notifications.map fun n => n.get "id").Nodup := by
  decide

/-- C24, amended: starting from the empty log, after any run of `addNotification`
calls whose clock readings strictly increase, the ids of the log are the
readings from the latest to the earliest: they strictly decrease from the first
entry to the last and are pairwise distinct. -/
theorem notification_ids_distinct (calls : List (Clock × String × String)) (s : Store)
    (hs : s.notifications = [])
    (hclock : (calls.map fun call => call.1.now).Pairwise (· < ·)) :
    ∃ readings : List Int,
      ((addNotifications calls s).notifications.map fun n => n.get "id")
          = readings.map JSValue.num
        ∧ readings.Pairwise (· > ·)
        ∧ ((addNotifications calls s).notifications.map fun n => n.get "id").Nodup := by
  have hpair : ((calls.map fun call => call.1.now).reverse).Pairwise (· > ·) := by
    rw [List.pairwise_reverse]
    exact hclock
  refine ⟨(calls.map fun call => call.1.now).reverse, addNotifications_ids calls s hs,
    hpair, ?_⟩
  rw [addNotifications_ids calls s hs]
  refine List.Nodup.map (fun a b h => by injection h) ?_
  exact hpair.imp (fun h => ne_of_gt h)

theorem notification_ids_distinct_witness :
    ∃ readings : List Int,
      ((addNotifications Examples.laterCalls Examples.emptyStore).notifications.map
          fun n => n.get "id") = readings.map JSValue.num
        ∧ readings.Pairwise (· > ·)
        ∧ ((addNotifications Examples.laterCalls Examples.emptyStore).notifications.map
            fun n => n.get "id").Nodup :=
  notification_ids_distinct Examples.laterCalls Examples.emptyStore rfl (by decide)

theorem spread_read_of_hasKey (n : Fields) (v : JSValue) (h : hasKey "read" n = true) :
    spread n [("read", v)]
      = n.map fun kv => if kv.1 = "read" then (kv.1, v) else kv := by
  have hfilter : ([("read", v)] : Fields).filter (fun kv => !hasKey kv.1 n) = [] := by
    simp [h]
  unfold spread
  rw [hfilter, List.append_nil]
  apply List.map_congr_left
  intro kv _
  obtain ⟨k, x⟩ := kv
  by_cases hk : k = "read"
  · subst hk
    simp [hasKey, lookup_cons]
  · have hk' : ¬ "read" = k := fun e => hk e.symm
    simp [hasKey, hk, hk']

theorem spread_read_of_not_hasKey (n : Fields) (v : JSValue) (h : hasKey "read" n = false) :
    spread n [("read", v)] = n ++ [("read", v)] := by
  have hfilter : ([("read", v)] : Fields).filter (fun kv => !hasKey kv.1 n) = [("read", v)] := by
    simp [h]
  have hmap : ∀ m : Fields, hasKey "read" m = false →
      (m.map fun kv => if hasKey kv.1 [("read", v)]
          then (kv.1, JSValue.lookup kv.1 [("read", v)]) else kv) = m := by
    intro m
    induction m with
    | nil => intro _; rfl
    | cons kv rest ih =>
      obtain ⟨k, x⟩ := kv
      intro hm
      rw [hasKey_cons] at hm
      have hk : ¬ k = "read" := by
        intro e
        simp [e] at hm
      have hk' : ¬ "read" = k := fun e => hk e.symm
      have hrest : hasKey "read" rest = false := by
        cases hr : hasKey "read" rest
        · rfl
        · simp [hr] at hm
      rw [List.map_cons, ih hrest]
      simp [hasKey, hk']
  unfold spread
  rw [hfilter, hmap n h]

theorem hasKey_append (k : String) (a b : Fields) :
    hasKey k (a ++ b) = (hasKey k a || hasKey k b) := by
  simp [hasKey]

theorem spread_read_idem (n : Fields) (v : JSValue) :
    spread (spread n [("read", v)]) [("read", v)] = spread n [("read", v)] := by
  cases h : hasKey "read" n
  · have h2 : hasKey "read" (n ++ [("read", v)]) = true := by
      rw [hasKey_append]
      simp [hasKey]
    rw [spread_read_of_not_hasKey n v h, spread_read_of_hasKey _ v h2, List.map_append]
    have hn : (n.map fun kv => if kv.1 = "read" then (kv.1, v) else kv) = n := by
      have hall : ∀ m : Fields, hasKey "read" m = false →
          (m.map fun kv => if kv.1 = "read" then (kv.1, v) else kv) = m := by
        intro m
        induction m with
        | nil => intro _; rfl
        | cons kv rest ih =>
          obtain ⟨k, x⟩ := kv
          intro hm
          rw [hasKey_cons] at hm
          have hk : ¬ k = "read" := by
            intro e
            simp [e] at hm
          have hrest : hasKey "read" rest = false := by
            cases hr : hasKey "read" rest
            · rfl
            · simp [hr] at hm
          rw [List.map_cons, ih hrest]
          simp [hk]
      exact hall n h
    rw [hn]
    rfl
  · have h2 : hasKey "read" (spread n [("read", v)]) = true := by
      unfold spread
      rw [hasKey_append, hasKey_map_spread, h]
      rfl
    rw [spread_read_of_hasKey _ v h2, spread_read_of_hasKey n v h, List.map_map]
    apply List.map_congr_left
    intro kv _
    obtain ⟨k, x⟩ := kv
    by_cases hk : k = "read" <;> simp [hk]

/-- C25: `markNotificationRead(id)` only flips read flags.  The log keeps its
length and its order; at every position, an entry whose id is strictly equal to
`id` has `read = true` afterwards and an entry with another id is unchanged;
every property other than `read` (id, message, type, timestamp among them) is
unchanged in every entry; the rest of the store is untouched; and a second
call with the same id changes nothing more. -/
theorem markNotificationRead_flips_read (id : JSValue) (s : Store) :
    (markNotificationRead id s).notifications.length = s.notifications.length
      ∧ (∀ (i : Nat) (n : Fields), s.notifications[i]? = some n →
          ∃ n' : Fields, (markNotificationRead id s).notifications[i]? = some n'
            ∧ (strictEq (n.get "id") id = true → n'.get "read" = .bool true)
            ∧ (strictEq (n.get "id") id = false → n' = n)
            ∧ (∀ k : String, k ≠ "read" → n'.get k = n.get k))
      ∧ (markNotificationRead id s).projects = s.projects
      ∧ (markNotificationRead id s).modules = s.modules
      ∧ (markNotificationRead id s).tasks = s.tasks
      ∧ (markNotificationRead id s).bugs = s.bugs
      ∧ markNotificationRead id (markNotificationRead id s) = markNotificationRead id s := by
  refine ⟨by simp [markNotificationRead], ?_, rfl, rfl, rfl, rfl, ?_⟩
  · intro i n hn
    refine ⟨if strictEq (n.get "id") id then spread n [("read", .bool true)] else n,
      ?_, ?_, ?_, ?_⟩
    · simp [markNotificationRead, hn]
    · intro h
      rw [if_pos h, spread_get]
      rfl
    · intro h
      simp [h]
    · intro k hk
      by_cases h : strictEq (n.get "id") id = true
      · rw [if_pos h, spread_get]
        have hkey : hasKey k [("read", JSValue.bool true)] = false := by
          have hk' : ¬ "read" = k := fun e => hk e.symm
          simp [hasKey, hk']
        rw [hkey]
        rfl
      · rw [if_neg h]
  · unfold markNotificationRead
    simp only [List.map_map]
    congr 1
    apply List.map_congr_left
    intro n _
    simp only [Function.comp]
    by_cases h : strictEq (n.get "id") id = true
    · have h2 : strictEq ((spread n [("read", JSValue.bool true)]).get "id") id = true := by
        rw [spread_get]
        exact h
      rw [if_pos h, if_pos h2, spread_read_idem]
    · rw [if_neg h, if_neg h]

theorem markNotificationRead_flips_read_witness :
    (markNotificationRead (.num 1700000000000) Examples.notifiedStore).notifications
        = [[("id", .num 1700000000000), ("message", .str "New task assigned: Fix login"),
            ("type", .str "success"), ("timestamp", .str "2023-11-14T22:13:20.000Z"),
            ("read", .bool true)],
           Examples.oldNotification]
      ∧ ∃ n' : Fields,
          (markNotificationRead (.num 1700000000000) Examples.notifiedStore).notifications[0]?
              = some n'
            ∧ (strictEq (Examples.unreadNotification.get "id") (.num 1700000000000) = true →
                n'.get "read" = .bool true)
            ∧ (strictEq (Examples.unreadNotification.get "id") (.num 1700000000000) = false →
                n' = Examples.unreadNotification)
            ∧ (∀ k : String, k ≠ "read" → n'.get k = Examples.unreadNotification.get k) :=
  ⟨by decide,
   (markNotificationRead_flips_read (.num 1700000000000) Examples.notifiedStore).2.1 0
     Examples.unreadNotification rfl⟩

/-! ## The session -/

theorem loginNormalize_eq (x : JSValue) :
    AuthContext.loginNormalize x
      = if x.isNullish then .error .typeError
        else if (x.get "user").truthy && (x.get "token").truthy then
          .ok (.obj (spread (spreadValue (x.get "user")) [("token", x.get "token")]))
        else if (x.get "data").truthy && ((x.get "data").get "user").truthy then
          .ok (.obj (spread (spreadValue ((x.get "data").get "user"))
                       [("token", (x.get "data").get "token")]))
        else .ok x := rfl

theorem loginNormalize_error_iff (x : JSValue) :
    (∃ e, AuthContext.loginNormalize x = .error e) ↔ x.isNullish = true := by
  rw [loginNormalize_eq]
  constructor
  · rintro ⟨e, he⟩
    by_cases h : x.isNullish = true
    · exact h
    · rw [if_neg h] at he
      split at he
      · cases he
      · split at he <;> cases he
  · intro h
    exact ⟨.typeError, by rw [if_pos h]⟩

theorem login_outcomes (stringify : JSValue → String) (accepts : String → Bool)
    (backend : Except JSError JSValue) (s : AuthContext.Session) :
    (∃ b : Bool, (AuthContext.login stringify accepts backend s).result = .ok b)
      ∧ (∀ userData normalizedUser, backend = .ok userData →
          AuthContext.loginNormalize userData = .ok normalizedUser →
          accepts (stringify normalizedUser) = true →
          AuthContext.login stringify accepts backend s
            = ⟨⟨normalizedUser, some (stringify normalizedUser)⟩, .ok true⟩)
      ∧ (∀ e, backend = .error e →
          AuthContext.login stringify accepts backend s = ⟨s, .ok false⟩)
      ∧ (∀ userData e, backend = .ok userData →
          AuthContext.loginNormalize userData = .error e →
          AuthContext.login stringify accepts backend s = ⟨s, .ok false⟩)
      ∧ (∀ userData, (∃ e, AuthContext.loginNormalize userData = .error e)
          ↔ userData.isNullish = true)
      ∧ (∀ userData normalizedUser, backend = .ok userData →
          AuthContext.loginNormalize userData = .ok normalizedUser →
          accepts (stringify normalizedUser) = false →
          AuthContext.login stringify accepts backend s
            = ⟨⟨normalizedUser, s.storedUser⟩, .ok false⟩) := by
  refine ⟨?_, ?_, ?_, ?_, loginNormalize_error_iff, ?_⟩
  · cases backend with
    | error e => exact ⟨false, rfl⟩
    | ok userData =>
      cases h : AuthContext.loginNormalize userData with
      | error e => exact ⟨false, by simp [AuthContext.login, h]⟩
      | ok n =>
        cases ha : accepts (stringify n)
        · exact ⟨false, by simp [AuthContext.login, h, ha]⟩
        · exact ⟨true, by simp [AuthContext.login, h, ha]⟩
  · intro userData n hb hn ha
    subst hb
    simp [AuthContext.login, hn, ha]
  · intro e hb
    subst hb
    rfl
  · intro userData e hb hn
    subst hb
    simp [AuthContext.login, hn]
  · intro userData n hb hn ha
    subst hb
    simp [AuthContext.login, hn, ha]

theorem login_outcomes_witness :
    AuthContext.loginNormalize Examples.loginResponse = .ok Examples.sessionUser
      ∧ AuthContext.login Examples.stringify Examples.storage (.ok Examples.loginResponse)
            Examples.signedOut
          = ⟨⟨Examples.sessionUser, some (Examples.stringify Examples.sessionUser)⟩,
             .ok true⟩
      ∧ AuthContext.login Examples.stringify Examples.storage (.ok .null)
            ⟨Examples.sessionUser, some (Examples.stringify Examples.sessionUser)⟩
          = ⟨⟨Examples.sessionUser, some (Examples.stringify Examples.sessionUser)⟩,
             .ok false⟩ :=
  ⟨by decide,
   (login_outcomes Examples.stringify Examples.storage (.ok Examples.loginResponse)
      Examples.signedOut).2.1 Examples.loginResponse Examples.sessionUser rfl (by decide) rfl,
   (login_outcomes Examples.stringify Examples.storage (.ok .null)
      ⟨Examples.sessionUser, some (Examples.stringify Examples.sessionUser)⟩).2.2.2.1
     .null .typeError rfl (by decide)⟩

/-- C21: the backend accepts the credentials and the response normalises, but
the session storage refuses the write (`setItem` throws).  `login` has already
called `setUser`, so it resolves with `false` while the session holds the
signed-in user and nothing is stored: the page reports 'Invalid email or
password' for a session that is signed in.  With a storage that accepts the
write the same call resolves with `true`; with a rejected request it resolves
with `false` and leaves the session as it was. -/
theorem login_false_with_session_changed :
    AuthContext.loginNormalize Examples.loginResponse = .ok Examples.sessionUser
      ∧ AuthContext.login Examples.stringify Examples.fullStorage (.ok Examples.loginResponse)
            Examples.signedOut
          = ⟨⟨Examples.sessionUser, none⟩, .ok false⟩
      ∧ (AuthContext.login Examples.stringify Examples.fullStorage (.ok Examples.loginResponse)
            Examples.signedOut).session ≠ Examples.signedOut
      ∧ AuthContext.login Examples.stringify Examples.storage (.ok Examples.loginResponse)
            Examples.signedOut
          = ⟨⟨Examples.sessionUser, some (Examples.stringify Examples.sessionUser)⟩,
             .ok true⟩
      ∧ AuthContext.login Examples.stringify Examples.fullStorage Examples.rejection
            Examples.signedOut
          = ⟨Examples.signedOut, .ok false⟩ := by
  decide

/-- C22: the normalisation that the page load applies to the stored value is the
function that `login` applies to the response, on every parsed value, `null`
included (both throw).  A value with a truthy `user` and a truthy `token`
becomes the user record with the token put in; otherwise a value whose `data`
holds a truthy `user` becomes that record with the token of `data` put in; any
other value is kept as it is.  For a user record that is an object, the result
has the token under `token` and every other property of the record. -/
theorem restoreNormalize_eq_loginNormalize (x : JSValue) :
    AuthContext.restoreNormalize x = AuthContext.loginNormalize x
      ∧ (∀ record : Fields, x.get "user" = .obj record → (x.get "token").truthy = true →
          ∃ session : Fields, AuthContext.restoreNormalize x = .ok (.obj session)
            ∧ AuthContext.loginNormalize x = .ok (.obj session)
            ∧ session.get "token" = x.get "token"
            ∧ ∀ k : String, k ≠ "token" → session.get k = record.get k)
      ∧ (∀ record : Fields,
          ((x.get "user").truthy && (x.get "token").truthy) = false →
          (x.get "data").get "user" = .obj record →
          ∃ session : Fields, AuthContext.restoreNormalize x = .ok (.obj session)
            ∧ AuthContext.loginNormalize x = .ok (.obj session)
            ∧ session.get "token" = (x.get "data").get "token"
            ∧ ∀ k : String, k ≠ "token" → session.get k = record.get k)
      ∧ (x.isNullish = false →
          ((x.get "user").truthy && (x.get "token").truthy) = false →
          ((x.get "data").truthy && ((x.get "data").get "user").truthy) = false →
          AuthContext.restoreNormalize x = .ok x ∧ AuthContext.loginNormalize x = .ok x) := by
  have heq : AuthContext.restoreNormalize x = AuthContext.loginNormalize x := rfl
  have hspread : ∀ (record : Fields) (t : JSValue),
      (spread record [("token", t)]).get "token" = t
        ∧ ∀ k : String, k ≠ "token" →
            (spread record [("token", t)]).get k = record.get k := by
    intro record t
    refine ⟨by rw [spread_get]; rfl, ?_⟩
    intro k hk
    have hk' : ¬ "token" = k := fun e => hk e.symm
    rw [spread_get]
    simp [hasKey, hk']
  refine ⟨heq, ?_, ?_, ?_⟩
  · intro record huser htoken
    have hx : x.isNullish = false := by
      cases x <;> simp_all [JSValue.get, JSValue.isNullish]
    refine ⟨spread record [("token", x.get "token")], ?_, ?_, hspread record _⟩
    · rw [heq, loginNormalize_eq, hx, huser, htoken]
      rfl
    · rw [loginNormalize_eq, hx, huser, htoken]
      rfl
  · intro record hnot hdata
    have hx : x.isNullish = false := by
      cases x <;> simp_all [JSValue.get, JSValue.isNullish]
    have hd : (x.get "data").truthy = true := by
      cases hv : x.get "data" <;> simp_all [JSValue.get, JSValue.truthy]
    refine ⟨spread record [("token", (x.get "data").get "token")], ?_, ?_, hspread record _⟩
    · rw [heq, loginNormalize_eq, hx, hnot, hdata, hd]
      rfl
    · rw [loginNormalize_eq, hx, hnot, hdata, hd]
      rfl
  · intro hx hnot hnot2
    refine ⟨?_, ?_⟩
    · rw [heq, loginNormalize_eq, hx, hnot, hnot2]
      rfl
    · rw [loginNormalize_eq, hx, hnot, hnot2]
      rfl

theorem restoreNormalize_eq_loginNormalize_witness :
    AuthContext.restoreNormalize Examples.wrappedLoginResponse = .ok Examples.sessionUser
      ∧ ∃ session : Fields,
          AuthContext.restoreNormalize Examples.loginResponse = .ok (.obj session)
            ∧ AuthContext.loginNormalize Examples.loginResponse = .ok (.obj session)
            ∧ session.get "token" = Examples.loginResponse.get "token"
            ∧ ∀ k : String, k ≠ "token" →
                session.get k
                  = Fields.get [("id", .str "u1"), ("name", .str "Ann"),
                                ("role", .str "Developer")] k :=
  ⟨by decide,
   (restoreNormalize_eq_loginNormalize Examples.loginResponse).2.1
     [("id", .str "u1"), ("name", .str "Ann"), ("role", .str "Developer")] rfl rfl⟩

/-- C28: a login response whose user record has a field `user` of its own
normalises to a session with a truthy `user` and a truthy `token`, which is what
`login` stores; on the page load the normalisation takes that session for a
login response and turns it into the inner record: signed in as Ann, the
session is Bob after a reload. -/
theorem restore_unwraps_nested_user :
    AuthContext.loginNormalize Examples.nestedLoginResponse
        = .ok (.obj [("id", .str "u1"), ("name", .str "Ann"),
                     ("user", .obj [("id", .str "u9"), ("name", .str "Bob")]),
                     ("token", .str "jwt-1")])
      ∧ AuthContext.restoreNormalize
          (.obj [("id", .str "u1"), ("name", .str "Ann"),
                 ("user", .obj [("id", .str "u9"), ("name", .str "Bob")]),
                 ("token", .str "jwt-1")])
        = .ok (.obj [("id", .str "u9"), ("name", .str "Bob"), ("token", .str "jwt-1")])
      ∧ AuthContext.restoreNormalize
          (.obj [("id", .str "u1"), ("name", .str "Ann"),
                 ("user", .obj [("id", .str "u9"), ("name", .str "Bob")]),
                 ("token", .str "jwt-1")])
        ≠ AuthContext.loginNormalize Examples.nestedLoginResponse := by
  decide

/-- Where the reload is stable: a session that `login` produced is a fixed point
of the normalisation of the page load whenever it does not itself have a truthy
`user` together with a truthy `token`, nor a `data` that holds a truthy `user`. -/
theorem restore_after_login_stable (x session : JSValue)
    (hlogin : AuthContext.loginNormalize x = .ok session)
    (huser : ((session.get "user").truthy && (session.get "token").truthy) = false)
    (hdata : ((session.get "data").truthy && ((session.get "data").get "user").truthy) = false) :
    AuthContext.restoreNormalize session = AuthContext.loginNormalize x := by
  have hs : session.isNullish = false := by
    rw [loginNormalize_eq] at hlogin
    by_cases hx : x.isNullish = true
    · rw [if_pos hx] at hlogin
      cases hlogin
    · rw [if_neg hx] at hlogin
      split at hlogin
      · cases hlogin; rfl
      · split at hlogin
        · cases hlogin; rfl
        · cases hlogin
          simpa using hx
  have heq : AuthContext.restoreNormalize session = AuthContext.loginNormalize session := rfl
  rw [hlogin, heq, loginNormalize_eq, hs, huser, hdata]
  rfl

theorem restore_after_login_stable_witness :
    AuthContext.loginNormalize Examples.wrappedLoginResponse = .ok Examples.sessionUser
      ∧ AuthContext.restoreNormalize Examples.sessionUser
          = AuthContext.loginNormalize Examples.wrappedLoginResponse :=
  ⟨by decide,
   restore_after_login_stable Examples.wrappedLoginResponse Examples.sessionUser (by decide)
     (by decide) (by decide)⟩

/-! ## Bugs of a project -/

theorem bugOfProject_iff (tasksOfProject : List Fields) (b : Fields) :
    ProjectDetailsController.bugOfProject tasksOfProject b = true ↔
      (b.get "taskId").truthy = true
        ∧ ProjectDetailsController.trim (jsString (b.get "taskId")) ≠ ""
        ∧ ∃ t ∈ tasksOfProject, (t.get "id").truthy = true
            ∧ ProjectDetailsController.trim (jsString (t.get "id"))
                = ProjectDetailsController.trim (jsString (b.get "taskId")) := by
  unfold ProjectDetailsController.bugOfProject
  by_cases hb : (b.get "taskId").truthy = true
  · by_cases he : ProjectDetailsController.trim (jsString (b.get "taskId")) = ""
    · simp [hb, he]
    · simp only [hb, Bool.not_true, Bool.false_eq_true, if_false, beq_iff_eq, he,
        List.find?_isSome, true_and, ne_eq, not_false_eq_true]
      constructor
      · rintro ⟨t, ht, heq⟩
        refine ⟨t, ht, ?_⟩
        by_cases hid : (t.get "id").truthy = true
        · refine ⟨hid, ?_⟩
          simpa [JSValue.or, hid] using heq
        · exfalso
          have hid' : (t.get "id").truthy = false := by simpa using hid
          have hempty : ProjectDetailsController.trim (jsString ((t.get "id").or (.str "")))
              = "" := by
            simp only [JSValue.or, hid', Bool.false_eq_true, if_false]
            decide
          rw [hempty] at heq
          exact he heq.symm
      · rintro ⟨t, ht, hid, heq⟩
        refine ⟨t, ht, ?_⟩
        simpa [JSValue.or, hid] using heq
  · have hb' : (b.get "taskId").truthy = false := by simpa using hb
    simp [hb']

/-- C26: a task of the project has the id 0 and a bug has the task reference
"0".  The reference is not empty and equals the string form of the id, and the
dashboard's lookup `String(t.id) === String(b.taskId)` finds the task; yet the
bug is not among the bugs of the project page, because that page reads the id as
`t.id || ''`, which turns the id 0 into the empty string.  With the id "0" as a
string the same bug is listed. -/
theorem projectBugs_misses_task_zero :
    Examples.zeroTaskBug.get "taskId" ≠ .str ""
      ∧ Examples.zeroTask ∈ [Examples.zeroTask]
      ∧ jsString (Examples.zeroTask.get "projectId")
          = jsString (Examples.loadedProject.get "id")
      ∧ ProjectDetailsController.trim (jsString (Examples.zeroTask.get "id"))
          = ProjectDetailsController.trim (jsString (Examples.zeroTaskBug.get "taskId"))
      ∧ ProjectDetailsController.projectTasks Examples.loadedProject [Examples.zeroTask]
          = [Examples.zeroTask]
      ∧ ProjectDetailsController.projectBugs Examples.loadedProject [Examples.zeroTask]
          [Examples.zeroTaskBug] = []
      ∧ DashboardController.taskOfBug [Examples.zeroTask] Examples.zeroTaskBug
          = some Examples.zeroTask
      ∧ ProjectDetailsController.projectBugs Examples.loadedProject
          [[("id", .str "0"), ("projectId", .str "p1"), ("title", .str "Fix login")]]
          [Examples.zeroTaskBug] = [Examples.zeroTaskBug] := by
  decide

/-- What `projectBugs` computes: on a loaded project page it contains a bug
exactly when the bug is in the store, its `taskId` is truthy with a non-empty
trimmed string form, and some task whose `projectId` string-equals the id of the
project has a truthy id whose trimmed string form equals the trimmed string form
of that `taskId`.  A bug whose `taskId` matches no task in this way is among the
bugs of no project, and without a loaded project the list is empty. -/
theorem projectBugs_iff (project : JSValue) (tasks bugs : List Fields) (b : Fields) :
    (project.truthy = true →
      (b ∈ ProjectDetailsController.projectBugs project tasks bugs ↔
        b ∈ bugs
          ∧ (b.get "taskId").truthy = true
          ∧ ProjectDetailsController.trim (jsString (b.get "taskId")) ≠ ""
          ∧ ∃ t ∈ tasks, jsString (t.get "projectId") = jsString (project.get "id")
              ∧ (t.get "id").truthy = true
              ∧ ProjectDetailsController.trim (jsString (t.get "id"))
                  = ProjectDetailsController.trim (jsString (b.get "taskId"))))
      ∧ ((∀ t ∈ tasks, (t.get "id").truthy = true →
            ProjectDetailsController.trim (jsString (t.get "id"))
              ≠ ProjectDetailsController.trim (jsString (b.get "taskId"))) →
          b ∉ ProjectDetailsController.projectBugs project tasks bugs)
      ∧ (project.truthy = false →
          ProjectDetailsController.projectBugs project tasks bugs = []) := by
  have hiff : project.truthy = true →
      (b ∈ ProjectDetailsController.projectBugs project tasks bugs ↔
        b ∈ bugs
          ∧ (b.get "taskId").truthy = true
          ∧ ProjectDetailsController.trim (jsString (b.get "taskId")) ≠ ""
          ∧ ∃ t ∈ tasks, jsString (t.get "projectId") = jsString (project.get "id")
              ∧ (t.get "id").truthy = true
              ∧ ProjectDetailsController.trim (jsString (t.get "id"))
                  = ProjectDetailsController.trim (jsString (b.get "taskId"))) := by
    intro hp
    unfold ProjectDetailsController.projectBugs
    rw [if_pos hp, List.mem_filter, bugOfProject_iff]
    unfold ProjectDetailsController.projectTasks
    rw [if_pos hp]
    constructor
    · rintro ⟨hb, ht, he, t, hmem, hid, heq⟩
      rw [List.mem_filter] at hmem
      exact ⟨hb, ht, he, t, hmem.1, by simpa using hmem.2, hid, heq⟩
    · rintro ⟨hb, ht, he, t, hmem, hproj, hid, heq⟩
      refine ⟨hb, ht, he, t, ?_, hid, heq⟩
      rw [List.mem_filter]
      exact ⟨hmem, by simpa using hproj⟩
  refine ⟨hiff, ?_, ?_⟩
  · intro hnone hmem
    by_cases hp : project.truthy = true
    · obtain ⟨_, _, _, t, ht, _, hid, heq⟩ := (hiff hp).1 hmem
      exact hnone t ht hid heq
    · unfold ProjectDetailsController.projectBugs at hmem
      rw [if_neg hp] at hmem
      cases hmem
  · intro hp
    unfold ProjectDetailsController.projectBugs
    simp [hp]

theorem projectBugs_iff_witness :
    ProjectDetailsController.projectBugs Examples.loadedProject [Examples.task]
        [Examples.bug, Examples.paddedBug, Examples.zeroTaskBug]
      = [Examples.bug, Examples.paddedBug]
      ∧ (Examples.paddedBug ∈ ProjectDetailsController.projectBugs Examples.loadedProject
            [Examples.task] [Examples.bug, Examples.paddedBug, Examples.zeroTaskBug] ↔
          Examples.paddedBug ∈ [Examples.bug, Examples.paddedBug, Examples.zeroTaskBug]
            ∧ (Examples.paddedBug.get "taskId").truthy = true
            ∧ ProjectDetailsController.trim (jsString (Examples.paddedBug.get "taskId")) ≠ ""
            ∧ ∃ t ∈ [Examples.task],
                jsString (t.get "projectId") = jsString (Examples.loadedProject.get "id")
                  ∧ (t.get "id").truthy = true
                  ∧ ProjectDetailsController.trim (jsString (t.get "id"))
                      = ProjectDetailsController.trim
                          (jsString (Examples.paddedBug.get "taskId"))) :=
  ⟨by decide,
   (projectBugs_iff Examples.loadedProject [Examples.task]
      [Examples.bug, Examples.paddedBug, Examples.zeroTaskBug] Examples.paddedBug).1
     (by decide)⟩


/-! ## Normalisation of the created and of the updated bug -/

theorem bug_response_normalisers_agree (host : Host) (id response : JSValue) (taskRef : String)
    (htask : response.get "taskId" = .str taskRef) :
    Api.normalizeCreatedBug host response
        = (Api.normalizeBug host response).map
            (fun r => spread r [("taskId", response.get "taskId")])
      ∧ (((response.get "_id").or (response.get "id")).truthy = true →
          Api.normalizeUpdatedBug host id response = Api.normalizeBug host response) := by
  have hx : response.isNullish = false := by
    cases response <;> simp_all [JSValue.get, JSValue.isNullish]
  have href : (Api.taskId response).or (.str "") = (response.get "taskId").or (.str "") := by
    unfold Api.taskId Api.referenceId
    rw [htask]
    by_cases ht : taskRef = "" <;>
      simp [JSValue.or, JSValue.optGet, JSValue.isNullish, JSValue.get, JSValue.truthy, ht]
  refine ⟨?_, ?_⟩
  · simp [Api.normalizeCreatedBug, Api.normalizeBug, hx, Except.map, spread, hasKey, lookup_cons]
  · intro hid
    have hor : ∀ v w : JSValue, v.truthy = true → v.or w = v := by
      intro v w h
      simp [JSValue.or, h]
    unfold Api.normalizeUpdatedBug Api.normalizeBug
    rw [href, hor _ _ hid]

/-- C27: the response normalisation of `createBug` and of `updateBug` is not the
per-record normalisation of `getBugs`, which the comments in both functions say
it is.  For a response whose `taskId` is the populated task, `getBugs` stores
the id of the task, `createBug` stores the nested object itself and `updateBug`
stores the text "[object Object]"; for a response without `taskId`, `getBugs` and
`updateBug` store the empty string and `createBug` stores `undefined`. -/
theorem bug_response_normalisers_differ :
    (Api.normalizeBug Examples.host Examples.populatedBackendBug).map (fun r => r.get "taskId")
        = .ok (.str "t1")
      ∧ (Api.createBug Examples.host (.obj []) (.ok Examples.populatedBackendBug)).map
            (fun r => r.get "taskId")
          = .ok (.obj [("_id", .str "t1"), ("title", .str "Fix login")])
      ∧ (Api.updateBug Examples.host (.str "b7") (.ok Examples.populatedBackendBug)).map
            (fun r => r.get "taskId")
          = .ok (.str "[object Object]")
      ∧ (Api.normalizeBug Examples.host Examples.looseBackendBug).map (fun r => r.get "taskId")
          = .ok (.str "")
      ∧ (Api.createBug Examples.host (.obj []) (.ok Examples.looseBackendBug)).map
            (fun r => r.get "taskId")
          = .ok .undefined
      ∧ (Api.updateBug Examples.host (.str "b2") (.ok Examples.looseBackendBug)).map
            (fun r => r.get "taskId")
          = .ok (.str "") := by
  decide

/-! ## Deletion of a module -/

theorem deleteModule_success (clock : Clock) (numberEq : JSValue → JSValue → Bool)
    (projectId moduleId reply : JSValue) (s : Store) :
    (deleteModule clock numberEq projectId moduleId (.ok reply) s).store.modules
        = s.modules.filter (fun m =>
            !(numberEq (m.get "projectId") projectId && numberEq (m.get "id") moduleId))
      ∧ (∀ m ∈ (deleteModule clock numberEq projectId moduleId (.ok reply) s).store.modules,
          (numberEq (m.get "projectId") projectId && numberEq (m.get "id") moduleId) = false)
      ∧ ((∀ m ∈ s.modules, numberEq (m.get "id") moduleId = false) →
          (deleteModule clock numberEq projectId moduleId (.ok reply) s).store.modules
            = s.modules) := by
  have hmods : (deleteModule clock numberEq projectId moduleId (.ok reply) s).store.modules
      = s.modules.filter (fun m =>
          !(numberEq (m.get "projectId") projectId && numberEq (m.get "id") moduleId)) := rfl
  refine ⟨hmods, ?_, ?_⟩
  · intro m hm
    rw [hmods, List.mem_filter] at hm
    have h2 := hm.2
    revert h2
    cases numberEq (m.get "projectId") projectId <;>
      cases numberEq (m.get "id") moduleId <;> simp
  · intro hnan
    rw [hmods, List.filter_eq_self]
    intro m hm
    simp [hnan m hm]

/-- C29: after `deleteModule(projectId, moduleId)` succeeded on a store whose
ids are ObjectId strings, the module with that `projectId` and that id is
still in the collection: `Number` turns either id into NaN, which is strictly
equal to nothing, so the filter drops no module.  The sibling `updateModule`
compares the same two ids with `===` and does find the module. -/
theorem deleteModule_keeps_object_id_module :
    (deleteModule Examples.clock Examples.numberEq (.str "65a1b2c3d4e5f60718293a4a")
        (.str "65a1b2c3d4e5f60718293a4b") (.ok Examples.updateResponse)
        Examples.objectIdStore).result = .ok .undefined
      ∧ (deleteModule Examples.clock Examples.numberEq (.str "65a1b2c3d4e5f60718293a4a")
          (.str "65a1b2c3d4e5f60718293a4b") (.ok Examples.updateResponse)
          Examples.objectIdStore).store.modules = Examples.objectIdStore.modules
      ∧ Examples.objectIdModule
          ∈ (deleteModule Examples.clock Examples.numberEq (.str "65a1b2c3d4e5f60718293a4a")
              (.str "65a1b2c3d4e5f60718293a4b") (.ok Examples.updateResponse)
              Examples.objectIdStore).store.modules
      ∧ Examples.objectIdModule.get "projectId" = .str "65a1b2c3d4e5f60718293a4a"
      ∧ Examples.objectIdModule.get "id" = .str "65a1b2c3d4e5f60718293a4b"
      ∧ ((updateModule Examples.clock (.str "65a1b2c3d4e5f60718293a4a")
            (.str "65a1b2c3d4e5f60718293a4b") [("name", .str "Login")]
            (.ok Examples.updateResponse) Examples.objectIdStore).store.modules.map
            fun m => m.get "name")
          = [.str "Login", .str "Billing"] := by
  decide

/-! ## Dashboard statistics -/

theorem countStatus_nil (status : String) : DashboardController.countStatus [] status = 0 := rfl

theorem countStatus_cons (r : Fields) (rest : List Fields) (status : String) :
    DashboardController.countStatus (r :: rest) status
      = (if r.get "status" = .str status then 1 else 0)
          + DashboardController.countStatus rest status := by
  unfold DashboardController.countStatus
  rw [List.filter_cons]
  by_cases h : r.get "status" = .str status
  · have hs : strictEq (r.get "status") (.str status) = true := (strictEq_str_iff _ _).2 h
    rw [if_pos hs, if_pos h, List.length_cons]
    omega
  · have hs : strictEq (r.get "status") (.str status) = false := strictEq_str_eq_false h
    rw [hs, if_neg h]
    simp

theorem countStatus_three_le (records : List Fields) (a b c : String)
    (hab : a ≠ b) (hac : a ≠ c) (hbc : b ≠ c) :
    DashboardController.countStatus records a + DashboardController.countStatus records b
        + DashboardController.countStatus records c ≤ records.length
      ∧ ((∀ r ∈ records, r.get "status" = .str a ∨ r.get "status" = .str b
            ∨ r.get "status" = .str c) →
          DashboardController.countStatus records a + DashboardController.countStatus records b
            + DashboardController.countStatus records c = records.length) := by
  induction records with
  | nil => exact ⟨by simp [countStatus_nil], fun _ => by simp [countStatus_nil]⟩
  | cons r rest ih =>
    have hne : ∀ x y : String, x ≠ y → ∀ v : JSValue, v = .str x → ¬ v = .str y := by
      intro x y hxy v hv e
      rw [hv] at e
      injection e with e
      exact hxy e
    have hone : (if r.get "status" = .str a then 1 else 0)
        + (if r.get "status" = .str b then 1 else 0)
        + (if r.get "status" = .str c then 1 else 0) ≤ 1 := by
      by_cases h1 : r.get "status" = .str a
      · rw [if_pos h1, if_neg (hne a b hab _ h1), if_neg (hne a c hac _ h1)]
      · by_cases h2 : r.get "status" = .str b
        · rw [if_neg h1, if_pos h2, if_neg (hne b c hbc _ h2)]
        · rw [if_neg h1, if_neg h2]
          split <;> omega
    refine ⟨?_, ?_⟩
    · rw [countStatus_cons, countStatus_cons, countStatus_cons, List.length_cons]
      have := ih.1
      omega
    · intro hall
      have hrest := ih.2 (fun x hx => hall x (List.mem_cons_of_mem _ hx))
      have hr := hall r (List.mem_cons_self _ _)
      have hexact : (if r.get "status" = .str a then 1 else 0)
          + (if r.get "status" = .str b then 1 else 0)
          + (if r.get "status" = .str c then 1 else 0) = 1 := by
        rcases hr with h | h | h
        · rw [if_pos h, if_neg (hne a b hab _ h), if_neg (hne a c hac _ h)]
        · rw [if_neg (hne b a (Ne.symm hab) _ h), if_pos h, if_neg (hne b c hbc _ h)]
        · rw [if_neg (hne c a (Ne.symm hac) _ h), if_neg (hne c b (Ne.symm hbc) _ h), if_pos h]
      rw [countStatus_cons, countStatus_cons, countStatus_cons, List.length_cons]
      omega

theorem calculatedStats_counts (filteredProjects filteredTasks filteredBugs : List Fields) :
    (DashboardController.calculatedStats filteredProjects filteredTasks filteredBugs).totalWork
        = filteredTasks.length + filteredBugs.length
      ∧ (DashboardController.calculatedStats filteredProjects filteredTasks
            filteredBugs).completedWork
          + (DashboardController.calculatedStats filteredProjects filteredTasks
              filteredBugs).inProgressWork
          + (DashboardController.calculatedStats filteredProjects filteredTasks
              filteredBugs).pendingWork
          ≤ (DashboardController.calculatedStats filteredProjects filteredTasks
              filteredBugs).totalWork
      ∧ ((∀ t ∈ filteredTasks, t.get "status" = .str "Completed"
              ∨ t.get "status" = .str "In Progress" ∨ t.get "status" = .str "Pending") →
          (∀ b ∈ filteredBugs, b.get "status" = .str "Resolved"
              ∨ b.get "status" = .str "In Progress" ∨ b.get "status" = .str "Open") →
          (DashboardController.calculatedStats filteredProjects filteredTasks
              filteredBugs).completedWork
            + (DashboardController.calculatedStats filteredProjects filteredTasks
                filteredBugs).inProgressWork
            + (DashboardController.calculatedStats filteredProjects filteredTasks
                filteredBugs).pendingWork
            = (DashboardController.calculatedStats filteredProjects filteredTasks
                filteredBugs).totalWork)
      ∧ ((DashboardController.calculatedStats filteredProjects filteredTasks
            filteredBugs).totalWork = 0 →
          (DashboardController.calculatedStats filteredProjects filteredTasks
            filteredBugs).completionPercentage = 0) := by
  have ht := countStatus_three_le filteredTasks "Completed" "In Progress" "Pending"
    (by decide) (by decide) (by decide)
  have hb := countStatus_three_le filteredBugs "Resolved" "In Progress" "Open"
    (by decide) (by decide) (by decide)
  refine ⟨rfl, ?_, ?_, ?_⟩
  · simp only [DashboardController.calculatedStats]
    have h1 := ht.1
    have h2 := hb.1
    omega
  · intro htasks hbugs
    simp only [DashboardController.calculatedStats]
    have h1 := ht.2 htasks
    have h2 := hb.2 hbugs
    omega
  · intro hzero
    simp only [DashboardController.calculatedStats] at hzero ⊢
    simp [hzero]

theorem calculatedStats_counts_witness :
    (DashboardController.calculatedStats [] [Examples.completedTask, Examples.pendingTask]
        [Examples.openBug, Examples.reopenedBug]).completedWork = 1
      ∧ (DashboardController.calculatedStats [] [Examples.completedTask, Examples.pendingTask]
          [Examples.openBug, Examples.reopenedBug]).pendingWork = 2
      ∧ (DashboardController.calculatedStats [] [Examples.completedTask, Examples.pendingTask]
          [Examples.openBug, Examples.reopenedBug]).totalWork = 4
      ∧ (DashboardController.calculatedStats [] [Examples.completedTask, Examples.pendingTask]
          [Examples.openBug, Examples.reopenedBug]).completionPercentage = 25
      ∧ (DashboardController.calculatedStats [] [] []).completionPercentage = 0 :=
  ⟨by decide, by decide, by decide, by decide,
   (calculatedStats_counts [] [] []).2.2.2 rfl⟩

theorem roundHalfEven_le (n d bound : Nat) (hd : 0 < d) (h : n ≤ bound * d) :
    roundHalfEven n d ≤ bound := by
  have hq : n / d ≤ bound := by
    calc n / d ≤ bound * d / d := Nat.div_le_div_right h
      _ = bound := Nat.mul_div_cancel _ hd
  by_cases heq : n / d = bound
  · have hmod : n % d = 0 := by
      have hsum := Nat.div_add_mod n d
      rw [heq] at hsum
      have : d * bound = bound * d := Nat.mul_comm _ _
      omega
    unfold roundHalfEven
    rw [hmod, if_pos (by omega)]
    exact hq
  · have hlt : n / d + 1 ≤ bound := by omega
    unfold roundHalfEven
    split
    · exact hq
    · split
      · exact hlt
      · split
        · exact hq
        · exact hlt

theorem percentage_le (completedWork totalWork : Nat) (ht : 0 < totalWork)
    (h : completedWork ≤ totalWork) :
    DashboardController.percentage completedWork totalWork ≤ 100 := by
  unfold DashboardController.percentage
  split
  · omega
  · have hm : (Double.divide completedWork totalWork).mant
        ≤ 2 ^ (Double.divide completedWork totalWork).scale := by
      unfold Double.divide Double.nearest
      exact roundHalfEven_le _ _ _ ht
        (le_trans (Nat.mul_le_mul_right _ h) (le_of_eq (Nat.mul_comm _ _)))
    have hm2 : (Double.times (Double.divide completedWork totalWork) 100).mant
        ≤ 100 * 2 ^ (Double.times (Double.divide completedWork totalWork) 100).scale := by
      unfold Double.times Double.nearest
      apply roundHalfEven_le _ _ _ (Nat.two_pow_pos _)
      calc (Double.divide completedWork totalWork).mant * 100
              * 2 ^ Double.scaleOf ((Double.divide completedWork totalWork).mant * 100)
                  (2 ^ (Double.divide completedWork totalWork).scale)
            ≤ 2 ^ (Double.divide completedWork totalWork).scale * 100
              * 2 ^ Double.scaleOf ((Double.divide completedWork totalWork).mant * 100)
                  (2 ^ (Double.divide completedWork totalWork).scale) :=
              Nat.mul_le_mul_right _ (Nat.mul_le_mul_right _ hm)
        _ = 100 * 2 ^ Double.scaleOf ((Double.divide completedWork totalWork).mant * 100)
                  (2 ^ (Double.divide completedWork totalWork).scale)
              * 2 ^ (Double.divide completedWork totalWork).scale := by ring
    unfold Double.round
    generalize Double.times (Double.divide completedWork totalWork) 100 = x at hm2 ⊢
    have hpos : 0 < 2 ^ (x.scale + 1) := Nat.two_pow_pos _
    rw [Nat.div_le_iff_le_mul_add_pred hpos]
    have hp : 2 ^ (x.scale + 1) = 2 * 2 ^ x.scale := by ring
    have hpos2 : 0 < 2 ^ x.scale := Nat.two_pow_pos _
    rw [hp]
    generalize 2 ^ x.scale = p at hm2 hpos2
    omega

theorem calculatedStats_percentage_le (filteredProjects filteredTasks filteredBugs : List Fields) :
    (DashboardController.calculatedStats filteredProjects filteredTasks
      filteredBugs).completionPercentage ≤ 100 := by
  simp only [DashboardController.calculatedStats]
  split
  · rename_i hpos
    apply percentage_le _ _ hpos
    exact Nat.add_le_add (List.length_filter_le _ _) (List.length_filter_le _ _)
  · omega

/-- C30: with 23 completed tasks among 40 tasks and no bugs, `totalWork` is 40
and `completedWork` is 23, so that 100 * completedWork / totalWork is exactly
57.5 and rounds to 58; the dashboard shows 57.  In double precision the quotient
23 / 40 is computed first and rounded, and its product with 100 is the double
just below 57.5, which `Math.round` takes down. -/
theorem completion_percentage_off_by_one :
    (DashboardController.calculatedStats [] Examples.fortyTasks []).totalWork = 40
      ∧ (DashboardController.calculatedStats [] Examples.fortyTasks []).completedWork = 23
      ∧ 2 * (100 * (DashboardController.calculatedStats [] Examples.fortyTasks []).completedWork)
          = 115 * (DashboardController.calculatedStats [] Examples.fortyTasks []).totalWork
      ∧ Double.times (Double.divide 23 40) 100 = ⟨115 * 2 ^ 46 - 1, 47⟩
      ∧ (DashboardController.calculatedStats [] Examples.fortyTasks []).completionPercentage = 57
      ∧ (DashboardController.calculatedStats [] Examples.fortyTasks []).completionPercentage
          ≠ (2 * (100 * (DashboardController.calculatedStats [] Examples.fortyTasks
                []).completedWork)
              + (DashboardController.calculatedStats [] Examples.fortyTasks []).totalWork)
            / (2 * (DashboardController.calculatedStats [] Examples.fortyTasks []).totalWork) := by
  decide

end BugTracker
